import Mathlib

/-!
# Service connection of cocaine-framework-native

A shallow embedding of `src/src/service_impl.cpp` (`service_connection_t`).

Modelling conventions.

* A member function becomes a pure function from the connection state (and the
  outcomes of the collaborators it consults) to an `outcome`: the value returned
  or the exception thrown, the connection state afterwards, and the ordered list
  of observable calls made on collaborators (`event`).
* Handlers are opaque: they are identified by a number and every call on one is
  recorded in the event list.  A handler callback is assumed not to re-enter the
  connection while it runs.
* Every member function runs to completion; `m_handlers_lock` is not part of the state.
  Where the mutex matters, the section on `m_handlers_lock` lists, per member function,
  the points at which the lock is taken and released between the calls (`lock_step`),
  and these lists are proved to carry the same calls as the member functions.
* The manager is a weak reference: `m_manager = none` is an expired reference.
  `release_connection`, `post` and `resolve` of a live manager are recorded as
  events and assumed not to throw.
-/

namespace cocaine.framework

/-! ## Data model -/

/-- The connection status enum `service_status`. -/
inductive service_status where
  | disconnected
  | connecting
  | connected
  | waiting_for_sessions
  deriving DecidableEq, Repr

/-- The error codes `service_errc` used by `service_impl.cpp`. -/
inductive service_errc where
  | not_connected
  | wait_for_connection
  | bad_version
  | broken_manager
  deriving DecidableEq, Repr

/-- A thrown exception: a `service_error_t` carrying a `service_errc`, or any other
exception object (raised by the socket, the resolver, the locator future or a handler),
identified by a code. -/
inductive exception where
  | service_error_t (code : service_errc)
  | foreign (code : Nat)
  deriving DecidableEq, Repr

/-- Modelled from the spec: the type `session_id_t` is declared in a header that is
not among the sources; the spec gives the band as `uint64`, so session ids are natural
numbers below `2 ^ 64` and the counter wraps at that modulus. -/
def session_id_modulus : Nat := 2 ^ 64

/-- Identity of a session handler (`std::shared_ptr<service_handler_concept_t>`). -/
abbrev handler_t := Nat

/-- A TCP endpoint `(address, port)`. -/
structure endpoint_t where
  address : Nat
  port : Nat
  deriving DecidableEq, Repr

/-- The I/O channel `iochannel_t`: allocations are told apart by a generation number;
`attached` is the endpoint of the socket installed by `attach`, if any. -/
structure iochannel_t where
  generation : Nat
  attached : Option endpoint_t
  deriving DecidableEq, Repr

/-- The result of `new iochannel_t` while `old` is still alive: a distinct, unattached
channel. -/
def iochannel_t.fresh (old : iochannel_t) : iochannel_t :=
  { generation := old.generation + 1, attached := none }

/-- What the connection needs to know of a live manager: whether it has a system
logger (`get_system_logger()`). -/
structure service_manager_t where
  system_logger : Bool
  deriving DecidableEq, Repr

/-- An inbound frame `cocaine::io::message_t`: `band()`, `id()` and the payload. -/
structure message_t where
  band : Nat
  id : Nat
  payload : List Nat
  deriving DecidableEq, Repr

/-- Modelled from the spec: `handlers_map_t` is declared in a header that is not among
the sources; the spec calls it a mapping `session_id → handler`.  It is kept as a list
of entries ordered by key, as an ordered map iterates. -/
abbrev handlers_map_t := List (Nat × handler_t)

/-- The lookup `m_handlers.find(band)`: the entry stored under `band`, if any. -/
def handlers_map_t.find (t : handlers_map_t) (band : Nat) : Option handler_t :=
  (List.find? (fun e => e.1 == band) t).map Prod.snd

/-- The removal `m_handlers.erase(it)` of the entry stored under `band`. -/
def handlers_map_t.erase (t : handlers_map_t) (band : Nat) : handlers_map_t :=
  List.filter (fun e => e.1 != band) t

/-- The assignment `m_handlers[id] = handler`: overwrites the entry stored under `id`
or inserts a new one at its place in key order. -/
def handlers_map_t.assign : handlers_map_t → Nat → handler_t → handlers_map_t
  | [], id, h => [(id, h)]
  | e :: rest, id, h =>
    if id < e.1 then (id, h) :: e :: rest
    else if id = e.1 then (id, h) :: rest
    else e :: handlers_map_t.assign rest id h

/-- The table is ordered by key and no key is repeated, as in a map; the constructors
start from the empty table and `assign` and `erase` keep it so. -/
def handlers_map_t.ordered (t : handlers_map_t) : Prop :=
  List.Pairwise (fun a b => a < b) (t.map Prod.fst)

/-- The members of `service_connection_t`. -/
structure service_connection_t where
  m_name : Option String
  m_endpoint : Option endpoint_t
  m_version : Nat
  m_manager : Option service_manager_t
  m_connection_status : service_status
  m_use_default_executor : Bool
  m_session_counter : Nat
  m_handlers : handlers_map_t
  m_channel : iochannel_t
  deriving DecidableEq, Repr

/-- An observable call made by the connection on a collaborator. -/
inductive event where
  /-- The call `h->handle_message(message)`: the handler's *deliver*. -/
  | deliver (h : handler_t) (message : message_t)
  /-- The call `h->error(make_exception_ptr(err))`: the handler's *fail*. -/
  | fail (h : handler_t) (err : service_errc)
  /-- The call `m->release_connection(shared_from_this())`. -/
  | release
  /-- The old channel is moved into a task posted to the loop. -/
  | retire (channel : iochannel_t)
  /-- The no-op task posted to wake the loop up. -/
  | wake_up
  /-- The call `m->resolve(name).then(on_resolved)`. -/
  | resolve (name : String)
  /-- The socket constructor is called for the endpoint. -/
  | open_socket (target : Option endpoint_t)
  /-- The debug log line for a frame with an unknown band. -/
  | log_debug
  /-- The warning log line for an exception thrown by a handler. -/
  | log_warning
  deriving DecidableEq, Repr

deriving instance DecidableEq for Except

/-- What a member function did: the value returned or the exception thrown, the
connection afterwards, and the calls made, in order. -/
structure outcome (α : Type) where
  ret : Except exception α
  conn : service_connection_t
  events : List event
  deriving DecidableEq

/-- The value of a `future<std::shared_ptr<service_connection_t>>` when the member
function returns it. -/
inductive future where
  /-- Made ready with `shared_from_this()`. -/
  | ready
  /-- Made ready with an exception. -/
  | error (e : exception)
  /-- The continuation `on_resolved` of a resolve request still in flight. -/
  | pending
  deriving DecidableEq, Repr

/-! ## Constructors -/

/-- The constructor `service_connection_t(name, manager, version)`
(`service_impl.cpp`, lines 18-29). -/
def service_connection_t.of_name (name : String) (manager : Option service_manager_t)
    (version : Nat) : service_connection_t :=
  { m_name := some name
    m_endpoint := none
    m_version := version
    m_manager := manager
    m_connection_status := service_status.disconnected
    m_use_default_executor := true
    m_session_counter := 1
    m_handlers := []
    m_channel := { generation := 0, attached := none } }

/-- The constructor `service_connection_t(endpoint, manager, version)`
(`service_impl.cpp`, lines 31-42). -/
def service_connection_t.of_endpoint (target : endpoint_t) (manager : Option service_manager_t)
    (version : Nat) : service_connection_t :=
  { m_name := none
    m_endpoint := some target
    m_version := version
    m_manager := manager
    m_connection_status := service_status.disconnected
    m_use_default_executor := true
    m_session_counter := 1
    m_handlers := []
    m_channel := { generation := 0, attached := none } }

/-! ## Member functions -/

/-- The member `manager()` (lines 44-52): upgrades the weak reference or throws
`broken_manager`. -/
def service_connection_t.manager (c : service_connection_t) :
    Except exception service_manager_t :=
  match c.m_manager with
  | some m => Except.ok m
  | none => Except.error (exception.service_error_t service_errc.broken_manager)

/-- The member `soft_destroy()` (lines 54-70). -/
def service_connection_t.soft_destroy (c : service_connection_t) : outcome Unit :=
  if c.m_connection_status = service_status.connecting then
    { ret := Except.error (exception.service_error_t service_errc.wait_for_connection)
      conn := c, events := [] }
  else if c.m_connection_status ≠ service_status.waiting_for_sessions then
    let c1 := { c with m_connection_status := service_status.waiting_for_sessions }
    if c1.m_handlers.isEmpty then
      match c1.m_manager with
      | some _ => { ret := Except.ok (), conn := c1, events := [event.release] }
      | none => { ret := Except.ok (), conn := c1, events := [] }
    else { ret := Except.ok (), conn := c1, events := [] }
  else { ret := Except.ok (), conn := c, events := [] }

/-- The member `create_session(handler, channel)` (lines 72-89): the value returned is the
session id together with the channel written to the out-parameter. -/
def service_connection_t.create_session (c : service_connection_t) (handler : handler_t) :
    outcome (Nat × iochannel_t) :=
  if c.m_connection_status = service_status.disconnected then
    { ret := Except.error (exception.service_error_t service_errc.not_connected)
      conn := c, events := [] }
  else if c.m_connection_status = service_status.waiting_for_sessions then
    { ret := Except.error (exception.service_error_t service_errc.wait_for_connection)
      conn := c, events := [] }
  else
    let current_session := c.m_session_counter
    let c1 := { c with m_session_counter := (c.m_session_counter + 1) % session_id_modulus }
    let c2 := { c1 with m_handlers := handlers_map_t.assign c1.m_handlers current_session handler }
    { ret := Except.ok (current_session, c2.m_channel), conn := c2, events := [] }

/-- The member `reset_sessions()` (lines 157-171): empties the table and fails every
handler that was in it with `not_connected`, in table order; whatever a handler throws is
swallowed. -/
def service_connection_t.reset_sessions (c : service_connection_t) :
    service_connection_t × List event :=
  let handlers := c.m_handlers
  ({ c with m_handlers := [] },
   handlers.map (fun e => event.fail e.2 service_errc.not_connected))

/-- The member `connect_to_endpoint()` (lines 129-155).  The argument `socket` is what
opening the socket and attaching it to the channel does when it is reached: `none` when it
succeeds, the exception thrown otherwise. -/
def service_connection_t.connect_to_endpoint (c : service_connection_t)
    (socket : Option exception) : outcome Unit :=
  match c.manager with
  | Except.error e =>
    let c1 := { c with m_connection_status := service_status.disconnected }
    let r := c1.reset_sessions
    { ret := Except.error e, conn := r.1, events := r.2 }
  | Except.ok _ =>
    match socket with
    | some e =>
      let c1 := { c with m_connection_status := service_status.disconnected }
      let r := c1.reset_sessions
      { ret := Except.error e, conn := r.1, events := event.open_socket c.m_endpoint :: r.2 }
    | none =>
      let c1 := { c with m_channel := { c.m_channel with attached := c.m_endpoint } }
      let c2 := { c1 with m_connection_status := service_status.connected }
      { ret := Except.ok (), conn := c2
        events := [event.open_socket c.m_endpoint, event.wake_up] }

/-- The member `connect(lock)` (lines 108-127).  With a name the resolve request is issued and its
continuation `on_resolved` runs later; with an endpoint the socket is opened at once.
Every exception is turned into an error future. -/
def service_connection_t.connect (c : service_connection_t) (socket : Option exception) :
    outcome future :=
  match c.m_name with
  | some name =>
    match c.manager with
    | Except.error e => { ret := Except.ok (future.error e), conn := c, events := [] }
    | Except.ok _ =>
      let c1 := { c with m_connection_status := service_status.connecting }
      { ret := Except.ok future.pending, conn := c1, events := [event.resolve name] }
  | none =>
    let c1 := { c with m_connection_status := service_status.connecting }
    let r := c1.connect_to_endpoint socket
    match r.ret with
    | Except.error e => { ret := Except.ok (future.error e), conn := r.conn, events := r.events }
    | Except.ok _ => { ret := Except.ok future.ready, conn := r.conn, events := r.events }

/-- The member `reconnect()` (lines 91-106). -/
def service_connection_t.reconnect (c : service_connection_t) (socket : Option exception) :
    outcome future :=
  if c.m_connection_status = service_status.connecting then
    { ret := Except.error (exception.service_error_t service_errc.wait_for_connection)
      conn := c, events := [] }
  else
    let c1 := { c with m_connection_status := service_status.disconnected }
    let channel := c1.m_channel
    let c2 := { c1 with m_channel := iochannel_t.fresh channel }
    let r := c2.reset_sessions
    match r.1.manager with
    | Except.error e => { ret := Except.error e, conn := r.1, events := r.2 }
    | Except.ok _ =>
      let k := r.1.connect socket
      { ret := k.ret, conn := k.conn, events := r.2 ++ event.retire channel :: k.events }

/-- The locator response read by `on_resolved`: `((hostname, port), version)`. -/
structure service_info_t where
  hostname : String
  port : Nat
  version : Nat
  deriving DecidableEq, Repr

/-- The member `on_resolved(f)` (lines 173-197).  The argument `f` is what `f.next()`
yields, `query` is what the host lookup `resolver::query(hostname, port)` yields, and `socket` is as in
`connect_to_endpoint`.  The value returned is `shared_from_this()`, the connection as it
is on return. -/
def service_connection_t.on_resolved (c : service_connection_t)
    (f : Except exception service_info_t) (query : Except exception endpoint_t)
    (socket : Option exception) : outcome service_connection_t :=
  let failed (c0 : service_connection_t) (e : exception) : outcome service_connection_t :=
    let c1 := { c0 with m_connection_status := service_status.disconnected }
    let r := c1.reset_sessions
    { ret := Except.error e, conn := r.1, events := r.2 }
  match f with
  | Except.error e => failed c e
  | Except.ok service_info =>
    match query with
    | Except.error e => failed c e
    | Except.ok target =>
      let c1 := { c with m_endpoint := some target }
      if c1.m_version ≠ service_info.version then
        failed c1 (exception.service_error_t service_errc.bad_version)
      else
        let r := c1.connect_to_endpoint socket
        match r.ret with
        | Except.error e => { ret := Except.error e, conn := r.conn, events := r.events }
        | Except.ok _ => { ret := Except.ok r.conn, conn := r.conn, events := r.events }

/-- The member `on_error(code)` (lines 199-202): calls `reconnect()` and drops the future
it returns; an exception thrown by `reconnect()` is not caught here. -/
def service_connection_t.on_error (c : service_connection_t) (_code : Nat)
    (socket : Option exception) : outcome Unit :=
  let r := c.reconnect socket
  match r.ret with
  | Except.error e => { ret := Except.error e, conn := r.conn, events := r.events }
  | Except.ok _ => { ret := Except.ok (), conn := r.conn, events := r.events }

/-- What the call `h->handle_message(message)` does. -/
inductive handler_result where
  /-- The handler returns. -/
  | returns
  /-- The handler throws an exception derived from `std::exception`. -/
  | throws_std
  /-- The handler throws an object, identified by a code, that is not derived from
  `std::exception`. -/
  | throws_other (code : Nat)
  deriving DecidableEq, Repr

/-- The member `on_message(message)` (lines 204-244).  The argument `choke` is the event id
`io::event_traits<io::rpc::choke>::id`, whose value is declared outside the sources;
`delivery` is what the handler does if it is called. -/
def service_connection_t.on_message (choke : Nat) (c : service_connection_t)
    (message : message_t) (delivery : handler_result) : outcome Unit :=
  match handlers_map_t.find c.m_handlers message.band with
  | none =>
    match c.m_manager with
    | some m =>
      if m.system_logger then { ret := Except.ok (), conn := c, events := [event.log_debug] }
      else { ret := Except.ok (), conn := c, events := [] }
    | none => { ret := Except.ok (), conn := c, events := [] }
  | some h =>
    let c1 :=
      if message.id = choke then
        { c with m_handlers := handlers_map_t.erase c.m_handlers message.band }
      else c
    let released : List event :=
      if c1.m_connection_status = service_status.waiting_for_sessions ∧ c1.m_handlers.isEmpty then
        match c1.m_manager with
        | some _ => [event.release]
        | none => []
      else []
    let called := released ++ [event.deliver h message]
    match delivery with
    | handler_result.returns => { ret := Except.ok (), conn := c1, events := called }
    | handler_result.throws_std =>
      match c1.m_manager with
      | some m =>
        if m.system_logger then
          { ret := Except.ok (), conn := c1, events := called ++ [event.log_warning] }
        else { ret := Except.ok (), conn := c1, events := called }
      | none => { ret := Except.ok (), conn := c1, events := called }
    | handler_result.throws_other code =>
      { ret := Except.error (exception.foreign code), conn := c1, events := called }

/-! ## Histories of operations -/

/-- An operation applied to the connection, with what the collaborators it consults do.
The last one is the environment tearing the manager down, after which the weak
reference is expired. -/
inductive operation where
  | create_session (handler : handler_t)
  | on_message (message : message_t) (delivery : handler_result)
  | soft_destroy
  | reconnect (socket : Option exception)
  | on_error (code : Nat) (socket : Option exception)
  | connect (socket : Option exception)
  | on_resolved (f : Except exception service_info_t) (query : Except exception endpoint_t)
      (socket : Option exception)
  | manager_torn_down
  deriving DecidableEq

/-- What one operation leaves behind: the connection, the calls made, and the id returned
when the operation is a `create_session` that succeeds. -/
structure step_t where
  conn : service_connection_t
  events : List event
  created : Option Nat
  deriving DecidableEq

/-- The session id of a successful `create_session`. -/
def created_id (ret : Except exception (Nat × iochannel_t)) : Option Nat :=
  match ret with
  | Except.ok v => some v.1
  | Except.error _ => none

/-- One operation applied to the connection `c`. -/
def step (choke : Nat) (c : service_connection_t) : operation → step_t
  | operation.create_session handler =>
    let r := c.create_session handler
    { conn := r.conn, events := r.events, created := created_id r.ret }
  | operation.on_message message delivery =>
    let r := c.on_message choke message delivery
    { conn := r.conn, events := r.events, created := none }
  | operation.soft_destroy =>
    let r := c.soft_destroy
    { conn := r.conn, events := r.events, created := none }
  | operation.reconnect socket =>
    let r := c.reconnect socket
    { conn := r.conn, events := r.events, created := none }
  | operation.on_error code socket =>
    let r := c.on_error code socket
    { conn := r.conn, events := r.events, created := none }
  | operation.connect socket =>
    let r := c.connect socket
    { conn := r.conn, events := r.events, created := none }
  | operation.on_resolved f query socket =>
    let r := c.on_resolved f query socket
    { conn := r.conn, events := r.events, created := none }
  | operation.manager_torn_down =>
    { conn := { c with m_manager := none }, events := [], created := none }

/-- What a sequence of operations leaves behind: the connection, all calls made, and the
ids returned by the successful `create_session` calls, each in order. -/
structure history_t where
  conn : service_connection_t
  events : List event
  created : List Nat
  deriving DecidableEq

/-- A sequence of operations applied to the connection `c`, one after the other. -/
def run (choke : Nat) (c : service_connection_t) : List operation → history_t
  | [] => { conn := c, events := [], created := [] }
  | op :: ops =>
    let s := step choke c op
    let h := run choke s.conn ops
    { conn := h.conn, events := s.events ++ h.events, created := s.created.toList ++ h.created }

/-- A connection as one of the two constructors leaves it. -/
def service_connection_t.constructed (c : service_connection_t) : Prop :=
  (∃ name manager version, c = service_connection_t.of_name name manager version) ∨
  (∃ target manager version, c = service_connection_t.of_endpoint target manager version)

/-- The event is a call (*deliver* or *fail*) on the handler `h`. -/
def event.on_handler (h : handler_t) : event → Bool
  | event.deliver g _ => g == h
  | event.fail g _ => g == h
  | _ => false

/-- The event is a call on some handler. -/
def event.is_handler_call : event → Bool
  | event.deliver _ _ => true
  | event.fail _ _ => true
  | _ => false

/-- The event is terminal for a session: *deliver* of a choke frame, or *fail*. -/
def event.terminal (choke : Nat) : event → Bool
  | event.deliver _ message => message.id == choke
  | event.fail _ _ => true
  | _ => false

/-- The handler an operation applied to `c` registers: the handler of a `create_session`
that succeeds. -/
def step_registered (c : service_connection_t) : operation → Option handler_t
  | operation.create_session handler =>
    match (c.create_session handler).ret with
    | Except.ok _ => some handler
    | Except.error _ => none
  | _ => none

/-- The handlers registered along a sequence of operations applied to `c`, in order: a
`create_session` that fails registers nothing. -/
def registered (choke : Nat) (c : service_connection_t) : List operation → List handler_t
  | [] => []
  | op :: ops => (step_registered c op).toList ++ registered choke (step choke c op).conn ops

/-! ## Notions used in the statements -/

/-- The connection as `reconnect` leaves it before it turns to the manager: marked
Disconnected, holding a fresh channel, the session table emptied. -/
def service_connection_t.reconnect_midpoint (c : service_connection_t) : service_connection_t :=
  { c with
    m_connection_status := service_status.disconnected
    m_channel := iochannel_t.fresh c.m_channel
    m_handlers := [] }

/-- The calls `reset_sessions` makes for the table `t`: one *fail* with `not_connected`
per entry. -/
def fail_all (t : handlers_map_t) : List event :=
  t.map (fun e => event.fail e.2 service_errc.not_connected)

/-- What an operation other than a delivery or a `create_session` does to the sessions,
from the table `t` to the table `t1` with the calls `evs`: it leaves the table alone and
calls no handler, or it empties the table and fails every entry. -/
def quiet_or_reset (t t1 : handlers_map_t) (evs : List event) : Prop :=
  (t1 = t ∧ evs.filter event.is_handler_call = []) ∨
  (t1 = [] ∧ evs.filter event.is_handler_call = fail_all t)

/-- The number of entries of the session table that hold the handler `h`. -/
def live_sessions (h : handler_t) (t : handlers_map_t) : Nat :=
  List.count h (t.map Prod.snd)

/-- Every terminal event of the list is its last event: none is followed by another
event, terminal or not. -/
def terminal_last (choke : Nat) (evs : List event) : Prop :=
  ∀ pre e post, evs = pre ++ e :: post → event.terminal choke e = true → post = []

/-- The operation is one of those that leave a Draining connection Draining: `create_session`
(which fails there), `on_message`, `soft_destroy`, and the manager being torn down. -/
def operation.keeps_draining : operation → Bool
  | operation.create_session _ => true
  | operation.on_message _ _ => true
  | operation.soft_destroy => true
  | operation.manager_torn_down => true
  | _ => false

/-- Every key of the table is at least 1 and at most `n`. -/
def keys_within (t : handlers_map_t) (n : Nat) : Prop :=
  ∀ e ∈ t, 1 ≤ e.1 ∧ e.1 ≤ n

/-! ## Concrete connections used in the examples -/

/-- A live manager with a system logger. -/
def sample_manager : service_manager_t := { system_logger := true }

/-- A connection by name `"echo"` at version 1 whose resolve request is in flight. -/
def sample_connecting : service_connection_t :=
  ((service_connection_t.of_name "echo" (some sample_manager) 1).connect none).conn

/-- A connection by endpoint at version 1, connected. -/
def sample_connected : service_connection_t :=
  ((service_connection_t.of_endpoint { address := 127, port := 34001 }
    (some sample_manager) 1).connect none).conn

/-- The connected sample with two sessions, ids 1 and 2, in flight. -/
def sample_two_sessions : service_connection_t :=
  (run 6 sample_connected [operation.create_session 7, operation.create_session 8]).conn

/-- The connected sample with one session in flight, after the manager was torn down. -/
def sample_orphaned : service_connection_t :=
  (run 6 sample_connected [operation.create_session 7, operation.manager_torn_down]).conn

/-- A Draining connection with one session in flight, after the manager was torn down. -/
def sample_draining_orphaned : service_connection_t :=
  (run 6 sample_connected [operation.create_session 7, operation.soft_destroy,
    operation.manager_torn_down]).conn

/-- A Draining connection with one session in flight and a live manager. -/
def sample_draining : service_connection_t :=
  (run 6 sample_connected [operation.create_session 7, operation.soft_destroy]).conn

/-- The connection by name whose resolve request is in flight, with one session created
meanwhile. -/
def sample_connecting_session : service_connection_t :=
  (sample_connecting.create_session 7).conn

/-- A freshly constructed connection by endpoint at version 1 with a live manager. -/
def sample_fresh : service_connection_t :=
  service_connection_t.of_endpoint { address := 127, port := 34001 } (some sample_manager) 1

/-- A history: connect, register the handler 7, deliver a frame to it, reconnect, receive a
late frame under the old band, register the handler 8. -/
def sample_history : List operation :=
  [operation.connect none, operation.create_session 7,
    operation.on_message { band := 1, id := 4, payload := [] } handler_result.returns,
    operation.reconnect none,
    operation.on_message { band := 1, id := 4, payload := [] } handler_result.returns,
    operation.create_session 8]

/-- A Connected connection by endpoint whose session counter holds the largest id,
`2 ^ 64 - 1`. -/
def sample_last_id : service_connection_t :=
  { sample_connected with m_session_counter := 2 ^ 64 - 1 }

/-- A history that uses up the ids: connect, then `2 ^ 64 - 1` sessions created one after
the other. -/
def sample_exhausting : List operation :=
  operation.connect none :: List.replicate (2 ^ 64 - 1) (operation.create_session 7)

/-- A freshly constructed connection by name `"echo"` at version 1 with a live manager. -/
def sample_named : service_connection_t :=
  service_connection_t.of_name "echo" (some sample_manager) 1

/-- A connection by name `"echo"` at version 1, resolved and connected, with one session
(id 1) in flight. -/
def sample_named_session : service_connection_t :=
  (run 6 sample_named
    [operation.connect none,
      operation.on_resolved
        (Except.ok { hostname := "localhost", port := 34001, version := 1 })
        (Except.ok { address := 127, port := 34001 }) none,
      operation.create_session 7]).conn

/-- A history by name: connect, register the handler 7 while the resolve is in flight,
reconnect (rejected in Connecting), the resolve completes, a frame arrives under band 1. -/
def sample_rejected_history : List operation :=
  [operation.connect none, operation.create_session 7, operation.reconnect none,
    operation.on_resolved (Except.ok { hostname := "localhost", port := 34001, version := 1 })
      (Except.ok { address := 127, port := 34001 }) none,
    operation.on_message { band := 1, id := 4, payload := [] } handler_result.returns]

/-- A history with a retry: `create_session` with the handler 7 fails before the connect
and is called again after it; then a frame, a reconnect, a late frame under the old band
and the registration of the handler 8. -/
def sample_retry_history : List operation :=
  [operation.create_session 7, operation.connect none, operation.create_session 7,
    operation.on_message { band := 1, id := 4, payload := [] } handler_result.returns,
    operation.reconnect none,
    operation.on_message { band := 1, id := 4, payload := [] } handler_result.returns,
    operation.create_session 8]

/-! ## The mutex `m_handlers_lock` -/

/-- A step of a member function as far as the mutex `m_handlers_lock` goes. -/
inductive lock_step where
  /-- A `std::unique_lock` on `m_handlers_lock` is constructed: the mutex is acquired. -/
  | acquire
  /-- The mutex is released: `lock.unlock()`, or the destructor of a lock that owns it. -/
  | release
  /-- A call recorded as an event is made. -/
  | call (e : event)
  deriving DecidableEq, Repr

/-- The calls among the steps, in order. -/
def lock_calls : List lock_step → List event
  | [] => []
  | lock_step.acquire :: steps => lock_calls steps
  | lock_step.release :: steps => lock_calls steps
  | lock_step.call e :: steps => e :: lock_calls steps

/-- Each call among the steps with the number of locks the running operation holds on the
mutex at the moment the call is made, from `held` locks at the start. -/
def held_at_calls : Nat → List lock_step → List (event × Nat)
  | _, [] => []
  | held, lock_step.acquire :: steps => held_at_calls (held + 1) steps
  | held, lock_step.release :: steps => held_at_calls (held - 1) steps
  | held, lock_step.call e :: steps => (e, held) :: held_at_calls held steps

/-- The steps of `reset_sessions()` (lines 157-171) for the table `t`: it takes and releases
no lock; it calls *fail* on every entry. -/
def reset_sessions_steps (t : handlers_map_t) : List lock_step :=
  t.map (fun e => lock_step.call (event.fail e.2 service_errc.not_connected))

/-- The release request `on_message` makes for a known band, if any (lines 224-229), made
after the entry of a choke frame is removed. -/
def service_connection_t.on_message_released (choke : Nat) (c : service_connection_t)
    (message : message_t) : List event :=
  let c1 :=
    if message.id = choke then
      { c with m_handlers := handlers_map_t.erase c.m_handlers message.band }
    else c
  if c1.m_connection_status = service_status.waiting_for_sessions ∧ c1.m_handlers.isEmpty then
    match c1.m_manager with
    | some _ => [event.release]
    | none => []
  else []

/-- The warning line `on_message` logs in its catch block, if any (lines 232-241). -/
def service_connection_t.on_message_warning (c : service_connection_t)
    (delivery : handler_result) : List event :=
  match delivery with
  | handler_result.throws_std =>
    (match c.m_manager with
      | some m => if m.system_logger then [event.log_warning] else []
      | none => [])
  | _ => []

/-- The steps of `on_message(message)`: the lock is taken at line 206; for a known band it
is released by `lock.unlock()` at line 230, before `h->handle_message(message)` at line
231; for an unknown band it is released by the destructor on return. -/
def service_connection_t.on_message_steps (choke : Nat) (c : service_connection_t)
    (message : message_t) (delivery : handler_result) : List lock_step :=
  lock_step.acquire ::
  (match handlers_map_t.find c.m_handlers message.band with
    | none =>
      (match c.m_manager with
        | some m => if m.system_logger then [lock_step.call event.log_debug] else []
        | none => []) ++ [lock_step.release]
    | some h =>
      (c.on_message_released choke message).map lock_step.call ++
        ([lock_step.release, lock_step.call (event.deliver h message)] ++
          (c.on_message_warning delivery).map lock_step.call))

/-- The steps of `connect_to_endpoint()`: no lock is taken on the way to Connected; in the
catch block the lock is taken at line 150, `reset_sessions()` runs at line 152 and the
destructor releases the lock when the exception is thrown on. -/
def service_connection_t.connect_to_endpoint_steps (c : service_connection_t)
    (socket : Option exception) : List lock_step :=
  match c.manager with
  | Except.error _ =>
    (lock_step.acquire :: reset_sessions_steps c.m_handlers) ++ [lock_step.release]
  | Except.ok _ =>
    match socket with
    | some _ =>
      (lock_step.call (event.open_socket c.m_endpoint) :: lock_step.acquire ::
        reset_sessions_steps c.m_handlers) ++ [lock_step.release]
    | none =>
      [lock_step.call (event.open_socket c.m_endpoint), lock_step.call event.wake_up]

/-- The steps of `connect(lock)`, entered with the caller's lock held, and whether that
lock still owns the mutex on return.  By name the lock is released at line 114 before the
resolve request, unless `manager()` throws first; by endpoint it is released at line 120
before `connect_to_endpoint()`. -/
def service_connection_t.connect_steps (c : service_connection_t)
    (socket : Option exception) : List lock_step × Bool :=
  match c.m_name with
  | some name =>
    match c.manager with
    | Except.error _ => ([], true)
    | Except.ok _ => ([lock_step.release, lock_step.call (event.resolve name)], false)
  | none =>
    (lock_step.release ::
      service_connection_t.connect_to_endpoint_steps
        { c with m_connection_status := service_status.connecting } socket, false)

/-- The steps of `reconnect()`: the lock is taken at line 93 and is held while
`reset_sessions()` runs at line 102 and the old channel is posted at line 103; `connect`
releases it, and otherwise the destructor does on the way out. -/
def service_connection_t.reconnect_steps (c : service_connection_t)
    (socket : Option exception) : List lock_step :=
  lock_step.acquire ::
  (if c.m_connection_status = service_status.connecting then [lock_step.release]
   else
    reset_sessions_steps c.m_handlers ++
    (match c.m_manager with
      | none => [lock_step.release]
      | some _ =>
        (lock_step.call (event.retire c.m_channel) ::
          (c.reconnect_midpoint.connect_steps socket).1) ++
          (if (c.reconnect_midpoint.connect_steps socket).2 then [lock_step.release] else [])))

/-- The steps of `on_error(code)`: those of `reconnect()`. -/
def service_connection_t.on_error_steps (c : service_connection_t) (_code : Nat)
    (socket : Option exception) : List lock_step :=
  c.reconnect_steps socket

/-- The steps of `on_resolved(f)`: in the catch block the lock is taken at line 188,
`reset_sessions()` runs at line 190 and the destructor releases the lock when the
exception is thrown on; otherwise the steps are those of `connect_to_endpoint()`. -/
def service_connection_t.on_resolved_steps (c : service_connection_t)
    (f : Except exception service_info_t) (query : Except exception endpoint_t)
    (socket : Option exception) : List lock_step :=
  let failed : List lock_step :=
    (lock_step.acquire :: reset_sessions_steps c.m_handlers) ++ [lock_step.release]
  match f with
  | Except.error _ => failed
  | Except.ok service_info =>
    match query with
    | Except.error _ => failed
    | Except.ok target =>
      if c.m_version ≠ service_info.version then failed
      else
        service_connection_t.connect_to_endpoint_steps { c with m_endpoint := some target }
          socket

/-! ## Theorems -/

/-- C1, counterexample: with the resolve request in flight the status is Connecting, and
`create_session` succeeds there with id 1; it does not fail with `wait_for_connection`. -/
theorem create_session_connecting_counterexample :
    sample_connecting.m_connection_status = service_status.connecting ∧
    (sample_connecting.create_session 7).ret = Except.ok (1, sample_connecting.m_channel) ∧
    (sample_connecting.create_session 7).ret ≠
      Except.error (exception.service_error_t service_errc.wait_for_connection) := by
  decide

/-- C1, amended: `create_session` fails with `not_connected` in Disconnected and with
`wait_for_connection` in Draining; in Connected and in Connecting it succeeds and returns
the session counter and the current channel.  So it succeeds exactly when the status is
Connected or Connecting. -/
theorem create_session_by_status (c : service_connection_t) (handler : handler_t) :
    (c.m_connection_status = service_status.disconnected →
      (c.create_session handler).ret =
        Except.error (exception.service_error_t service_errc.not_connected)) ∧
    (c.m_connection_status = service_status.waiting_for_sessions →
      (c.create_session handler).ret =
        Except.error (exception.service_error_t service_errc.wait_for_connection)) ∧
    (c.m_connection_status = service_status.connected ∨
        c.m_connection_status = service_status.connecting →
      (c.create_session handler).ret = Except.ok (c.m_session_counter, c.m_channel)) ∧
    ((∃ v, (c.create_session handler).ret = Except.ok v) ↔
      (c.m_connection_status = service_status.connected ∨
        c.m_connection_status = service_status.connecting)) := by
  cases hs : c.m_connection_status <;> simp [service_connection_t.create_session, hs]

/-! ### The session table -/

/-- The keys after an assignment are the assigned id and the keys before. -/
theorem keys_assign (t : handlers_map_t) (id : Nat) (h : handler_t) (k : Nat)
    (hk : k ∈ (handlers_map_t.assign t id h).map Prod.fst) :
    k = id ∨ k ∈ t.map Prod.fst := by
  induction t with
  | nil =>
    simp only [handlers_map_t.assign, List.map_cons, List.map_nil, List.mem_singleton] at hk
    exact Or.inl hk
  | cons e t ih =>
    simp only [handlers_map_t.assign] at hk
    by_cases h1 : id < e.1
    · rw [if_pos h1] at hk
      simp only [List.map_cons, List.mem_cons] at hk ⊢
      exact hk
    · rw [if_neg h1] at hk
      by_cases h2 : id = e.1
      · rw [if_pos h2] at hk
        simp only [List.map_cons, List.mem_cons] at hk ⊢
        rcases hk with hk | hk
        · exact Or.inl hk
        · exact Or.inr (Or.inr hk)
      · rw [if_neg h2] at hk
        simp only [List.map_cons, List.mem_cons] at hk ⊢
        rcases hk with hk | hk
        · exact Or.inr (Or.inl hk)
        · rcases ih hk with hk | hk
          · exact Or.inl hk
          · exact Or.inr (Or.inr hk)

/-- An assignment keeps the table ordered by key, without a repeated key. -/
theorem assign_ordered (t : handlers_map_t) (id : Nat) (h : handler_t)
    (ht : handlers_map_t.ordered t) : handlers_map_t.ordered (handlers_map_t.assign t id h) := by
  induction t with
  | nil => simp [handlers_map_t.assign, handlers_map_t.ordered]
  | cons e t ih =>
    simp only [handlers_map_t.ordered, List.map_cons, List.pairwise_cons] at ht
    simp only [handlers_map_t.assign]
    by_cases h1 : id < e.1
    · rw [if_pos h1]
      simp only [handlers_map_t.ordered, List.map_cons, List.pairwise_cons, List.mem_cons]
      refine ⟨?_, ht.1, ht.2⟩
      intro k hk
      rcases hk with hk | hk
      · rw [hk]; exact h1
      · exact Nat.lt_trans h1 (ht.1 k hk)
    · rw [if_neg h1]
      by_cases h2 : id = e.1
      · rw [if_pos h2]
        simp only [handlers_map_t.ordered, List.map_cons, List.pairwise_cons]
        refine ⟨?_, ht.2⟩
        intro k hk
        rw [h2]
        exact ht.1 k hk
      · rw [if_neg h2]
        simp only [handlers_map_t.ordered, List.map_cons, List.pairwise_cons]
        refine ⟨?_, ih ht.2⟩
        intro k hk
        rcases keys_assign t id h k hk with hk | hk
        · rw [hk]; omega
        · exact ht.1 k hk

/-- A removal keeps the table ordered by key, without a repeated key. -/
theorem erase_ordered (t : handlers_map_t) (band : Nat) (ht : handlers_map_t.ordered t) :
    handlers_map_t.ordered (handlers_map_t.erase t band) := by
  unfold handlers_map_t.ordered handlers_map_t.erase at *
  exact List.Pairwise.sublist (List.Sublist.map Prod.fst (List.filter_sublist t)) ht

/-! ### The session counter -/

theorem connect_to_endpoint_counter (c : service_connection_t) (socket : Option exception) :
    (c.connect_to_endpoint socket).conn.m_session_counter = c.m_session_counter := by
  unfold service_connection_t.connect_to_endpoint service_connection_t.reset_sessions
  cases c.manager <;> cases socket <;> rfl

theorem connect_counter (c : service_connection_t) (socket : Option exception) :
    (c.connect socket).conn.m_session_counter = c.m_session_counter := by
  unfold service_connection_t.connect
  cases c.m_name with
  | some name => cases c.manager <;> rfl
  | none =>
    simp only
    split <;> simp [connect_to_endpoint_counter]

theorem reconnect_counter (c : service_connection_t) (socket : Option exception) :
    (c.reconnect socket).conn.m_session_counter = c.m_session_counter := by
  unfold service_connection_t.reconnect
  split
  · rfl
  · simp only
    split
    · rfl
    · simp [connect_counter, service_connection_t.reset_sessions]

theorem on_error_counter (c : service_connection_t) (code : Nat) (socket : Option exception) :
    (c.on_error code socket).conn.m_session_counter = c.m_session_counter := by
  unfold service_connection_t.on_error
  simp only
  split <;> simp [reconnect_counter]

theorem on_resolved_counter (c : service_connection_t) (f : Except exception service_info_t)
    (query : Except exception endpoint_t) (socket : Option exception) :
    (c.on_resolved f query socket).conn.m_session_counter = c.m_session_counter := by
  unfold service_connection_t.on_resolved
  simp only
  split
  · rfl
  · split
    · rfl
    · split
      · rfl
      · split <;> simp [connect_to_endpoint_counter]

theorem soft_destroy_counter (c : service_connection_t) :
    c.soft_destroy.conn.m_session_counter = c.m_session_counter := by
  unfold service_connection_t.soft_destroy
  split
  · rfl
  · split
    · simp only
      split
      · split <;> rfl
      · rfl
    · rfl

theorem on_message_counter (choke : Nat) (c : service_connection_t) (message : message_t)
    (delivery : handler_result) :
    (c.on_message choke message delivery).conn.m_session_counter = c.m_session_counter := by
  unfold service_connection_t.on_message
  split
  · split
    · split <;> rfl
    · rfl
  · simp only
    split
    · split <;> rfl
    · split
      · split <;> split <;> rfl
      · split <;> rfl
    · split <;> rfl

/-- One operation either returns no id and keeps the counter, or returns the counter and
advances it by one modulo `2 ^ 64`. -/
theorem step_counter (choke : Nat) (c : service_connection_t) (op : operation) :
    ((step choke c op).created = none ∧
      (step choke c op).conn.m_session_counter = c.m_session_counter) ∨
    ((step choke c op).created = some c.m_session_counter ∧
      (step choke c op).conn.m_session_counter =
        (c.m_session_counter + 1) % session_id_modulus) := by
  cases op with
  | create_session handler =>
    simp only [step, service_connection_t.create_session]
    split
    · left; exact ⟨rfl, rfl⟩
    · split
      · left; exact ⟨rfl, rfl⟩
      · right; exact ⟨rfl, rfl⟩
  | on_message message delivery => left; exact ⟨rfl, on_message_counter _ _ _ _⟩
  | soft_destroy => left; exact ⟨rfl, soft_destroy_counter _⟩
  | reconnect socket => left; exact ⟨rfl, reconnect_counter _ _⟩
  | on_error code socket => left; exact ⟨rfl, on_error_counter _ _ _⟩
  | connect socket => left; exact ⟨rfl, connect_counter _ _⟩
  | on_resolved f query socket => left; exact ⟨rfl, on_resolved_counter _ _ _ _⟩
  | manager_torn_down => left; exact ⟨rfl, rfl⟩

/-- As long as the counter does not wrap, the ids returned by a sequence of operations are
the consecutive numbers from the counter's initial value. -/
theorem run_created_range (choke : Nat) (ops : List operation) :
    ∀ c : service_connection_t,
      (c.m_session_counter : Nat) + (run choke c ops).created.length ≤ session_id_modulus →
      (run choke c ops).created =
        List.range' c.m_session_counter (run choke c ops).created.length := by
  induction ops with
  | nil => intro c _; rfl
  | cons op ops ih =>
    intro c hlen
    simp only [run] at hlen ⊢
    rcases step_counter choke c op with ⟨hc, hk⟩ | ⟨hc, hk⟩
    · rw [hc] at hlen ⊢
      simp only [Option.toList, List.nil_append] at hlen ⊢
      have := ih (step choke c op).conn (by rw [hk]; exact hlen)
      rw [hk] at this
      exact this
    · rw [hc] at hlen ⊢
      simp only [Option.toList, List.singleton_append, List.length_cons] at hlen ⊢
      have hlt : (c.m_session_counter : Nat) + 1 ≤ session_id_modulus := by omega
      rcases Nat.lt_or_eq_of_le hlt with hlt | heq
      · have hmod : (c.m_session_counter + 1) % session_id_modulus = c.m_session_counter + 1 :=
          Nat.mod_eq_of_lt hlt
        rw [hmod] at hk
        have := ih (step choke c op).conn (by rw [hk]; omega)
        rw [hk] at this
        rw [this, List.length_range']
        rfl
      · have hzero : (run choke (step choke c op).conn ops).created.length = 0 := by omega
        have hnil : (run choke (step choke c op).conn ops).created = [] :=
          List.length_eq_zero.mp hzero
        rw [hnil]
        rfl

/-- C2: in every history of a freshly constructed connection with fewer than `2 ^ 64`
sessions created, the ids returned by the successful `create_session` calls are
1, 2, 3, ... in order: the first one is 1, each is strictly greater than all returned
before it, and none is returned twice. -/
theorem session_ids_never_reused (choke : Nat) (c : service_connection_t)
    (ops : List operation) (hc : c.constructed)
    (hn : (run choke c ops).created.length < 2 ^ 64) :
    (run choke c ops).created = List.range' 1 (run choke c ops).created.length ∧
    (∀ id, (run choke c ops).created.head? = some id → id = 1) ∧
    List.Pairwise (fun a b => a < b) (run choke c ops).created ∧
    (run choke c ops).created.Nodup := by
  have hone : c.m_session_counter = 1 := by
    rcases hc with ⟨name, manager, version, rfl⟩ | ⟨target, manager, version, rfl⟩ <;> rfl
  have hrange := run_created_range choke ops c (by
    rw [hone]
    simp only [session_id_modulus]
    omega)
  rw [hone] at hrange
  refine ⟨hrange, ?_, ?_, ?_⟩
  · intro id hid
    rw [hrange, List.head?_range'] at hid
    split at hid
    · cases hid
    · cases hid; rfl
  · rw [hrange]
    exact List.pairwise_lt_range' 1 _
  · rw [hrange]
    exact List.nodup_range' 1 _

/-- C2, witness: three sessions created around a reconnect get the ids 1, 2, 3. -/
theorem session_ids_never_reused_witness :
    (run 6 (service_connection_t.of_endpoint { address := 127, port := 34001 }
        (some sample_manager) 1)
      [operation.connect none, operation.create_session 7, operation.create_session 8,
        operation.reconnect none, operation.create_session 9]).created = [1, 2, 3] ∧
    List.Pairwise (fun a b => a < b)
      (run 6 (service_connection_t.of_endpoint { address := 127, port := 34001 }
          (some sample_manager) 1)
        [operation.connect none, operation.create_session 7, operation.create_session 8,
          operation.reconnect none, operation.create_session 9]).created :=
  ⟨by decide,
   (session_ids_never_reused 6 _ _ (Or.inr ⟨_, _, _, rfl⟩) (by decide)).2.2.1⟩

/-! ### `reconnect` -/

/-- C4, counterexample: a Connected connection with one session whose manager has been torn
down.  `reconnect` fails the session and then throws `broken_manager`: the old channel is
not posted to the loop and `connect` is not run. -/
theorem reconnect_runs_connect_counterexample :
    sample_orphaned.m_connection_status = service_status.connected ∧
    sample_orphaned.m_handlers = [(1, 7)] ∧
    (sample_orphaned.reconnect none).ret =
      Except.error (exception.service_error_t service_errc.broken_manager) ∧
    (sample_orphaned.reconnect none).events = [event.fail 7 service_errc.not_connected] ∧
    event.retire sample_orphaned.m_channel ∉ (sample_orphaned.reconnect none).events ∧
    (sample_orphaned.reconnect none).conn = sample_orphaned.reconnect_midpoint := by
  decide

/-- C4, amended: in Connecting `reconnect` throws `wait_for_connection` and changes nothing.
Otherwise it marks the connection Disconnected, installs a fresh channel, empties the
session table and calls *fail* with `not_connected` once per entry of the old table and
*deliver* on no handler.  With an expired manager it then throws `broken_manager` and stops
there.  With a live manager it posts the old channel to the loop and runs `connect` from
that Disconnected midpoint: the table stays empty, the channel is the fresh one, and the
status ends Connecting (by name: the resolve request is in flight), Connected (by endpoint,
socket opened) or Disconnected (by endpoint, socket failed). -/
theorem reconnect_effects (c : service_connection_t) (socket : Option exception) :
    (c.m_connection_status = service_status.connecting →
      c.reconnect socket =
        { ret := Except.error (exception.service_error_t service_errc.wait_for_connection)
          conn := c, events := [] }) ∧
    (c.m_connection_status ≠ service_status.connecting →
      c.reconnect_midpoint.m_connection_status = service_status.disconnected ∧
      (∀ h, List.count (event.fail h service_errc.not_connected) (c.reconnect socket).events =
        List.count h (c.m_handlers.map Prod.snd)) ∧
      (∀ h message, event.deliver h message ∉ (c.reconnect socket).events) ∧
      (c.reconnect socket).conn.m_handlers = [] ∧
      (c.reconnect socket).conn.m_channel.generation = c.m_channel.generation + 1 ∧
      (c.m_manager = none →
        c.reconnect socket =
          { ret := Except.error (exception.service_error_t service_errc.broken_manager)
            conn := c.reconnect_midpoint, events := fail_all c.m_handlers }) ∧
      (c.m_manager ≠ none →
        c.reconnect socket =
          { ret := (c.reconnect_midpoint.connect socket).ret
            conn := (c.reconnect_midpoint.connect socket).conn
            events := fail_all c.m_handlers ++
              event.retire c.m_channel :: (c.reconnect_midpoint.connect socket).events } ∧
        (c.reconnect socket).conn.m_connection_status =
          (match c.m_name, socket with
            | some _, _ => service_status.connecting
            | none, none => service_status.connected
            | none, some _ => service_status.disconnected))) := by
  refine ⟨?_, ?_⟩
  · intro hs
    simp [service_connection_t.reconnect, hs]
  · intro hs
    have hcount : ∀ (t : handlers_map_t) (h : handler_t),
        List.count (event.fail h service_errc.not_connected) (fail_all t) =
          List.count h (t.map Prod.snd) := by
      intro t h
      induction t with
      | nil => rfl
      | cons e t ih =>
        simp only [fail_all, List.map_cons, List.count_cons] at ih ⊢
        rw [ih]
        by_cases he : e.2 = h <;> simp [he]
    have hdel : ∀ (t : handlers_map_t) (h : handler_t) (message : message_t),
        event.deliver h message ∉ fail_all t := by
      intro t h message
      simp [fail_all]
    cases hm : c.m_manager with
    | none =>
      have hr : c.reconnect socket =
          { ret := Except.error (exception.service_error_t service_errc.broken_manager)
            conn := c.reconnect_midpoint, events := fail_all c.m_handlers } := by
        simp [service_connection_t.reconnect, hs, service_connection_t.manager,
          service_connection_t.reset_sessions, hm, service_connection_t.reconnect_midpoint,
          fail_all]
      refine ⟨rfl, ?_, ?_, ?_, ?_, fun _ => hr, fun hne => absurd rfl hne⟩
      · intro h; rw [hr]; exact hcount _ h
      · intro h message; rw [hr]; exact hdel _ h message
      · rw [hr]; rfl
      · rw [hr]; rfl
    | some m =>
      have hr : c.reconnect socket =
          { ret := (c.reconnect_midpoint.connect socket).ret
            conn := (c.reconnect_midpoint.connect socket).conn
            events := fail_all c.m_handlers ++
              event.retire c.m_channel :: (c.reconnect_midpoint.connect socket).events } := by
        simp [service_connection_t.reconnect, hs, service_connection_t.manager,
          service_connection_t.reset_sessions, hm, service_connection_t.reconnect_midpoint,
          fail_all]
      have hmid : c.reconnect_midpoint.m_manager = some m := hm
      cases hn : c.m_name with
      | some name =>
        have hk : c.reconnect_midpoint.connect socket =
            { ret := Except.ok future.pending
              conn := { c.reconnect_midpoint with
                m_connection_status := service_status.connecting }
              events := [event.resolve name] } := by
          simp [service_connection_t.connect, service_connection_t.manager, hm, hn,
            service_connection_t.reconnect_midpoint]
        rw [hk] at hr
        refine ⟨rfl, ?_, ?_, ?_, ?_, (fun hnone => nomatch hnone), fun _ => ⟨?_, ?_⟩⟩
        · intro h; rw [hr]; simp [hcount]
        · intro h message; rw [hr]; simp [hdel]
        · rw [hr]; rfl
        · rw [hr]; rfl
        · rw [hr, hk]
        · rw [hr]
      | none =>
        cases socket with
        | none =>
          have hk : c.reconnect_midpoint.connect none =
              { ret := Except.ok future.ready
                conn := { c.reconnect_midpoint with
                  m_connection_status := service_status.connected
                  m_channel := { generation := c.m_channel.generation + 1
                                 attached := c.m_endpoint } }
                events := [event.open_socket c.m_endpoint, event.wake_up] } := by
            simp [service_connection_t.connect, service_connection_t.connect_to_endpoint,
              service_connection_t.manager, hm, hn, service_connection_t.reconnect_midpoint,
              iochannel_t.fresh]
          rw [hk] at hr
          refine ⟨rfl, ?_, ?_, ?_, ?_, (fun hnone => nomatch hnone), fun _ => ⟨?_, ?_⟩⟩
          · intro h; rw [hr]; simp [hcount]
          · intro h message; rw [hr]; simp [hdel]
          · rw [hr]; rfl
          · rw [hr]
          · rw [hr, hk]
          · rw [hr]
        | some e =>
          have hk : c.reconnect_midpoint.connect (some e) =
              { ret := Except.ok (future.error e)
                conn := c.reconnect_midpoint
                events := [event.open_socket c.m_endpoint] } := by
            simp [service_connection_t.connect, service_connection_t.connect_to_endpoint,
              service_connection_t.manager, hm, hn, service_connection_t.reconnect_midpoint,
              service_connection_t.reset_sessions]
          rw [hk] at hr
          refine ⟨rfl, ?_, ?_, ?_, ?_, (fun hnone => nomatch hnone), fun _ => ⟨?_, ?_⟩⟩
          · intro h; rw [hr]; simp [hcount]
          · intro h message; rw [hr]; simp [hdel]
          · rw [hr]; rfl
          · rw [hr]; rfl
          · rw [hr, hk]
          · rw [hr]; rfl

/-- C4, witness: the sample with sessions 1 and 2 and a live manager.  Both handlers are
failed once, the old channel is posted, the socket is opened and the status ends
Connected. -/
theorem reconnect_effects_witness :
    (sample_two_sessions.reconnect none).events =
      [event.fail 7 service_errc.not_connected, event.fail 8 service_errc.not_connected,
        event.retire sample_two_sessions.m_channel,
        event.open_socket sample_two_sessions.m_endpoint, event.wake_up] ∧
    (sample_two_sessions.reconnect none).conn.m_connection_status = service_status.connected ∧
    (sample_two_sessions.reconnect none).conn.m_handlers = [] :=
  ⟨by decide, by decide,
   ((reconnect_effects sample_two_sessions none).2 (by decide)).2.2.2.1⟩

/-! ### `on_message` -/

/-- The lookup on a table with a first entry. -/
theorem find_cons (e : Nat × handler_t) (t : handlers_map_t) (k : Nat) :
    handlers_map_t.find (e :: t) k = if e.1 = k then some e.2 else handlers_map_t.find t k := by
  unfold handlers_map_t.find
  rw [List.find?_cons]
  by_cases h : e.1 = k
  · have hb : (e.1 == k) = true := by simpa using h
    rw [hb, if_pos h]
    rfl
  · have hb : (e.1 == k) = false := by simpa using h
    rw [hb, if_neg h]

/-- The removal on a table with a first entry. -/
theorem erase_cons (e : Nat × handler_t) (t : handlers_map_t) (band : Nat) :
    handlers_map_t.erase (e :: t) band =
      if e.1 = band then handlers_map_t.erase t band else e :: handlers_map_t.erase t band := by
  unfold handlers_map_t.erase
  rw [List.filter_cons]
  by_cases h : e.1 = band
  · simp [h]
  · simp [h]

/-- After the removal nothing is stored under the band. -/
theorem find_erase_self (t : handlers_map_t) (band : Nat) :
    handlers_map_t.find (handlers_map_t.erase t band) band = none := by
  induction t with
  | nil => rfl
  | cons e t ih =>
    rw [erase_cons]
    by_cases he : e.1 = band
    · rw [if_pos he]; exact ih
    · rw [if_neg he, find_cons, if_neg he]; exact ih

/-- The removal leaves what is stored under every other band. -/
theorem find_erase_of_ne (t : handlers_map_t) (band k : Nat) (hk : k ≠ band) :
    handlers_map_t.find (handlers_map_t.erase t band) k = handlers_map_t.find t k := by
  induction t with
  | nil => rfl
  | cons e t ih =>
    rw [erase_cons, find_cons]
    by_cases he : e.1 = band
    · have hek : ¬ e.1 = k := fun h => hk (h.symm.trans he)
      rw [if_pos he, if_neg hek]; exact ih
    · rw [if_neg he, find_cons]
      by_cases hek : e.1 = k
      · rw [if_pos hek, if_pos hek]
      · rw [if_neg hek, if_neg hek]; exact ih

/-- The connection after `on_message` for a frame whose band is in the table, whatever the
handler does: the entry is removed when the frame is a choke. -/
theorem on_message_conn_of_find (choke : Nat) (c : service_connection_t) (message : message_t)
    (delivery : handler_result) (h : handler_t)
    (hfind : handlers_map_t.find c.m_handlers message.band = some h) :
    (c.on_message choke message delivery).conn =
      (if message.id = choke then
        { c with m_handlers := handlers_map_t.erase c.m_handlers message.band }
      else c) := by
  unfold service_connection_t.on_message
  rw [hfind]
  simp only
  cases delivery with
  | returns => rfl
  | throws_std =>
    simp only
    split
    · split <;> rfl
    · rfl
  | throws_other e => rfl

/-- The calls made by `on_message` for a frame whose band is in the table: a release
request when the table has drained in Draining and the manager is live, then the
delivery, then a warning line when the handler threw a `std::exception` and the manager
has a logger. -/
theorem on_message_events_of_find (choke : Nat) (c : service_connection_t)
    (message : message_t) (delivery : handler_result) (h : handler_t)
    (hfind : handlers_map_t.find c.m_handlers message.band = some h) :
    (c.on_message choke message delivery).events =
      (if message.id = choke ∧ c.m_connection_status = service_status.waiting_for_sessions ∧
          handlers_map_t.erase c.m_handlers message.band = [] ∧ c.m_manager ≠ none
        then [event.release] else []) ++
      event.deliver h message ::
      (if delivery = handler_result.throws_std ∧
          c.m_manager.map (fun m => m.system_logger) = some true
        then [event.log_warning] else []) := by
  have hne : c.m_handlers ≠ [] := by
    intro hnil
    rw [hnil] at hfind
    cases hfind
  have hemp : c.m_handlers.isEmpty = false := by
    cases ht : c.m_handlers with
    | nil => exact absurd ht hne
    | cons e t => rfl
  unfold service_connection_t.on_message
  rw [hfind]
  by_cases hid : message.id = choke
  · by_cases hs : c.m_connection_status = service_status.waiting_for_sessions
    · cases hm : c.m_manager with
      | none => cases delivery <;> simp [hid, hs, hm]
      | some m =>
        cases hl : m.system_logger <;>
        cases ht : handlers_map_t.erase c.m_handlers message.band <;>
        cases delivery <;> simp [hid, hs, hm, hl, ht]
    · cases hm : c.m_manager with
      | none => cases delivery <;> simp [hid, hs, hm]
      | some m => cases hl : m.system_logger <;> cases delivery <;> simp [hid, hs, hm, hl]
  · cases hm : c.m_manager with
    | none => cases delivery <;> simp [hid, hm, hemp]
    | some m => cases hl : m.system_logger <;> cases delivery <;> simp [hid, hm, hl, hemp]

/-- What the calls of `on_message` for a known band contain, by their shape. -/
theorem known_band_events_shape (P Q : Prop) [Decidable P] [Decidable Q] (h : handler_t)
    (message : message_t) :
    ((if P then [event.release] else []) ++ event.deliver h message ::
        (if Q then [event.log_warning] else [])).filter event.is_handler_call =
      [event.deliver h message] ∧
    (event.release ∈ (if P then [event.release] else []) ++ event.deliver h message ::
        (if Q then [event.log_warning] else []) ↔ P) ∧
    List.count event.release ((if P then [event.release] else []) ++ event.deliver h message ::
        (if Q then [event.log_warning] else [])) ≤ 1 := by
  by_cases hP : P <;> by_cases hQ : Q
  · rw [if_pos hP, if_pos hQ]
    exact ⟨rfl, ⟨fun _ => hP, fun _ => by simp⟩, by simp [List.count_cons]⟩
  · rw [if_pos hP, if_neg hQ]
    exact ⟨rfl, ⟨fun _ => hP, fun _ => by simp⟩, by simp [List.count_cons]⟩
  · rw [if_neg hP, if_pos hQ]
    exact ⟨rfl, ⟨fun hmem => by simp at hmem, fun hp => absurd hp hP⟩,
      by simp [List.count_cons]⟩
  · rw [if_neg hP, if_neg hQ]
    exact ⟨rfl, ⟨fun hmem => by simp at hmem, fun hp => absurd hp hP⟩,
      by simp [List.count_cons]⟩

/-- C5, counterexample: a Draining connection whose last session receives its choke after
the manager was torn down.  The frame is a choke, the status is Draining and the removed
entry was the last one, yet no release is requested. -/
theorem on_message_release_counterexample :
    sample_draining_orphaned.m_connection_status = service_status.waiting_for_sessions ∧
    sample_draining_orphaned.m_handlers = [(1, 7)] ∧
    (sample_draining_orphaned.on_message 6 { band := 1, id := 6, payload := [] }
      handler_result.returns).conn.m_handlers = [] ∧
    (sample_draining_orphaned.on_message 6 { band := 1, id := 6, payload := [] }
      handler_result.returns).events =
        [event.deliver 7 { band := 1, id := 6, payload := [] }] ∧
    event.release ∉ (sample_draining_orphaned.on_message 6 { band := 1, id := 6, payload := [] }
      handler_result.returns).events := by
  decide

/-- C5, amended: for a frame whose band is in the session table, `on_message` calls
*deliver* with the frame once, on the handler stored under the band, and calls no other
handler; when the frame is a choke the entry under the band is gone from the table the
operation leaves (whatever the handler does) and every other entry is as before, otherwise
the connection is unchanged; status and counter are unchanged; and release is requested, at
most once, exactly when the frame is a choke, the status is Draining, the removal empties
the table and the manager reference is still valid. -/
theorem on_message_known_band (choke : Nat) (c : service_connection_t) (message : message_t)
    (delivery : handler_result) (h : handler_t)
    (hfind : handlers_map_t.find c.m_handlers message.band = some h) :
    (c.on_message choke message delivery).events.filter event.is_handler_call =
      [event.deliver h message] ∧
    (c.on_message choke message delivery).conn =
      (if message.id = choke then
        { c with m_handlers := handlers_map_t.erase c.m_handlers message.band }
      else c) ∧
    handlers_map_t.find (handlers_map_t.erase c.m_handlers message.band) message.band = none ∧
    (∀ k, k ≠ message.band →
      handlers_map_t.find (handlers_map_t.erase c.m_handlers message.band) k =
        handlers_map_t.find c.m_handlers k) ∧
    (c.on_message choke message delivery).conn.m_connection_status = c.m_connection_status ∧
    (c.on_message choke message delivery).conn.m_session_counter = c.m_session_counter ∧
    (event.release ∈ (c.on_message choke message delivery).events ↔
      message.id = choke ∧ c.m_connection_status = service_status.waiting_for_sessions ∧
      handlers_map_t.erase c.m_handlers message.band = [] ∧ c.m_manager ≠ none) ∧
    List.count event.release (c.on_message choke message delivery).events ≤ 1 := by
  have hev := on_message_events_of_find choke c message delivery h hfind
  have hconn := on_message_conn_of_find choke c message delivery h hfind
  have hshape := known_band_events_shape
    (message.id = choke ∧ c.m_connection_status = service_status.waiting_for_sessions ∧
      handlers_map_t.erase c.m_handlers message.band = [] ∧ c.m_manager ≠ none)
    (delivery = handler_result.throws_std ∧
      c.m_manager.map (fun m => m.system_logger) = some true) h message
  rw [← hev] at hshape
  refine ⟨hshape.1, hconn, find_erase_self _ _, fun k hk => find_erase_of_ne _ _ k hk,
    ?_, ?_, hshape.2.1, hshape.2.2⟩
  · rw [hconn]; split <;> rfl
  · rw [hconn]; split <;> rfl

/-- C5, witness: the last session of a Draining connection with a live manager receives its
choke: release is requested, then the handler is called once. -/
theorem on_message_known_band_witness :
    handlers_map_t.find sample_draining.m_handlers 1 = some 7 ∧
    (sample_draining.on_message 6 { band := 1, id := 6, payload := [] }
      handler_result.returns).events =
        [event.release, event.deliver 7 { band := 1, id := 6, payload := [] }] ∧
    (sample_draining.on_message 6 { band := 1, id := 6, payload := [] }
      handler_result.returns).events.filter event.is_handler_call =
        [event.deliver 7 { band := 1, id := 6, payload := [] }] :=
  ⟨by decide, by decide,
   (on_message_known_band 6 sample_draining { band := 1, id := 6, payload := [] }
      handler_result.returns 7 (by decide)).1⟩

/-- C6: for a frame whose band is not in the session table, `on_message` returns normally
and leaves the connection exactly as it was; the only call it can make is the debug log
line, so no *deliver*, no *fail* and no release request. -/
theorem on_message_unknown_band (choke : Nat) (c : service_connection_t) (message : message_t)
    (delivery : handler_result)
    (hfind : handlers_map_t.find c.m_handlers message.band = none) :
    (c.on_message choke message delivery).ret = Except.ok () ∧
    (c.on_message choke message delivery).conn = c ∧
    (∀ e ∈ (c.on_message choke message delivery).events, e = event.log_debug) ∧
    (∀ h m, event.deliver h m ∉ (c.on_message choke message delivery).events) ∧
    (∀ h err, event.fail h err ∉ (c.on_message choke message delivery).events) ∧
    event.release ∉ (c.on_message choke message delivery).events := by
  unfold service_connection_t.on_message
  rw [hfind]
  cases c.m_manager with
  | none => simp
  | some m => cases hl : m.system_logger <;> simp [hl]

/-- C6, witness: a frame with band 99 against the sample with sessions 1 and 2. -/
theorem on_message_unknown_band_witness :
    handlers_map_t.find sample_two_sessions.m_handlers 99 = none ∧
    (sample_two_sessions.on_message 6 { band := 99, id := 4, payload := [] }
      handler_result.returns).events = [event.log_debug] ∧
    (sample_two_sessions.on_message 6 { band := 99, id := 4, payload := [] }
      handler_result.returns).conn = sample_two_sessions :=
  ⟨by decide, by decide,
   (on_message_unknown_band 6 sample_two_sessions { band := 99, id := 4, payload := [] }
      handler_result.returns (by decide)).2.1⟩

/-! ### `soft_destroy` -/

/-- C7: in Connecting `soft_destroy` throws `wait_for_connection`.  In Connected it returns
normally, sets the status to Draining and changes nothing else (session table and counter
included), calls no handler, and requests release exactly when the session table is empty
and the manager reference is still valid. -/
theorem soft_destroy_effects (c : service_connection_t) :
    (c.m_connection_status = service_status.connecting →
      c.soft_destroy.ret =
        Except.error (exception.service_error_t service_errc.wait_for_connection)) ∧
    (c.m_connection_status = service_status.connected →
      c.soft_destroy.ret = Except.ok () ∧
      c.soft_destroy.conn =
        { c with m_connection_status := service_status.waiting_for_sessions } ∧
      c.soft_destroy.conn.m_connection_status = service_status.waiting_for_sessions ∧
      c.soft_destroy.conn.m_handlers = c.m_handlers ∧
      c.soft_destroy.conn.m_session_counter = c.m_session_counter ∧
      c.soft_destroy.events.filter event.is_handler_call = [] ∧
      (event.release ∈ c.soft_destroy.events ↔ c.m_handlers = [] ∧ c.m_manager ≠ none) ∧
      List.count event.release c.soft_destroy.events ≤ 1) := by
  refine ⟨?_, ?_⟩
  · intro hs
    simp [service_connection_t.soft_destroy, hs]
  · intro hs
    cases ht : c.m_handlers with
    | nil =>
      cases hm : c.m_manager with
      | none => simp [service_connection_t.soft_destroy, hs, ht, hm]
      | some m => simp [service_connection_t.soft_destroy, hs, ht, hm, event.is_handler_call]
    | cons e t => simp [service_connection_t.soft_destroy, hs, ht]

/-- C7, witness: `soft_destroy` on the connected sample without sessions requests release;
with two sessions in flight it does not. -/
theorem soft_destroy_effects_witness :
    sample_connected.soft_destroy.events = [event.release] ∧
    sample_two_sessions.soft_destroy.events = [] ∧
    sample_two_sessions.soft_destroy.conn.m_handlers = sample_two_sessions.m_handlers :=
  ⟨by decide, by decide,
   ((soft_destroy_effects sample_two_sessions).2 (by decide)).2.2.2.1⟩

/-! ### `on_resolved` -/

/-- C8, counterexample: the required version is 1, the locator answers with version 2 and
the host lookup throws.  `on_resolved` throws what the lookup threw, not `bad_version`. -/
theorem on_resolved_bad_version_counterexample :
    sample_connecting.m_version = 1 ∧
    (sample_connecting.on_resolved
      (Except.ok { hostname := "localhost", port := 34001, version := 2 })
      (Except.error (exception.foreign 8)) none).ret = Except.error (exception.foreign 8) ∧
    (sample_connecting.on_resolved
      (Except.ok { hostname := "localhost", port := 34001, version := 2 })
      (Except.error (exception.foreign 8)) none).ret ≠
        Except.error (exception.service_error_t service_errc.bad_version) := by
  decide

/-- C8, amended: for a locator response whose version differs from the required one,
`on_resolved` throws `bad_version` when the host lookup succeeds and what the lookup threw
when it fails; either way it does not reach `connect_to_endpoint` (no socket is opened and
the outcome does not depend on what opening one would do), it fails every session with
`not_connected`, and it leaves the status Disconnected and the session table empty. -/
theorem on_resolved_version_mismatch (c : service_connection_t) (info : service_info_t)
    (query : Except exception endpoint_t) (socket : Option exception)
    (hv : c.m_version ≠ info.version) :
    (∀ target, query = Except.ok target →
      (c.on_resolved (Except.ok info) query socket).ret =
        Except.error (exception.service_error_t service_errc.bad_version)) ∧
    (∀ e, query = Except.error e →
      (c.on_resolved (Except.ok info) query socket).ret = Except.error e) ∧
    (c.on_resolved (Except.ok info) query socket).conn.m_connection_status =
      service_status.disconnected ∧
    (c.on_resolved (Except.ok info) query socket).conn.m_handlers = [] ∧
    (c.on_resolved (Except.ok info) query socket).events = fail_all c.m_handlers ∧
    (∀ target, event.open_socket target ∉ (c.on_resolved (Except.ok info) query socket).events) ∧
    (∀ other, c.on_resolved (Except.ok info) query other =
      c.on_resolved (Except.ok info) query socket) := by
  cases query with
  | error e =>
    simp [service_connection_t.on_resolved, service_connection_t.reset_sessions, fail_all]
  | ok target =>
    simp [service_connection_t.on_resolved, service_connection_t.reset_sessions, fail_all, hv]

/-- C8, witness: the required version is 1, the locator answers with version 2, the host
lookup succeeds and one session is in flight. -/
theorem on_resolved_version_mismatch_witness :
    (sample_connecting_session.on_resolved
      (Except.ok { hostname := "localhost", port := 34001, version := 2 })
      (Except.ok { address := 127, port := 34001 }) none).ret =
        Except.error (exception.service_error_t service_errc.bad_version) ∧
    (sample_connecting_session.on_resolved
      (Except.ok { hostname := "localhost", port := 34001, version := 2 })
      (Except.ok { address := 127, port := 34001 }) none).events =
        [event.fail 7 service_errc.not_connected] :=
  ⟨(on_resolved_version_mismatch sample_connecting_session
      { hostname := "localhost", port := 34001, version := 2 }
      (Except.ok { address := 127, port := 34001 }) none (by decide)).1 _ rfl,
   by decide⟩

/-- C9, counterexample: a connection constructed by name with required version 1 whose
manager reference has expired.  `connect` issues no resolve request and hands back a future
failed with `broken_manager`; the status stays Disconnected.  Were `on_resolved` run on a
response with version 1 whose host lookup succeeds, with a socket that would open, it would
throw `broken_manager` before opening the socket and leave the status Disconnected, and
`create_session` fails.  The same happens when the manager is torn down while the resolve
request is in flight. -/
theorem resolve_with_expired_manager_counterexample :
    ((service_connection_t.of_name "echo" none 1).connect none).ret =
      Except.ok (future.error (exception.service_error_t service_errc.broken_manager)) ∧
    ((service_connection_t.of_name "echo" none 1).connect none).events = [] ∧
    ((service_connection_t.of_name "echo" none 1).connect none).conn.m_connection_status =
      service_status.disconnected ∧
    (((service_connection_t.of_name "echo" none 1).connect none).conn.on_resolved
      (Except.ok { hostname := "localhost", port := 34001, version := 1 })
      (Except.ok { address := 127, port := 34001 }) none).ret =
        Except.error (exception.service_error_t service_errc.broken_manager) ∧
    (((service_connection_t.of_name "echo" none 1).connect none).conn.on_resolved
      (Except.ok { hostname := "localhost", port := 34001, version := 1 })
      (Except.ok { address := 127, port := 34001 }) none).conn.m_connection_status =
        service_status.disconnected ∧
    ((((service_connection_t.of_name "echo" none 1).connect none).conn.on_resolved
      (Except.ok { hostname := "localhost", port := 34001, version := 1 })
      (Except.ok { address := 127, port := 34001 }) none).conn.create_session 7).ret =
        Except.error (exception.service_error_t service_errc.not_connected) ∧
    (run 6 (service_connection_t.of_name "echo" (some sample_manager) 1)
      [operation.connect none, operation.manager_torn_down,
        operation.on_resolved
          (Except.ok { hostname := "localhost", port := 34001, version := 1 })
          (Except.ok { address := 127, port := 34001 }) none]).conn.m_connection_status =
      service_status.disconnected := by
  decide

/-- C9, amended: a connection is constructed by name with required version `V`, `connect`
is called, and `on_resolved` runs on a locator response carrying version `V` whose host
lookup yields `target`, with a socket whose opening succeeds.  If the manager reference is
valid, `connect` issues the resolve request and enters Connecting, and `on_resolved` opens
the socket to `target`, returns the connection itself, leaves it Connected with the channel
attached to `target`, and the first `create_session` returns session id 1 with that
channel.  If the manager reference has expired, `connect` hands back a future failed with
`broken_manager`, and `on_resolved` (were it run) throws `broken_manager` without opening a
socket; the status is Disconnected and `create_session` fails with `not_connected`.  When
the manager is torn down while the resolve request is in flight, `on_resolved` fails in the
same way: `broken_manager`, no socket opened, Disconnected, `create_session` failing. -/
theorem resolve_then_connect (name : String) (manager : Option service_manager_t) (V : Nat)
    (info : service_info_t) (target : endpoint_t) (handler : handler_t)
    (socket : Option exception) (hv : info.version = V) :
    (manager ≠ none →
      ((service_connection_t.of_name name manager V).connect socket).ret =
        Except.ok future.pending ∧
      ((service_connection_t.of_name name manager V).connect socket).events =
        [event.resolve name] ∧
      ((service_connection_t.of_name name manager V).connect socket).conn =
        { service_connection_t.of_name name manager V with
          m_connection_status := service_status.connecting } ∧
      (((service_connection_t.of_name name manager V).connect socket).conn.on_resolved
          (Except.ok info) (Except.ok target) none).ret =
        Except.ok (((service_connection_t.of_name name manager V).connect socket).conn.on_resolved
          (Except.ok info) (Except.ok target) none).conn ∧
      (((service_connection_t.of_name name manager V).connect socket).conn.on_resolved
          (Except.ok info) (Except.ok target) none).events =
        [event.open_socket (some target), event.wake_up] ∧
      (((service_connection_t.of_name name manager V).connect socket).conn.on_resolved
          (Except.ok info) (Except.ok target) none).conn =
        { service_connection_t.of_name name manager V with
          m_endpoint := some target
          m_connection_status := service_status.connected
          m_channel := { generation := 0, attached := some target } } ∧
      (((service_connection_t.of_name name manager V).connect socket).conn.on_resolved
          (Except.ok info) (Except.ok target) none).conn.m_connection_status =
        service_status.connected ∧
      ((((service_connection_t.of_name name manager V).connect socket).conn.on_resolved
          (Except.ok info) (Except.ok target) none).conn.create_session handler).ret =
        Except.ok (1, { generation := 0, attached := some target }) ∧
      ({ ((service_connection_t.of_name name manager V).connect socket).conn with
          m_manager := none }.on_resolved (Except.ok info) (Except.ok target) none).ret =
        Except.error (exception.service_error_t service_errc.broken_manager) ∧
      ({ ((service_connection_t.of_name name manager V).connect socket).conn with
          m_manager := none }.on_resolved (Except.ok info) (Except.ok target) none).events =
        [] ∧
      ({ ((service_connection_t.of_name name manager V).connect socket).conn with
          m_manager := none }.on_resolved
            (Except.ok info) (Except.ok target) none).conn.m_connection_status =
        service_status.disconnected ∧
      (({ ((service_connection_t.of_name name manager V).connect socket).conn with
          m_manager := none }.on_resolved
            (Except.ok info) (Except.ok target) none).conn.create_session handler).ret =
        Except.error (exception.service_error_t service_errc.not_connected)) ∧
    (manager = none →
      ((service_connection_t.of_name name manager V).connect socket).ret =
        Except.ok (future.error (exception.service_error_t service_errc.broken_manager)) ∧
      ((service_connection_t.of_name name manager V).connect socket).events = [] ∧
      ((service_connection_t.of_name name manager V).connect socket).conn =
        service_connection_t.of_name name manager V ∧
      (((service_connection_t.of_name name manager V).connect socket).conn.on_resolved
          (Except.ok info) (Except.ok target) none).ret =
        Except.error (exception.service_error_t service_errc.broken_manager) ∧
      (((service_connection_t.of_name name manager V).connect socket).conn.on_resolved
          (Except.ok info) (Except.ok target) none).events = [] ∧
      (((service_connection_t.of_name name manager V).connect socket).conn.on_resolved
          (Except.ok info) (Except.ok target) none).conn.m_connection_status =
        service_status.disconnected ∧
      ((((service_connection_t.of_name name manager V).connect socket).conn.on_resolved
          (Except.ok info) (Except.ok target) none).conn.create_session handler).ret =
        Except.error (exception.service_error_t service_errc.not_connected)) := by
  subst hv
  cases manager with
  | none =>
    refine ⟨fun h => absurd rfl h, fun _ => ?_⟩
    simp [service_connection_t.of_name, service_connection_t.connect,
      service_connection_t.manager, service_connection_t.on_resolved,
      service_connection_t.connect_to_endpoint, service_connection_t.reset_sessions,
      service_connection_t.create_session]
  | some m =>
    refine ⟨fun _ => ?_, fun h => by cases h⟩
    simp [service_connection_t.of_name, service_connection_t.connect,
      service_connection_t.manager, service_connection_t.on_resolved,
      service_connection_t.connect_to_endpoint, service_connection_t.create_session,
      service_connection_t.reset_sessions]

/-- C9, witness: the name `"echo"` at version 1 with a live manager, resolved to
`127:34001` by a locator that advertises version 1. -/
theorem resolve_then_connect_witness :
    (((service_connection_t.of_name "echo" (some sample_manager) 1).connect none).conn.on_resolved
        (Except.ok { hostname := "localhost", port := 34001, version := 1 })
        (Except.ok { address := 127, port := 34001 }) none).conn.m_connection_status =
      service_status.connected ∧
    ((((service_connection_t.of_name "echo" (some sample_manager) 1).connect none).conn.on_resolved
        (Except.ok { hostname := "localhost", port := 34001, version := 1 })
        (Except.ok { address := 127, port := 34001 }) none).conn.create_session 7).ret =
      Except.ok (1, { generation := 0, attached := some { address := 127, port := 34001 } }) :=
  ⟨((resolve_then_connect "echo" (some sample_manager) 1
      { hostname := "localhost", port := 34001, version := 1 }
      { address := 127, port := 34001 } 7 none rfl).1 (by decide)).2.2.2.2.2.2.1,
   ((resolve_then_connect "echo" (some sample_manager) 1
      { hostname := "localhost", port := 34001, version := 1 }
      { address := 127, port := 34001 } 7 none rfl).1 (by decide)).2.2.2.2.2.2.2.1⟩

/-! ### Calls on one handler along a history -/

/-- The entries of the table after a removal that hold `h` are no more than before. -/
theorem live_sessions_erase_le (h : handler_t) (t : handlers_map_t) (band : Nat) :
    live_sessions h (handlers_map_t.erase t band) ≤ live_sessions h t := by
  induction t with
  | nil => exact Nat.le_refl _
  | cons e t ih =>
    rw [erase_cons]
    by_cases he : e.1 = band
    · rw [if_pos he]
      simp only [live_sessions, List.map_cons, List.count_cons] at ih ⊢
      omega
    · rw [if_neg he]
      simp only [live_sessions, List.map_cons, List.count_cons] at ih ⊢
      omega

/-- Removing the band under which `h` is found removes an entry that holds `h`. -/
theorem live_sessions_erase_lt (h : handler_t) (t : handlers_map_t) (band : Nat)
    (hfind : handlers_map_t.find t band = some h) :
    live_sessions h (handlers_map_t.erase t band) < live_sessions h t := by
  induction t with
  | nil => cases hfind
  | cons e t ih =>
    rw [find_cons] at hfind
    rw [erase_cons]
    by_cases he : e.1 = band
    · rw [if_pos he] at hfind ⊢
      have heh : e.2 = h := Option.some.inj hfind
      have hle := live_sessions_erase_le h t band
      simp only [live_sessions, List.map_cons, List.count_cons, heh] at hle ⊢
      simp only [beq_self_eq_true, if_true]
      omega
    · rw [if_neg he] at hfind ⊢
      have hlt := ih hfind
      simp only [live_sessions, List.map_cons, List.count_cons] at hlt ⊢
      omega

/-- A handler found in the table holds at least one entry. -/
theorem live_sessions_pos_of_find (h : handler_t) (t : handlers_map_t) (band : Nat)
    (hfind : handlers_map_t.find t band = some h) : 0 < live_sessions h t :=
  Nat.lt_of_le_of_lt (Nat.zero_le _) (live_sessions_erase_lt h t band hfind)

/-- An assignment adds at most one entry that holds `h`, and none when it stores another
handler. -/
theorem live_sessions_assign_le (h g : handler_t) (t : handlers_map_t) (id : Nat) :
    live_sessions h (handlers_map_t.assign t id g) ≤
      live_sessions h t + (if g = h then 1 else 0) := by
  induction t with
  | nil =>
    simp only [handlers_map_t.assign, live_sessions, List.map_cons, List.map_nil,
      List.count_cons, List.count_nil]
    by_cases hg : g = h <;> simp [hg]
  | cons e t ih =>
    simp only [handlers_map_t.assign]
    by_cases h1 : id < e.1
    · rw [if_pos h1]
      simp only [live_sessions, List.map_cons, List.count_cons]
      by_cases hg : g = h <;> simp [hg]
    · rw [if_neg h1]
      by_cases h2 : id = e.1
      · rw [if_pos h2]
        simp only [live_sessions, List.map_cons, List.count_cons]
        by_cases hg : g = h <;> simp [hg]
      · rw [if_neg h2]
        simp only [live_sessions, List.map_cons, List.count_cons] at ih ⊢
        omega

/-- The calls `reset_sessions` makes on `h`: one *fail* per entry that holds `h`. -/
theorem handler_events_fail_all (h : handler_t) (t : handlers_map_t) :
    (fail_all t).filter (event.on_handler h) =
      List.replicate (live_sessions h t) (event.fail h service_errc.not_connected) := by
  induction t with
  | nil => rfl
  | cons e t ih =>
    simp only [fail_all, live_sessions, List.map_cons, List.count_cons, List.filter_cons,
      event.on_handler] at ih ⊢
    by_cases he : e.2 = h
    · simp only [he, beq_self_eq_true, if_true, List.replicate_succ]
      rw [ih]
    · have hb : (e.2 == h) = false := by simpa using he
      simp only [hb, Bool.false_eq_true, if_false, Nat.add_zero]
      rw [ih]

/-- A call on `h` is a call on a handler. -/
theorem filter_on_handler_of_calls (h : handler_t) (evs : List event) :
    evs.filter (event.on_handler h) =
      (evs.filter event.is_handler_call).filter (event.on_handler h) := by
  induction evs with
  | nil => rfl
  | cons e evs ih =>
    cases e <;> simp [List.filter_cons, event.is_handler_call, event.on_handler, ih]

/-- Every call `reset_sessions` makes is a call on a handler. -/
theorem filter_calls_fail_all (t : handlers_map_t) :
    (fail_all t).filter event.is_handler_call = fail_all t := by
  induction t with
  | nil => rfl
  | cons e t ih =>
    simp only [fail_all, List.map_cons, List.filter_cons, event.is_handler_call] at ih ⊢
    simp only [if_true]
    rw [ih]

/-- What `connect_to_endpoint` does to the sessions. -/
theorem connect_to_endpoint_sessions (c : service_connection_t) (socket : Option exception) :
    quiet_or_reset c.m_handlers (c.connect_to_endpoint socket).conn.m_handlers
      (c.connect_to_endpoint socket).events := by
  unfold service_connection_t.connect_to_endpoint service_connection_t.reset_sessions
  cases hm : c.manager with
  | error e =>
    right
    refine ⟨rfl, ?_⟩
    exact filter_calls_fail_all c.m_handlers
  | ok m =>
    cases socket with
    | none => left; exact ⟨rfl, rfl⟩
    | some e =>
      right
      refine ⟨rfl, ?_⟩
      show List.filter event.is_handler_call
        (event.open_socket c.m_endpoint :: fail_all c.m_handlers) = fail_all c.m_handlers
      rw [List.filter_cons]
      simp only [event.is_handler_call, Bool.false_eq_true, if_false]
      exact filter_calls_fail_all c.m_handlers

/-- What `connect` does to the sessions. -/
theorem connect_sessions (c : service_connection_t) (socket : Option exception) :
    quiet_or_reset c.m_handlers (c.connect socket).conn.m_handlers (c.connect socket).events := by
  have h := connect_to_endpoint_sessions
    { c with m_connection_status := service_status.connecting } socket
  unfold service_connection_t.connect
  split
  · split <;> (left; exact ⟨rfl, rfl⟩)
  · simp only
    split <;> exact h

/-- What `on_resolved` does to the sessions. -/
theorem on_resolved_sessions (c : service_connection_t) (f : Except exception service_info_t)
    (query : Except exception endpoint_t) (socket : Option exception) :
    quiet_or_reset c.m_handlers (c.on_resolved f query socket).conn.m_handlers
      (c.on_resolved f query socket).events := by
  have hreset := filter_calls_fail_all
  unfold service_connection_t.on_resolved
  simp only
  split
  · right; exact ⟨rfl, hreset _⟩
  · split
    · right; exact ⟨rfl, hreset _⟩
    · split
      · right; exact ⟨rfl, hreset _⟩
      · rename_i target _
        have h := connect_to_endpoint_sessions { c with m_endpoint := some target } socket
        split <;> exact h

/-- What `soft_destroy` does to the sessions: nothing. -/
theorem soft_destroy_sessions (c : service_connection_t) :
    c.soft_destroy.conn.m_handlers = c.m_handlers ∧
    c.soft_destroy.events.filter event.is_handler_call = [] := by
  unfold service_connection_t.soft_destroy
  split
  · exact ⟨rfl, rfl⟩
  · split
    · simp only
      split
      · split <;> exact ⟨rfl, rfl⟩
      · exact ⟨rfl, rfl⟩
    · exact ⟨rfl, rfl⟩

/-- The outcome of `reconnect` outside Connecting, by the manager reference. -/
theorem reconnect_of_not_connecting (c : service_connection_t) (socket : Option exception)
    (hs : c.m_connection_status ≠ service_status.connecting) :
    c.reconnect socket =
      (match c.m_manager with
        | none =>
          { ret := Except.error (exception.service_error_t service_errc.broken_manager)
            conn := c.reconnect_midpoint, events := fail_all c.m_handlers }
        | some _ =>
          { ret := (c.reconnect_midpoint.connect socket).ret
            conn := (c.reconnect_midpoint.connect socket).conn
            events := fail_all c.m_handlers ++
              event.retire c.m_channel :: (c.reconnect_midpoint.connect socket).events }) := by
  cases hm : c.m_manager with
  | none =>
    simp [service_connection_t.reconnect, hs, service_connection_t.manager,
      service_connection_t.reset_sessions, hm, service_connection_t.reconnect_midpoint,
      fail_all]
  | some m =>
    simp [service_connection_t.reconnect, hs, service_connection_t.manager,
      service_connection_t.reset_sessions, hm, service_connection_t.reconnect_midpoint,
      fail_all]

/-- Outside Connecting `reconnect` empties the table and fails every entry; nothing else
is called on a handler. -/
theorem reconnect_sessions (c : service_connection_t) (socket : Option exception)
    (hs : c.m_connection_status ≠ service_status.connecting) :
    (c.reconnect socket).conn.m_handlers = [] ∧
    (c.reconnect socket).events.filter event.is_handler_call = fail_all c.m_handlers := by
  have hreset := filter_calls_fail_all c.m_handlers
  rw [reconnect_of_not_connecting c socket hs]
  cases c.m_manager with
  | none => exact ⟨rfl, hreset⟩
  | some m =>
    have hk := connect_sessions c.reconnect_midpoint socket
    have hnil : c.reconnect_midpoint.m_handlers = [] := rfl
    rw [hnil] at hk
    simp only [List.filter_append, List.filter_cons, event.is_handler_call, hreset]
    rcases hk with ⟨ht, he⟩ | ⟨ht, he⟩
    · exact ⟨ht, by rw [he]; simp⟩
    · exact ⟨ht, by rw [he]; simp [fail_all]⟩

/-- In Connecting `reconnect` changes nothing and calls nothing. -/
theorem reconnect_of_connecting (c : service_connection_t) (socket : Option exception)
    (hs : c.m_connection_status = service_status.connecting) :
    c.reconnect socket =
      { ret := Except.error (exception.service_error_t service_errc.wait_for_connection)
        conn := c, events := [] } := by
  simp [service_connection_t.reconnect, hs]

/-- The connection and the calls of `on_error` are those of `reconnect`. -/
theorem on_error_eq_reconnect (c : service_connection_t) (code : Nat)
    (socket : Option exception) :
    (c.on_error code socket).conn = (c.reconnect socket).conn ∧
    (c.on_error code socket).events = (c.reconnect socket).events := by
  unfold service_connection_t.on_error
  simp only
  split <;> exact ⟨rfl, rfl⟩

/-- What one operation does to the sessions: it leaves the table alone and calls no
handler; or it empties the table and fails every entry; or it is the delivery of a frame
to the handler found under its band, which removes the entry when the frame is a choke; or
it is a `create_session`, which calls nothing and at most assigns one entry. -/
theorem step_sessions (choke : Nat) (c : service_connection_t) (op : operation) :
    quiet_or_reset c.m_handlers (step choke c op).conn.m_handlers (step choke c op).events ∨
    (∃ message g, handlers_map_t.find c.m_handlers message.band = some g ∧
      (step choke c op).events.filter event.is_handler_call = [event.deliver g message] ∧
      (step choke c op).conn.m_handlers =
        (if message.id = choke then handlers_map_t.erase c.m_handlers message.band
          else c.m_handlers)) ∨
    (∃ g, op = operation.create_session g ∧
      (step choke c op).events = [] ∧
      ((step choke c op).conn.m_handlers = c.m_handlers ∨
        (step choke c op).conn.m_handlers =
          handlers_map_t.assign c.m_handlers c.m_session_counter g)) := by
  cases op with
  | create_session handler =>
    right; right
    refine ⟨handler, rfl, ?_⟩
    simp only [step, service_connection_t.create_session]
    split
    · exact ⟨rfl, Or.inl rfl⟩
    · split
      · exact ⟨rfl, Or.inl rfl⟩
      · exact ⟨rfl, Or.inr rfl⟩
  | on_message message delivery =>
    cases hfind : handlers_map_t.find c.m_handlers message.band with
    | none =>
      left; left
      have hconn : (c.on_message choke message delivery).conn = c := by
        unfold service_connection_t.on_message
        rw [hfind]
        cases c.m_manager with
        | none => rfl
        | some m => cases hl : m.system_logger <;> simp [hl]
      have hev : ∀ e ∈ (c.on_message choke message delivery).events, e = event.log_debug := by
        unfold service_connection_t.on_message
        rw [hfind]
        cases c.m_manager with
        | none => simp
        | some m => cases hl : m.system_logger <;> simp [hl]
      refine ⟨by simp only [step]; rw [hconn], ?_⟩
      simp only [step]
      rw [List.filter_eq_nil_iff]
      intro e he
      rw [hev e he]
      simp [event.is_handler_call]
    | some g =>
      right; left
      refine ⟨message, g, hfind, ?_, ?_⟩
      · have hev := on_message_events_of_find choke c message delivery g hfind
        have hshape := known_band_events_shape
          (message.id = choke ∧ c.m_connection_status = service_status.waiting_for_sessions ∧
            handlers_map_t.erase c.m_handlers message.band = [] ∧ c.m_manager ≠ none)
          (delivery = handler_result.throws_std ∧
            c.m_manager.map (fun m => m.system_logger) = some true) g message
        rw [← hev] at hshape
        exact hshape.1
      · simp only [step]
        rw [on_message_conn_of_find choke c message delivery g hfind]
        split <;> rfl
  | soft_destroy =>
    left; left
    exact soft_destroy_sessions c
  | reconnect socket =>
    left
    by_cases hs : c.m_connection_status = service_status.connecting
    · left
      simp only [step]
      rw [reconnect_of_connecting c socket hs]
      exact ⟨rfl, rfl⟩
    · right
      exact reconnect_sessions c socket hs
  | on_error code socket =>
    left
    simp only [step]
    rw [(on_error_eq_reconnect c code socket).1, (on_error_eq_reconnect c code socket).2]
    by_cases hs : c.m_connection_status = service_status.connecting
    · left
      rw [reconnect_of_connecting c socket hs]
      exact ⟨rfl, rfl⟩
    · right
      exact reconnect_sessions c socket hs
  | connect socket => left; exact connect_sessions c socket
  | on_resolved f query socket => left; exact on_resolved_sessions c f query socket
  | manager_torn_down => left; left; exact ⟨rfl, rfl⟩

/-- What `create_session` does: it fails and touches nothing, or it returns the counter,
advances it and assigns the handler under the id returned. -/
theorem create_session_cases (c : service_connection_t) (handler : handler_t) :
    ((∃ e, (c.create_session handler).ret = Except.error e) ∧
      (c.create_session handler).conn = c) ∨
    ((c.create_session handler).ret = Except.ok (c.m_session_counter, c.m_channel) ∧
      c.m_connection_status ≠ service_status.disconnected ∧
      c.m_connection_status ≠ service_status.waiting_for_sessions ∧
      (c.create_session handler).conn =
        { c with
          m_session_counter := (c.m_session_counter + 1) % session_id_modulus
          m_handlers := handlers_map_t.assign c.m_handlers c.m_session_counter handler }) := by
  cases hs : c.m_connection_status <;> simp [service_connection_t.create_session, hs]

/-- The handlers registered along a history that starts with `op`. -/
theorem registered_cons (choke : Nat) (c : service_connection_t) (op : operation)
    (ops : List operation) :
    registered choke c (op :: ops) =
      (step_registered c op).toList ++ registered choke (step choke c op).conn ops :=
  rfl

/-- What one operation does for the handler `h`: the entries holding `h` grow by at most
one, and only in a `create_session` with `h` that succeeds; and the calls on `h` are none,
or one *fail* per entry holding `h` while the table is emptied, or one *deliver* to `h`
found in the table, which removes an entry holding `h` when the frame is a choke. -/
theorem step_handler (choke : Nat) (c : service_connection_t) (op : operation)
    (h : handler_t) :
    live_sessions h (step choke c op).conn.m_handlers ≤
      live_sessions h c.m_handlers + List.count h (step_registered c op).toList ∧
    ((step choke c op).events.filter (event.on_handler h) = [] ∨
     ((step choke c op).events.filter (event.on_handler h) =
        List.replicate (live_sessions h c.m_handlers)
          (event.fail h service_errc.not_connected) ∧
      live_sessions h (step choke c op).conn.m_handlers = 0) ∨
     (∃ message, (step choke c op).events.filter (event.on_handler h) =
        [event.deliver h message] ∧
      0 < live_sessions h c.m_handlers ∧
      (message.id = choke →
        live_sessions h (step choke c op).conn.m_handlers < live_sessions h c.m_handlers))) := by
  rcases step_sessions choke c op with (⟨ht, he⟩ | ⟨ht, he⟩) | ⟨message, g, hfind, he, ht⟩ |
    ⟨g, hop, he, _⟩
  · refine ⟨by rw [ht]; omega, Or.inl ?_⟩
    rw [filter_on_handler_of_calls, he]
    rfl
  · refine ⟨by rw [ht]; simp [live_sessions], Or.inr (Or.inl ⟨?_, by rw [ht]; rfl⟩)⟩
    rw [filter_on_handler_of_calls, he]
    exact handler_events_fail_all h c.m_handlers
  · have hle : live_sessions h (step choke c op).conn.m_handlers ≤
        live_sessions h c.m_handlers := by
      rw [ht]
      split
      · exact live_sessions_erase_le h c.m_handlers message.band
      · exact Nat.le_refl _
    refine ⟨by omega, ?_⟩
    by_cases hg : g = h
    · subst hg
      right; right
      refine ⟨message, ?_, live_sessions_pos_of_find g c.m_handlers message.band hfind, ?_⟩
      · rw [filter_on_handler_of_calls, he]
        simp [List.filter_cons, event.on_handler]
      · intro hid
        rw [ht, if_pos hid]
        exact live_sessions_erase_lt g c.m_handlers message.band hfind
    · left
      rw [filter_on_handler_of_calls, he]
      simp [List.filter_cons, event.on_handler, hg]
  · subst hop
    refine ⟨?_, Or.inl (by rw [he]; rfl)⟩
    show live_sessions h (c.create_session g).conn.m_handlers ≤ _
    rcases create_session_cases c g with ⟨_, hconn⟩ | ⟨hret, _, _, hconn⟩
    · rw [hconn]; omega
    · rw [hconn]
      have hle := live_sessions_assign_le h g c.m_handlers c.m_session_counter
      have hr : step_registered c (operation.create_session g) = some g := by
        simp [step_registered, hret]
      rw [hr]
      by_cases hg : g = h
      · simpa [hg] using hle
      · have hhg : ¬ h = g := fun e => hg e.symm
        simpa [hg, hhg, List.count_cons] using hle

/-- A handler that holds no entry and is not registered again is never called. -/
theorem run_dead (choke : Nat) (h : handler_t) (ops : List operation) :
    ∀ c : service_connection_t, live_sessions h c.m_handlers = 0 →
      List.count h (registered choke c ops) = 0 →
      (run choke c ops).events.filter (event.on_handler h) = [] := by
  induction ops with
  | nil => intro c _ _; rfl
  | cons op ops ih =>
    intro c hlive hreg
    rw [registered_cons, List.count_append] at hreg
    have hstep := step_handler choke c op h
    have hreg0 : List.count h (registered choke (step choke c op).conn ops) = 0 := by omega
    have hnext : live_sessions h (step choke c op).conn.m_handlers = 0 := by omega
    simp only [run, List.filter_append]
    rw [ih _ hnext hreg0]
    rcases hstep.2 with he | ⟨he, _⟩ | ⟨message, _, hpos, _⟩
    · rw [he]; rfl
    · rw [he, hlive]; rfl
    · omega

/-- A list with one event has its terminal events last. -/
theorem terminal_last_singleton (choke : Nat) (e : event) : terminal_last choke [e] := by
  intro pre x post heq _
  cases pre with
  | nil =>
    simp only [List.nil_append, List.cons.injEq] at heq
    exact heq.2.symm
  | cons p pre =>
    simp only [List.cons_append, List.cons.injEq] at heq
    have hlen := congrArg List.length heq.2
    simp only [List.length_nil, List.length_append, List.length_cons] at hlen
    omega

/-- An event that is not terminal may precede a list whose terminal events are last. -/
theorem terminal_last_cons (choke : Nat) (e : event) (evs : List event)
    (he : event.terminal choke e = false) (hl : terminal_last choke evs) :
    terminal_last choke (e :: evs) := by
  intro pre x post heq hx
  cases pre with
  | nil =>
    simp only [List.nil_append, List.cons.injEq] at heq
    rw [← heq.1, he] at hx
    cases hx
  | cons p pre =>
    simp only [List.cons_append, List.cons.injEq] at heq
    exact hl pre x post heq.2 hx

/-- As long as the entries holding `h` and the registrations of `h` still to come are at
most one together, every terminal event of `h` is the last call made on `h`. -/
theorem run_terminal_last (choke : Nat) (h : handler_t) (ops : List operation) :
    ∀ c : service_connection_t,
      live_sessions h c.m_handlers + List.count h (registered choke c ops) ≤ 1 →
      terminal_last choke ((run choke c ops).events.filter (event.on_handler h)) := by
  induction ops with
  | nil =>
    intro c _ pre x post heq _
    cases pre <;> cases heq
  | cons op ops ih =>
    intro c hinv
    rw [registered_cons, List.count_append] at hinv
    have hstep := step_handler choke c op h
    have hnext : live_sessions h (step choke c op).conn.m_handlers +
        List.count h (registered choke (step choke c op).conn ops) ≤ 1 := by omega
    have ihn := ih _ hnext
    simp only [run, List.filter_append]
    rcases hstep.2 with he | ⟨he, hzero⟩ | ⟨message, he, hpos, hchoke⟩
    · rw [he]; exact ihn
    · by_cases hl : live_sessions h c.m_handlers = 0
      · rw [he, hl]; exact ihn
      · have hone : live_sessions h c.m_handlers = 1 := by omega
        have hreg0 : List.count h (registered choke (step choke c op).conn ops) = 0 := by
          omega
        rw [he, hone, run_dead choke h ops _ hzero hreg0]
        exact terminal_last_singleton choke _
    · rw [he]
      by_cases hid : message.id = choke
      · have hz : live_sessions h (step choke c op).conn.m_handlers = 0 := by
          have := hchoke hid
          omega
        have hreg0 : List.count h (registered choke (step choke c op).conn ops) = 0 := by
          omega
        rw [run_dead choke h ops _ hz hreg0]
        exact terminal_last_singleton choke _
      · refine terminal_last_cons choke _ _ ?_ ihn
        simpa [event.terminal] using hid

/-- The bound on the entries holding `h` and the registrations of `h` still to come is kept
along a history. -/
theorem run_live_sessions (choke : Nat) (h : handler_t) (before : List operation) :
    ∀ (c : service_connection_t) (rest : List operation),
      live_sessions h c.m_handlers + List.count h (registered choke c (before ++ rest)) ≤ 1 →
      live_sessions h (run choke c before).conn.m_handlers +
        List.count h (registered choke (run choke c before).conn rest) ≤ 1 := by
  induction before with
  | nil => intro c rest hinv; exact hinv
  | cons op before ih =>
    intro c rest hinv
    rw [List.cons_append, registered_cons, List.count_append] at hinv
    have hstep := (step_handler choke c op h).1
    exact ih (step choke c op).conn rest (by omega)

/-- A list whose terminal events are last has at most one terminal event. -/
theorem terminal_last_count (choke : Nat) (evs : List event) (hl : terminal_last choke evs) :
    List.countP (event.terminal choke) evs ≤ 1 := by
  induction evs with
  | nil => exact Nat.zero_le _
  | cons e evs ih =>
    rw [List.countP_cons]
    by_cases he : event.terminal choke e = true
    · have hnil : evs = [] := hl [] e evs rfl he
      rw [hnil, if_pos he]
      exact Nat.le_refl _
    · rw [if_neg he]
      exact ih (fun pre x post heq hx => hl (e :: pre) x post (by rw [heq]; rfl) hx)

/-- C10, counterexample: a connection by name registers the handler 7 while its resolve
request is in flight, and `reconnect` is then called.  The reconnect is rejected with
`wait_for_connection`: the handler, registered once and before that reconnect, receives no
*fail* from it, and a frame that arrives after the resolve has completed is delivered to
it. -/
theorem reconnect_rejected_counterexample :
    registered 6 sample_named sample_rejected_history = [7] ∧
    (run 6 sample_named (sample_rejected_history.take 2)).conn.m_handlers = [(1, 7)] ∧
    ((run 6 sample_named (sample_rejected_history.take 2)).conn.reconnect none).ret =
      Except.error (exception.service_error_t service_errc.wait_for_connection) ∧
    (step 6 (run 6 sample_named (sample_rejected_history.take 2)).conn
      (operation.reconnect none)).events = [] ∧
    (run 6 (step 6 (run 6 sample_named (sample_rejected_history.take 2)).conn
        (operation.reconnect none)).conn
      (sample_rejected_history.drop 3)).events.filter (event.on_handler 7) =
      [event.deliver 7 { band := 1, id := 4, payload := [] }] := by
  decide

/-- C10, amended: in every history of a freshly constructed connection in which at most one
successful `create_session` registers the handler `h` (calls that fail register nothing),
every terminal event of `h` (*deliver* of a choke frame, or *fail*) is the last call made
on `h`: so there is at most one, never both kinds, and no *deliver* or *fail* follows it.
A `reconnect` called in Connecting is rejected: it calls no handler and leaves the
connection as it was.  A `reconnect` called in any other status fails `h` once per session
`h` holds, which is at most one; when `h` holds a session it receives exactly one *fail*
with `not_connected` from that reconnect and is never called afterwards. -/
theorem handler_finality (choke : Nat) (c : service_connection_t) (ops : List operation)
    (h : handler_t) (hc : c.constructed)
    (hreg : List.count h (registered choke c ops) ≤ 1) :
    terminal_last choke ((run choke c ops).events.filter (event.on_handler h)) ∧
    List.countP (event.terminal choke)
      ((run choke c ops).events.filter (event.on_handler h)) ≤ 1 ∧
    (∀ before socket rest, ops = before ++ operation.reconnect socket :: rest →
      ((run choke c before).conn.m_connection_status = service_status.connecting →
        (step choke (run choke c before).conn (operation.reconnect socket)).events = [] ∧
        (step choke (run choke c before).conn (operation.reconnect socket)).conn =
          (run choke c before).conn) ∧
      ((run choke c before).conn.m_connection_status ≠ service_status.connecting →
        live_sessions h (run choke c before).conn.m_handlers ≤ 1 ∧
        (step choke (run choke c before).conn (operation.reconnect socket)).events.filter
            (event.on_handler h) =
          List.replicate (live_sessions h (run choke c before).conn.m_handlers)
            (event.fail h service_errc.not_connected) ∧
        (0 < live_sessions h (run choke c before).conn.m_handlers →
          (step choke (run choke c before).conn (operation.reconnect socket)).events.filter
              (event.on_handler h) = [event.fail h service_errc.not_connected] ∧
          (run choke (step choke (run choke c before).conn (operation.reconnect socket)).conn
              rest).events.filter (event.on_handler h) = []))) := by
  have hnil : c.m_handlers = [] := by
    rcases hc with ⟨name, manager, version, rfl⟩ | ⟨target, manager, version, rfl⟩ <;> rfl
  have hzero : live_sessions h c.m_handlers = 0 := by rw [hnil]; rfl
  have hlast := run_terminal_last choke h ops c (by omega)
  refine ⟨hlast, terminal_last_count choke _ hlast, ?_⟩
  intro before socket rest hops
  constructor
  · intro hs
    show ((run choke c before).conn.reconnect socket).events = [] ∧
      ((run choke c before).conn.reconnect socket).conn = (run choke c before).conn
    rw [reconnect_of_connecting _ socket hs]
    exact ⟨rfl, rfl⟩
  · intro hs
    have hinv := run_live_sessions choke h before c (operation.reconnect socket :: rest)
      (by rw [← hops]; omega)
    have hrec := reconnect_sessions (run choke c before).conn socket hs
    have hev : (step choke (run choke c before).conn (operation.reconnect socket)).events.filter
        (event.on_handler h) =
          List.replicate (live_sessions h (run choke c before).conn.m_handlers)
            (event.fail h service_errc.not_connected) := by
      show ((run choke c before).conn.reconnect socket).events.filter (event.on_handler h) = _
      rw [filter_on_handler_of_calls, hrec.2, handler_events_fail_all]
    refine ⟨by omega, hev, ?_⟩
    intro hlive
    rw [registered_cons, List.count_append] at hinv
    have hnone : List.count h
        (step_registered (run choke c before).conn (operation.reconnect socket)).toList = 0 :=
      rfl
    have hone : live_sessions h (run choke c before).conn.m_handlers = 1 := by omega
    have hrest : List.count h (registered choke
        (step choke (run choke c before).conn (operation.reconnect socket)).conn rest) = 0 := by
      omega
    constructor
    · rw [hev, hone]
      rfl
    · apply run_dead choke h rest _ _ hrest
      show live_sessions h ((run choke c before).conn.reconnect socket).conn.m_handlers = 0
      rw [hrec.1]
      rfl

/-- C10, witness: `create_session` with the handler 7 fails before the connect and succeeds
after it, so 7 is registered once; it receives a frame, is failed by a reconnect and is not
called when a later frame arrives under its old band. -/
theorem handler_finality_witness :
    registered 6 sample_fresh sample_retry_history = [7, 8] ∧
    (run 6 sample_fresh sample_retry_history).events.filter (event.on_handler 7) =
      [event.deliver 7 { band := 1, id := 4, payload := [] },
        event.fail 7 service_errc.not_connected] ∧
    terminal_last 6
      ((run 6 sample_fresh sample_retry_history).events.filter (event.on_handler 7)) ∧
    (step 6 (run 6 sample_fresh (sample_retry_history.take 4)).conn
        (operation.reconnect none)).events.filter (event.on_handler 7) =
      [event.fail 7 service_errc.not_connected] :=
  ⟨by decide, by decide,
   (handler_finality 6 sample_fresh sample_retry_history 7 (Or.inr ⟨_, _, _, rfl⟩)
      (by decide)).1,
   ((((handler_finality 6 sample_fresh sample_retry_history 7 (Or.inr ⟨_, _, _, rfl⟩)
      (by decide)).2.2 (sample_retry_history.take 4) none (sample_retry_history.drop 5)
      rfl).2 (by decide)).2.2 (by decide)).1⟩

/-! ### Failed calls and repeated `soft_destroy` -/

/-- The future `connect` returns is always handed back; `connect` itself never throws. -/
theorem connect_ret_ok (c : service_connection_t) (socket : Option exception) :
    ∃ f, (c.connect socket).ret = Except.ok f := by
  unfold service_connection_t.connect
  split
  · split
    · exact ⟨_, rfl⟩
    · exact ⟨_, rfl⟩
  · simp only
    split
    · exact ⟨_, rfl⟩
    · exact ⟨_, rfl⟩

/-- C19: a `create_session` that fails (with `not_connected` or `wait_for_connection`), a
`soft_destroy` that fails with `wait_for_connection` and a `reconnect` that fails with
`wait_for_connection` leave the connection exactly as it was (status, session table,
counter and channel included) and make no call at all, so no handler is invoked and no
release is requested. -/
theorem failed_calls_are_atomic (c : service_connection_t) (handler : handler_t)
    (socket : Option exception) :
    ((c.create_session handler).ret =
        Except.error (exception.service_error_t service_errc.not_connected) ∨
      (c.create_session handler).ret =
        Except.error (exception.service_error_t service_errc.wait_for_connection) →
      (c.create_session handler).conn = c ∧ (c.create_session handler).events = []) ∧
    (c.soft_destroy.ret =
        Except.error (exception.service_error_t service_errc.wait_for_connection) →
      c.soft_destroy.conn = c ∧ c.soft_destroy.events = []) ∧
    ((c.reconnect socket).ret =
        Except.error (exception.service_error_t service_errc.wait_for_connection) →
      (c.reconnect socket).conn = c ∧ (c.reconnect socket).events = []) := by
  refine ⟨?_, ?_, ?_⟩
  · intro h
    cases hs : c.m_connection_status <;>
      simp [service_connection_t.create_session, hs] at h ⊢
  · intro h
    cases hs : c.m_connection_status
    · cases ht : c.m_handlers <;> cases hm : c.m_manager <;>
        simp [service_connection_t.soft_destroy, hs, ht, hm] at h
    · simp [service_connection_t.soft_destroy, hs]
    · cases ht : c.m_handlers <;> cases hm : c.m_manager <;>
        simp [service_connection_t.soft_destroy, hs, ht, hm] at h
    · simp [service_connection_t.soft_destroy, hs] at h
  · intro h
    by_cases hs : c.m_connection_status = service_status.connecting
    · rw [reconnect_of_connecting c socket hs]
      exact ⟨rfl, rfl⟩
    · rw [reconnect_of_not_connecting c socket hs] at h
      cases hm : c.m_manager with
      | none =>
        rw [hm] at h
        simp at h
      | some m =>
        rw [hm] at h
        obtain ⟨f, hf⟩ := connect_ret_ok c.reconnect_midpoint socket
        simp only [hf] at h
        cases h

/-- C19, witness: `create_session` on a fresh (Disconnected) connection, and `soft_destroy`
and `reconnect` while the resolve request is in flight. -/
theorem failed_calls_are_atomic_witness :
    (sample_fresh.create_session 7).ret =
      Except.error (exception.service_error_t service_errc.not_connected) ∧
    (sample_fresh.create_session 7).conn = sample_fresh ∧
    (sample_connecting_session.reconnect none).ret =
      Except.error (exception.service_error_t service_errc.wait_for_connection) ∧
    (sample_connecting_session.reconnect none).conn = sample_connecting_session :=
  ⟨by decide,
   ((failed_calls_are_atomic sample_fresh 7 none).1 (Or.inl (by decide))).1,
   by decide,
   ((failed_calls_are_atomic sample_connecting_session 7 none).2.2 (by decide)).1⟩

/-- C20: `soft_destroy` fails exactly in Connecting.  From Disconnected and from Connected
it returns normally and moves the status to Draining; in Draining it returns normally,
changes nothing and makes no call.  So wherever it does not fail a second call right after
the first changes nothing and makes no call: two calls leave the state one call leaves and
request release at most once. -/
theorem soft_destroy_idempotent (c : service_connection_t) :
    (c.soft_destroy.ret = Except.ok () ↔
      c.m_connection_status ≠ service_status.connecting) ∧
    (c.m_connection_status = service_status.disconnected ∨
        c.m_connection_status = service_status.connected →
      c.soft_destroy.ret = Except.ok () ∧
      c.soft_destroy.conn =
        { c with m_connection_status := service_status.waiting_for_sessions }) ∧
    (c.m_connection_status = service_status.waiting_for_sessions →
      c.soft_destroy = { ret := Except.ok (), conn := c, events := [] }) ∧
    (c.m_connection_status ≠ service_status.connecting →
      c.soft_destroy.conn.soft_destroy =
        { ret := Except.ok (), conn := c.soft_destroy.conn, events := [] } ∧
      List.count event.release
        (c.soft_destroy.events ++ c.soft_destroy.conn.soft_destroy.events) ≤ 1) := by
  cases hs : c.m_connection_status <;> cases ht : c.m_handlers <;> cases hm : c.m_manager <;>
    simp [service_connection_t.soft_destroy, hs, ht, hm]

/-- C20, witness: two calls on the connected sample without sessions; the first requests
release, the second does nothing. -/
theorem soft_destroy_idempotent_witness :
    sample_connected.soft_destroy.events = [event.release] ∧
    sample_connected.soft_destroy.conn.soft_destroy =
      { ret := Except.ok (), conn := sample_connected.soft_destroy.conn, events := [] } :=
  ⟨by decide, ((soft_destroy_idempotent sample_connected).2.2.2 (by decide)).1⟩

/-! ### `create_session` -/

/-- After an assignment the handler is stored under the id. -/
theorem find_assign_self (t : handlers_map_t) (id : Nat) (h : handler_t) :
    handlers_map_t.find (handlers_map_t.assign t id h) id = some h := by
  induction t with
  | nil =>
    simp only [handlers_map_t.assign]
    rw [find_cons, if_pos rfl]
  | cons e t ih =>
    simp only [handlers_map_t.assign]
    by_cases h1 : id < e.1
    · rw [if_pos h1, find_cons, if_pos rfl]
    · rw [if_neg h1]
      by_cases h2 : id = e.1
      · rw [if_pos h2, find_cons, if_pos rfl]
      · rw [if_neg h2, find_cons, if_neg (fun h3 => h2 h3.symm)]
        exact ih

/-- An assignment leaves what is stored under every other id. -/
theorem find_assign_of_ne (t : handlers_map_t) (id k : Nat) (h : handler_t) (hk : k ≠ id) :
    handlers_map_t.find (handlers_map_t.assign t id h) k = handlers_map_t.find t k := by
  induction t with
  | nil =>
    simp only [handlers_map_t.assign]
    rw [find_cons, if_neg (fun h3 => hk h3.symm)]
  | cons e t ih =>
    simp only [handlers_map_t.assign]
    by_cases h1 : id < e.1
    · rw [if_pos h1, find_cons, if_neg (fun h3 => hk h3.symm)]
    · rw [if_neg h1]
      by_cases h2 : id = e.1
      · have hek : ¬ e.1 = k := fun h3 => hk (h3.symm.trans h2.symm)
        rw [if_pos h2, find_cons, if_neg (fun h3 => hk h3.symm), find_cons, if_neg hek]
      · rw [if_neg h2, find_cons, find_cons]
        by_cases hek : e.1 = k
        · rw [if_pos hek, if_pos hek]
        · rw [if_neg hek, if_neg hek]
          exact ih

/-- C14, counterexample: the counter holds the largest id, `2 ^ 64 - 1`.  `create_session`
succeeds and returns it, and the counter afterwards is 0, not that value plus one. -/
theorem create_session_counter_counterexample :
    (sample_last_id.create_session 7).ret =
      Except.ok (2 ^ 64 - 1, sample_last_id.m_channel) ∧
    (sample_last_id.create_session 7).conn.m_session_counter = 0 ∧
    (sample_last_id.create_session 7).conn.m_session_counter ≠
      sample_last_id.m_session_counter + 1 := by
  decide

/-- C14, amended: when `create_session` succeeds with the handler `h`, the id returned is
the session counter before the call; the counter afterwards is that value plus one modulo
`2 ^ 64` (so plus one unless the value is `2 ^ 64 - 1`, from which it wraps to 0); the table
afterwards stores `h` under the returned id and what it stored before under every other
id; nothing else of the connection changes, the status included; no call is made, so no
handler is invoked; and the channel handed back is the connection's current channel. -/
theorem create_session_success (c : service_connection_t) (handler : handler_t) (id : Nat)
    (channel : iochannel_t)
    (hok : (c.create_session handler).ret = Except.ok (id, channel)) :
    id = c.m_session_counter ∧
    (c.create_session handler).conn.m_session_counter =
      (c.m_session_counter + 1) % session_id_modulus ∧
    (c.m_session_counter + 1 < session_id_modulus →
      (c.create_session handler).conn.m_session_counter = c.m_session_counter + 1) ∧
    (c.create_session handler).conn.m_handlers =
      handlers_map_t.assign c.m_handlers id handler ∧
    handlers_map_t.find (c.create_session handler).conn.m_handlers id = some handler ∧
    (∀ k, k ≠ id →
      handlers_map_t.find (c.create_session handler).conn.m_handlers k =
        handlers_map_t.find c.m_handlers k) ∧
    (c.create_session handler).conn =
      { c with
        m_session_counter := (c.m_session_counter + 1) % session_id_modulus
        m_handlers := handlers_map_t.assign c.m_handlers id handler } ∧
    (c.create_session handler).conn.m_connection_status = c.m_connection_status ∧
    (c.create_session handler).events = [] ∧
    channel = c.m_channel ∧
    channel = (c.create_session handler).conn.m_channel := by
  have hcases : c.m_connection_status = service_status.connecting ∨
      c.m_connection_status = service_status.connected := by
    cases hs : c.m_connection_status <;>
      simp [service_connection_t.create_session, hs] at hok ⊢
  have hne1 : c.m_connection_status ≠ service_status.disconnected := by
    rcases hcases with h | h <;> rw [h] <;> decide
  have hne2 : c.m_connection_status ≠ service_status.waiting_for_sessions := by
    rcases hcases with h | h <;> rw [h] <;> decide
  have hret : (c.create_session handler).ret = Except.ok (c.m_session_counter, c.m_channel) := by
    simp [service_connection_t.create_session, hne1, hne2]
  have hconn : (c.create_session handler).conn =
      { c with
        m_session_counter := (c.m_session_counter + 1) % session_id_modulus
        m_handlers := handlers_map_t.assign c.m_handlers c.m_session_counter handler } := by
    simp [service_connection_t.create_session, hne1, hne2]
  have hev : (c.create_session handler).events = [] := by
    simp [service_connection_t.create_session, hne1, hne2]
  rw [hret] at hok
  have hid : id = c.m_session_counter := by
    injection hok with hok
    injection hok with h1 h2
    exact h1.symm
  have hch : channel = c.m_channel := by
    injection hok with hok
    injection hok with h1 h2
    exact h2.symm
  subst hid
  subst hch
  rw [hconn]
  refine ⟨rfl, rfl, ?_, rfl, find_assign_self _ _ _,
    fun k hk => find_assign_of_ne _ _ k _ hk, rfl, rfl, hev, rfl, rfl⟩
  intro hlt
  exact Nat.mod_eq_of_lt hlt

/-- C14, witness: the third session of the sample with sessions 1 and 2. -/
theorem create_session_success_witness :
    (sample_two_sessions.create_session 9).ret =
      Except.ok (3, sample_two_sessions.m_channel) ∧
    (sample_two_sessions.create_session 9).conn.m_handlers = [(1, 7), (2, 8), (3, 9)] ∧
    (sample_two_sessions.create_session 9).conn.m_session_counter = 4 ∧
    handlers_map_t.find (sample_two_sessions.create_session 9).conn.m_handlers 3 = some 9 :=
  ⟨by decide, by decide, by decide,
   (create_session_success sample_two_sessions 9 3 sample_two_sessions.m_channel
      (by decide)).2.2.2.2.1⟩

/-! ### `on_error` -/

/-- The *fail* calls of `reset_sessions` on `h` are as many as the entries holding `h`. -/
theorem count_fail_all (t : handlers_map_t) (h : handler_t) :
    List.count (event.fail h service_errc.not_connected) (fail_all t) =
      List.count h (t.map Prod.snd) := by
  induction t with
  | nil => rfl
  | cons e t ih =>
    simp only [fail_all, List.map_cons, List.count_cons] at ih ⊢
    rw [ih]
    by_cases he : e.2 = h <;> simp [he]

/-- Outside Connecting the calls of `reconnect` hold one *fail* with `not_connected` per
entry of the table and no *deliver*. -/
theorem reconnect_handler_calls (c : service_connection_t) (socket : Option exception)
    (hs : c.m_connection_status ≠ service_status.connecting) :
    (∀ h, List.count (event.fail h service_errc.not_connected) (c.reconnect socket).events =
      List.count h (c.m_handlers.map Prod.snd)) ∧
    (∀ h message, event.deliver h message ∉ (c.reconnect socket).events) := by
  have hcalls := (reconnect_sessions c socket hs).2
  constructor
  · intro h
    rw [← count_fail_all, ← hcalls]
    exact (List.count_filter (by rfl)).symm
  · intro h message hmem
    have hin : event.deliver h message ∈
        (c.reconnect socket).events.filter event.is_handler_call :=
      List.mem_filter.mpr ⟨hmem, rfl⟩
    rw [hcalls] at hin
    simp [fail_all] at hin

/-- C12, counterexample: a transport error arrives while the resolve request is in flight and
one session exists.  `on_error` throws `wait_for_connection` to its caller, calls no handler
and leaves the session in the table. -/
theorem on_error_swallows_counterexample :
    sample_connecting_session.m_connection_status = service_status.connecting ∧
    sample_connecting_session.m_handlers = [(1, 7)] ∧
    (sample_connecting_session.on_error 104 none).ret =
      Except.error (exception.service_error_t service_errc.wait_for_connection) ∧
    (sample_connecting_session.on_error 104 none).events = [] ∧
    (sample_connecting_session.on_error 104 none).conn.m_handlers = [(1, 7)] := by
  decide

/-- C12, amended: for every error code `on_error` does what `reconnect` does and lets what
`reconnect` throws reach its caller.  In Connecting it throws `wait_for_connection`, calls
no handler and changes nothing.  Otherwise every entry of the session table gets exactly
one *fail* with `not_connected`, no handler gets a *deliver*, and the table is left empty;
`on_error` then returns normally when the manager reference is valid and throws
`broken_manager` when it has expired. -/
theorem on_error_effects (c : service_connection_t) (code : Nat) (socket : Option exception) :
    (c.on_error code socket).conn = (c.reconnect socket).conn ∧
    (c.on_error code socket).events = (c.reconnect socket).events ∧
    (c.m_connection_status = service_status.connecting →
      c.on_error code socket =
        { ret := Except.error (exception.service_error_t service_errc.wait_for_connection)
          conn := c, events := [] }) ∧
    (c.m_connection_status ≠ service_status.connecting →
      (∀ h, List.count (event.fail h service_errc.not_connected)
          (c.on_error code socket).events = List.count h (c.m_handlers.map Prod.snd)) ∧
      (∀ h message, event.deliver h message ∉ (c.on_error code socket).events) ∧
      (c.on_error code socket).conn.m_handlers = [] ∧
      (c.m_manager ≠ none → (c.on_error code socket).ret = Except.ok ()) ∧
      (c.m_manager = none →
        (c.on_error code socket).ret =
          Except.error (exception.service_error_t service_errc.broken_manager))) := by
  have heq := on_error_eq_reconnect c code socket
  refine ⟨heq.1, heq.2, ?_, ?_⟩
  · intro hs
    simp [service_connection_t.on_error, reconnect_of_connecting c socket hs]
  · intro hs
    have hcalls := reconnect_handler_calls c socket hs
    refine ⟨?_, ?_, ?_, ?_, ?_⟩
    · intro h; rw [heq.2]; exact hcalls.1 h
    · intro h message; rw [heq.2]; exact hcalls.2 h message
    · rw [heq.1]; exact (reconnect_sessions c socket hs).1
    · intro hm
      obtain ⟨f, hf⟩ := connect_ret_ok c.reconnect_midpoint socket
      cases hm2 : c.m_manager with
      | none => exact absurd hm2 hm
      | some m =>
        simp only [service_connection_t.on_error, reconnect_of_not_connecting c socket hs, hm2, hf]
    · intro hm
      simp only [service_connection_t.on_error, reconnect_of_not_connecting c socket hs, hm]

/-- C12, witness: a transport error on the connected sample with sessions 1 and 2. -/
theorem on_error_effects_witness :
    (sample_two_sessions.on_error 104 none).ret = Except.ok () ∧
    (sample_two_sessions.on_error 104 none).events.filter event.is_handler_call =
      [event.fail 7 service_errc.not_connected, event.fail 8 service_errc.not_connected] ∧
    (sample_two_sessions.on_error 104 none).conn.m_handlers = [] :=
  ⟨by decide, by decide,
   ((on_error_effects sample_two_sessions 104 none).2.2.2 (by decide)).2.2.1⟩

/-- For a frame with an unknown band `on_message` leaves the connection as it is. -/
theorem on_message_unknown_band_conn (choke : Nat) (c : service_connection_t)
    (message : message_t) (delivery : handler_result)
    (hfind : handlers_map_t.find c.m_handlers message.band = none) :
    (c.on_message choke message delivery).conn = c := by
  unfold service_connection_t.on_message
  rw [hfind]
  cases c.m_manager with
  | none => rfl
  | some m => cases hl : m.system_logger <;> simp [hl]

/-! ### Exceptions thrown by a handler -/

/-- Whatever the handler does, `on_message` leaves the connection it leaves when the
handler returns normally. -/
theorem on_message_conn_any_delivery (choke : Nat) (c : service_connection_t)
    (message : message_t) (delivery : handler_result) :
    (c.on_message choke message delivery).conn =
      (c.on_message choke message handler_result.returns).conn := by
  cases hfind : handlers_map_t.find c.m_handlers message.band with
  | none =>
    unfold service_connection_t.on_message
    rw [hfind]
  | some h =>
    rw [on_message_conn_of_find choke c message delivery h hfind,
      on_message_conn_of_find choke c message handler_result.returns h hfind]

/-- What `on_message` hands to its caller for a frame with a known band: it returns
normally when the handler returns or throws a `std::exception`, and it lets through an
object that is not a `std::exception`. -/
theorem on_message_ret_of_find (choke : Nat) (c : service_connection_t) (message : message_t)
    (delivery : handler_result) (h : handler_t)
    (hfind : handlers_map_t.find c.m_handlers message.band = some h) :
    (c.on_message choke message delivery).ret =
      (match delivery with
        | handler_result.throws_other code => Except.error (exception.foreign code)
        | _ => Except.ok ()) := by
  unfold service_connection_t.on_message
  rw [hfind]
  cases delivery with
  | returns => rfl
  | throws_std =>
    simp only
    split
    · split <;> rfl
    · rfl
  | throws_other code => rfl

/-- C13, the code at the failing input: a frame for session 1 of the sample with sessions 1
and 2 whose handler throws an object that is not a `std::exception`.  `on_message` lets it
through to its caller; a `std::exception` from the same handler is caught.  In both cases
the connection is left as it is when the handler returns normally. -/
theorem on_message_escaping_exception :
    handlers_map_t.find sample_two_sessions.m_handlers 1 = some 7 ∧
    (sample_two_sessions.on_message 6 { band := 1, id := 4, payload := [] }
      (handler_result.throws_other 42)).ret = Except.error (exception.foreign 42) ∧
    (sample_two_sessions.on_message 6 { band := 1, id := 4, payload := [] }
      handler_result.throws_std).ret = Except.ok () ∧
    (sample_two_sessions.on_message 6 { band := 1, id := 4, payload := [] }
      (handler_result.throws_other 42)).conn =
      (sample_two_sessions.on_message 6 { band := 1, id := 4, payload := [] }
        handler_result.returns).conn := by
  decide

/-! ### Draining -/

/-- The status after `connect_to_endpoint` is Connected or Disconnected. -/
theorem connect_to_endpoint_status (c : service_connection_t) (socket : Option exception) :
    (c.connect_to_endpoint socket).conn.m_connection_status = service_status.connected ∨
    (c.connect_to_endpoint socket).conn.m_connection_status = service_status.disconnected := by
  unfold service_connection_t.connect_to_endpoint service_connection_t.reset_sessions
  cases c.manager with
  | error e => right; rfl
  | ok m =>
    cases socket with
    | none => left; rfl
    | some e => right; rfl

/-- After `connect` the connection is untouched (by name, the manager expired) or its
status is Connecting, Connected or Disconnected. -/
theorem connect_status (c : service_connection_t) (socket : Option exception) :
    (c.connect socket).conn = c ∨
    (c.connect socket).conn.m_connection_status = service_status.connecting ∨
    (c.connect socket).conn.m_connection_status = service_status.connected ∨
    (c.connect socket).conn.m_connection_status = service_status.disconnected := by
  have h := connect_to_endpoint_status
    { c with m_connection_status := service_status.connecting } socket
  unfold service_connection_t.connect
  split
  · split
    · left; rfl
    · right; left; rfl
  · simp only
    split <;> exact Or.inr (Or.inr h)

/-- The status after `on_resolved` is Connected or Disconnected. -/
theorem on_resolved_status (c : service_connection_t) (f : Except exception service_info_t)
    (query : Except exception endpoint_t) (socket : Option exception) :
    (c.on_resolved f query socket).conn.m_connection_status = service_status.connected ∨
    (c.on_resolved f query socket).conn.m_connection_status = service_status.disconnected := by
  unfold service_connection_t.on_resolved
  simp only
  split
  · right; rfl
  · split
    · right; rfl
    · split
      · right; rfl
      · rename_i target _
        have h := connect_to_endpoint_status { c with m_endpoint := some target } socket
        split <;> exact h

/-- Outside Connecting the status after `reconnect` is Connecting, Connected or
Disconnected. -/
theorem reconnect_status (c : service_connection_t) (socket : Option exception)
    (hs : c.m_connection_status ≠ service_status.connecting) :
    (c.reconnect socket).conn.m_connection_status = service_status.connecting ∨
    (c.reconnect socket).conn.m_connection_status = service_status.connected ∨
    (c.reconnect socket).conn.m_connection_status = service_status.disconnected := by
  rw [reconnect_of_not_connecting c socket hs]
  cases c.m_manager with
  | none => right; right; rfl
  | some m =>
    rcases connect_status c.reconnect_midpoint socket with h | h
    · right; right
      show (c.reconnect_midpoint.connect socket).conn.m_connection_status = _
      rw [h]
      rfl
    · exact h

/-- The operations that keep Draining leave a Draining connection Draining and create no
session in it. -/
theorem step_keeps_draining (choke : Nat) (c : service_connection_t) (op : operation)
    (hd : c.m_connection_status = service_status.waiting_for_sessions)
    (hop : op.keeps_draining = true) :
    (step choke c op).conn.m_connection_status = service_status.waiting_for_sessions ∧
    (step choke c op).created = none := by
  cases op with
  | create_session handler =>
    simp [step, service_connection_t.create_session, hd, created_id]
  | on_message message delivery =>
    refine ⟨?_, rfl⟩
    simp only [step]
    rw [on_message_conn_any_delivery]
    cases hfind : handlers_map_t.find c.m_handlers message.band with
    | none =>
      rw [(on_message_unknown_band_conn choke c message handler_result.returns hfind)]
      exact hd
    | some h =>
      rw [on_message_conn_of_find choke c message handler_result.returns h hfind]
      split <;> exact hd
  | soft_destroy =>
    simp [step, service_connection_t.soft_destroy, hd]
  | manager_torn_down => exact ⟨hd, rfl⟩
  | reconnect socket => cases hop
  | on_error code socket => cases hop
  | connect socket => cases hop
  | on_resolved f query socket => cases hop

/-- A history of operations that keep Draining leaves a Draining connection Draining and
creates no session. -/
theorem run_keeps_draining (choke : Nat) (ops : List operation) :
    ∀ c : service_connection_t,
      c.m_connection_status = service_status.waiting_for_sessions →
      (∀ op ∈ ops, op.keeps_draining = true) →
      (run choke c ops).conn.m_connection_status = service_status.waiting_for_sessions ∧
      (run choke c ops).created = [] := by
  induction ops with
  | nil => intro c hd _; exact ⟨hd, rfl⟩
  | cons op ops ih =>
    intro c hd hops
    have hstep := step_keeps_draining choke c op hd (hops op (List.mem_cons_self _ _))
    have hrest := ih (step choke c op).conn hstep.1
      (fun o ho => hops o (List.mem_cons_of_mem _ ho))
    simp only [run]
    refine ⟨hrest.1, ?_⟩
    rw [hstep.2, hrest.2]
    rfl

/-! ### Disconnected connections hold no session -/

/-- When `connect_to_endpoint` leaves the status Disconnected it has emptied the table and
failed every entry. -/
theorem connect_to_endpoint_disconnected (c : service_connection_t) (socket : Option exception)
    (hd : (c.connect_to_endpoint socket).conn.m_connection_status =
      service_status.disconnected) :
    (c.connect_to_endpoint socket).conn.m_handlers = [] ∧
    (c.connect_to_endpoint socket).events.filter event.is_handler_call =
      fail_all c.m_handlers := by
  unfold service_connection_t.connect_to_endpoint service_connection_t.reset_sessions at hd ⊢
  cases hm : c.manager with
  | error e =>
    exact ⟨rfl, filter_calls_fail_all c.m_handlers⟩
  | ok m =>
    cases socket with
    | none =>
      rw [hm] at hd
      cases hd
    | some e =>
      refine ⟨rfl, ?_⟩
      show List.filter event.is_handler_call
        (event.open_socket c.m_endpoint :: fail_all c.m_handlers) = fail_all c.m_handlers
      rw [List.filter_cons]
      simp only [event.is_handler_call, Bool.false_eq_true, if_false]
      exact filter_calls_fail_all c.m_handlers

/-- By endpoint, the connection and the calls of `connect` are those of
`connect_to_endpoint` run in Connecting. -/
theorem connect_by_endpoint (c : service_connection_t) (socket : Option exception)
    (hn : c.m_name = none) :
    (c.connect socket).conn =
      ({ c with m_connection_status := service_status.connecting }.connect_to_endpoint
        socket).conn ∧
    (c.connect socket).events =
      ({ c with m_connection_status := service_status.connecting }.connect_to_endpoint
        socket).events := by
  rcases c with ⟨name, target, version, manager, status, executor, counter, handlers, channel⟩
  simp only at hn
  subst hn
  unfold service_connection_t.connect
  simp only
  split <;> exact ⟨rfl, rfl⟩

/-- By name, `connect` issues the resolve request and enters Connecting, or, with an expired
manager, hands back an error future and touches nothing. -/
theorem connect_by_name (c : service_connection_t) (socket : Option exception) (name : String)
    (hn : c.m_name = some name) :
    c.connect socket =
      (match c.m_manager with
        | none =>
          { ret := Except.ok (future.error
              (exception.service_error_t service_errc.broken_manager))
            conn := c, events := [] }
        | some _ =>
          { ret := Except.ok future.pending
            conn := { c with m_connection_status := service_status.connecting }
            events := [event.resolve name] }) := by
  rcases c with ⟨name0, target, version, manager, status, executor, counter, handlers, channel⟩
  simp only at hn
  subst hn
  cases manager <;> rfl

/-- When `connect` leaves the status Disconnected it has not touched the connection, or it
has emptied the table and failed every entry. -/
theorem connect_disconnected (c : service_connection_t) (socket : Option exception)
    (hd : (c.connect socket).conn.m_connection_status = service_status.disconnected) :
    (c.connect socket).conn = c ∨
    ((c.connect socket).conn.m_handlers = [] ∧
      (c.connect socket).events.filter event.is_handler_call = fail_all c.m_handlers) := by
  cases hn : c.m_name with
  | some name =>
    rw [connect_by_name c socket name hn] at hd ⊢
    cases hm : c.m_manager with
    | none => left; rfl
    | some m =>
      rw [hm] at hd
      cases hd
  | none =>
    right
    have heq := connect_by_endpoint c socket hn
    rw [heq.1] at hd ⊢
    rw [heq.2]
    exact connect_to_endpoint_disconnected _ socket hd

/-- On a response with the required version whose host lookup succeeds, the connection and
the calls of `on_resolved` are those of `connect_to_endpoint` for the resolved endpoint. -/
theorem on_resolved_proceeds (c : service_connection_t) (info : service_info_t)
    (target : endpoint_t) (socket : Option exception) (hv : c.m_version = info.version) :
    (c.on_resolved (Except.ok info) (Except.ok target) socket).conn =
      ({ c with m_endpoint := some target }.connect_to_endpoint socket).conn ∧
    (c.on_resolved (Except.ok info) (Except.ok target) socket).events =
      ({ c with m_endpoint := some target }.connect_to_endpoint socket).events := by
  unfold service_connection_t.on_resolved
  simp only [ne_eq, hv, not_true_eq_false, if_false]
  split <;> exact ⟨rfl, rfl⟩

/-- When the locator future or the host lookup throws, or the version differs, `on_resolved`
marks the connection Disconnected, empties the table and fails every entry. -/
theorem on_resolved_fails (c : service_connection_t) (f : Except exception service_info_t)
    (query : Except exception endpoint_t) (socket : Option exception)
    (hf : ∀ info target, f = Except.ok info → query = Except.ok target →
      c.m_version ≠ info.version) :
    (c.on_resolved f query socket).conn.m_connection_status = service_status.disconnected ∧
    (c.on_resolved f query socket).conn.m_handlers = [] ∧
    (c.on_resolved f query socket).events = fail_all c.m_handlers := by
  cases f with
  | error e => exact ⟨rfl, rfl, rfl⟩
  | ok info =>
    cases query with
    | error e => exact ⟨rfl, rfl, rfl⟩
    | ok target =>
      have hv := hf info target rfl rfl
      simp [service_connection_t.on_resolved, service_connection_t.reset_sessions, fail_all, hv]

/-- When `on_resolved` leaves the status Disconnected it has emptied the table and failed
every entry. -/
theorem on_resolved_disconnected (c : service_connection_t)
    (f : Except exception service_info_t) (query : Except exception endpoint_t)
    (socket : Option exception)
    (hd : (c.on_resolved f query socket).conn.m_connection_status =
      service_status.disconnected) :
    (c.on_resolved f query socket).conn.m_handlers = [] ∧
    (c.on_resolved f query socket).events.filter event.is_handler_call =
      fail_all c.m_handlers := by
  by_cases hp : ∃ info target, f = Except.ok info ∧ query = Except.ok target ∧
      c.m_version = info.version
  · obtain ⟨info, target, rfl, rfl, hv⟩ := hp
    have heq := on_resolved_proceeds c info target socket hv
    rw [heq.1] at hd ⊢
    rw [heq.2]
    exact connect_to_endpoint_disconnected _ socket hd
  · have hfail := on_resolved_fails c f query socket
      (fun info target h1 h2 hv => hp ⟨info, target, h1, h2, hv⟩)
    refine ⟨hfail.2.1, ?_⟩
    rw [hfail.2.2]
    exact filter_calls_fail_all c.m_handlers

/-- The status after `on_message` is the status before. -/
theorem on_message_status (choke : Nat) (c : service_connection_t) (message : message_t)
    (delivery : handler_result) :
    (c.on_message choke message delivery).conn.m_connection_status = c.m_connection_status := by
  cases hfind : handlers_map_t.find c.m_handlers message.band with
  | none => rw [on_message_unknown_band_conn choke c message delivery hfind]
  | some h =>
    rw [on_message_conn_of_find choke c message delivery h hfind]
    split <;> rfl

/-- The status after `create_session` is the status before. -/
theorem create_session_status (c : service_connection_t) (handler : handler_t) :
    (c.create_session handler).conn.m_connection_status = c.m_connection_status := by
  cases hs : c.m_connection_status <;> simp [service_connection_t.create_session, hs]

/-- After `soft_destroy` the connection is untouched or Draining. -/
theorem soft_destroy_status (c : service_connection_t) :
    c.soft_destroy.conn = c ∨
    c.soft_destroy.conn.m_connection_status = service_status.waiting_for_sessions := by
  cases hs : c.m_connection_status <;> cases ht : c.m_handlers <;> cases hm : c.m_manager <;>
    simp [service_connection_t.soft_destroy, hs, ht, hm]

/-- An operation that takes the connection to Disconnected from another status empties the
table and fails every entry of it. -/
theorem step_enters_disconnected (choke : Nat) (c : service_connection_t) (op : operation)
    (hne : c.m_connection_status ≠ service_status.disconnected)
    (hd : (step choke c op).conn.m_connection_status = service_status.disconnected) :
    (step choke c op).conn.m_handlers = [] ∧
    (step choke c op).events.filter event.is_handler_call = fail_all c.m_handlers := by
  cases op with
  | create_session handler =>
    simp only [step] at hd
    rw [create_session_status] at hd
    exact absurd hd hne
  | on_message message delivery =>
    simp only [step] at hd
    rw [on_message_status] at hd
    exact absurd hd hne
  | soft_destroy =>
    simp only [step] at hd
    rcases soft_destroy_status c with h | h
    · rw [h] at hd
      exact absurd hd hne
    · rw [h] at hd
      cases hd
  | reconnect socket =>
    simp only [step] at hd ⊢
    by_cases hs : c.m_connection_status = service_status.connecting
    · rw [reconnect_of_connecting c socket hs] at hd
      exact absurd hd hne
    · exact reconnect_sessions c socket hs
  | on_error code socket =>
    simp only [step] at hd ⊢
    rw [(on_error_eq_reconnect c code socket).1] at hd ⊢
    rw [(on_error_eq_reconnect c code socket).2]
    by_cases hs : c.m_connection_status = service_status.connecting
    · rw [reconnect_of_connecting c socket hs] at hd
      exact absurd hd hne
    · exact reconnect_sessions c socket hs
  | connect socket =>
    simp only [step] at hd ⊢
    rcases connect_disconnected c socket hd with h | h
    · rw [h] at hd
      exact absurd hd hne
    · exact h
  | on_resolved f query socket =>
    simp only [step] at hd ⊢
    exact on_resolved_disconnected c f query socket hd
  | manager_torn_down => exact absurd hd hne

/-- One operation keeps the invariant: a Disconnected connection has an empty table. -/
theorem step_disconnected_empty (choke : Nat) (c : service_connection_t) (op : operation)
    (hinv : c.m_connection_status = service_status.disconnected → c.m_handlers = [])
    (hd : (step choke c op).conn.m_connection_status = service_status.disconnected) :
    (step choke c op).conn.m_handlers = [] := by
  by_cases hs : c.m_connection_status = service_status.disconnected
  · have hnil := hinv hs
    rcases step_sessions choke c op with (⟨ht, _⟩ | ⟨ht, _⟩) | ⟨message, g, hfind, _, _⟩ |
      ⟨g, hop, _, _⟩
    · rw [ht]; exact hnil
    · exact ht
    · rw [hnil] at hfind
      cases hfind
    · subst hop
      simp [step, service_connection_t.create_session, hs, hnil]
  · exact (step_enters_disconnected choke c op hs hd).1

/-- Along a history the invariant is kept: a Disconnected connection has an empty table. -/
theorem run_disconnected_empty (choke : Nat) (ops : List operation) :
    ∀ c : service_connection_t,
      (c.m_connection_status = service_status.disconnected → c.m_handlers = []) →
      (run choke c ops).conn.m_connection_status = service_status.disconnected →
      (run choke c ops).conn.m_handlers = [] := by
  induction ops with
  | nil => intro c hinv hd; exact hinv hd
  | cons op ops ih =>
    intro c hinv hd
    exact ih (step choke c op).conn (step_disconnected_empty choke c op hinv) hd

/-- C17: in every state reached from a freshly constructed connection by its operations, a
Disconnected connection has an empty session table.  Every operation that takes a
connection (in any state) to Disconnected from another status empties the table and fails
every entry of it with `not_connected`, and in Disconnected `create_session` fails with
`not_connected` and changes nothing. -/
theorem disconnected_has_no_sessions (choke : Nat) (c : service_connection_t)
    (ops : List operation) (hc : c.constructed) :
    ((run choke c ops).conn.m_connection_status = service_status.disconnected →
      (run choke c ops).conn.m_handlers = []) ∧
    (∀ (s : service_connection_t) (op : operation),
      s.m_connection_status ≠ service_status.disconnected →
      (step choke s op).conn.m_connection_status = service_status.disconnected →
      (step choke s op).conn.m_handlers = [] ∧
      (step choke s op).events.filter event.is_handler_call = fail_all s.m_handlers) ∧
    (∀ (s : service_connection_t) (handler : handler_t),
      s.m_connection_status = service_status.disconnected →
      s.create_session handler =
        { ret := Except.error (exception.service_error_t service_errc.not_connected)
          conn := s, events := [] }) := by
  have hnil : c.m_handlers = [] := by
    rcases hc with ⟨name, manager, version, rfl⟩ | ⟨target, manager, version, rfl⟩ <;> rfl
  refine ⟨run_disconnected_empty choke ops c (fun _ => hnil), ?_, ?_⟩
  · intro s op hne hd
    exact step_enters_disconnected choke s op hne hd
  · intro s handler hs
    simp [service_connection_t.create_session, hs]

/-- C17, witness: the sample connects, opens two sessions and then fails to reconnect: it
ends Disconnected with an empty table, both sessions failed. -/
theorem disconnected_has_no_sessions_witness :
    (run 6 sample_fresh
      [operation.connect none, operation.create_session 7, operation.create_session 8,
        operation.on_error 104 (some (exception.foreign 111))]).conn.m_connection_status =
      service_status.disconnected ∧
    (run 6 sample_fresh
      [operation.connect none, operation.create_session 7, operation.create_session 8,
        operation.on_error 104 (some (exception.foreign 111))]).conn.m_handlers = [] :=
  ⟨by decide,
   (disconnected_has_no_sessions 6 sample_fresh _ (Or.inr ⟨_, _, _, rfl⟩)).1 (by decide)⟩

/-- The manager reference after `connect` is the one before. -/
theorem connect_manager (c : service_connection_t) (socket : Option exception) :
    (c.connect socket).conn.m_manager = c.m_manager := by
  cases hn : c.m_name with
  | some name =>
    rw [connect_by_name c socket name hn]
    split <;> rfl
  | none =>
    rw [(connect_by_endpoint c socket hn).1]
    unfold service_connection_t.connect_to_endpoint service_connection_t.reset_sessions
    cases service_connection_t.manager
      { c with m_connection_status := service_status.connecting } <;> cases socket <;> rfl

/-! ### Release requests -/

/-- No release is requested by `reset_sessions`. -/
theorem release_not_mem_fail_all (t : handlers_map_t) : event.release ∉ fail_all t := by
  simp [fail_all]

/-- No release is requested by `connect_to_endpoint`. -/
theorem connect_to_endpoint_no_release (c : service_connection_t) (socket : Option exception) :
    event.release ∉ (c.connect_to_endpoint socket).events := by
  unfold service_connection_t.connect_to_endpoint service_connection_t.reset_sessions
  cases c.manager with
  | error e => exact release_not_mem_fail_all c.m_handlers
  | ok m =>
    cases socket with
    | none => simp
    | some e =>
      show event.release ∉ event.open_socket c.m_endpoint :: fail_all c.m_handlers
      simp [release_not_mem_fail_all]

/-- No release is requested by `connect`. -/
theorem connect_no_release (c : service_connection_t) (socket : Option exception) :
    event.release ∉ (c.connect socket).events := by
  cases hn : c.m_name with
  | some name =>
    rw [connect_by_name c socket name hn]
    cases c.m_manager <;> simp
  | none =>
    rw [(connect_by_endpoint c socket hn).2]
    exact connect_to_endpoint_no_release _ socket

/-- No release is requested by `reconnect`. -/
theorem reconnect_no_release (c : service_connection_t) (socket : Option exception) :
    event.release ∉ (c.reconnect socket).events := by
  by_cases hs : c.m_connection_status = service_status.connecting
  · rw [reconnect_of_connecting c socket hs]
    simp
  · rw [reconnect_of_not_connecting c socket hs]
    cases c.m_manager with
    | none => exact release_not_mem_fail_all c.m_handlers
    | some m =>
      have hk := connect_no_release c.reconnect_midpoint socket
      simp [release_not_mem_fail_all, hk]

/-- No release is requested by `on_resolved`. -/
theorem on_resolved_no_release (c : service_connection_t) (f : Except exception service_info_t)
    (query : Except exception endpoint_t) (socket : Option exception) :
    event.release ∉ (c.on_resolved f query socket).events := by
  by_cases hp : ∃ info target, f = Except.ok info ∧ query = Except.ok target ∧
      c.m_version = info.version
  · obtain ⟨info, target, rfl, rfl, hv⟩ := hp
    rw [(on_resolved_proceeds c info target socket hv).2]
    exact connect_to_endpoint_no_release _ socket
  · rw [(on_resolved_fails c f query socket
      (fun info target h1 h2 hv => hp ⟨info, target, h1, h2, hv⟩)).2.2]
    exact release_not_mem_fail_all c.m_handlers

/-- The manager reference after `connect_to_endpoint` is the one before. -/
theorem connect_to_endpoint_manager (c : service_connection_t) (socket : Option exception) :
    (c.connect_to_endpoint socket).conn.m_manager = c.m_manager := by
  unfold service_connection_t.connect_to_endpoint service_connection_t.reset_sessions
  cases c.manager <;> cases socket <;> rfl

/-- Only the manager being torn down changes the manager reference. -/
theorem step_manager (choke : Nat) (c : service_connection_t) (op : operation)
    (hop : op ≠ operation.manager_torn_down) :
    (step choke c op).conn.m_manager = c.m_manager := by
  cases op with
  | create_session handler =>
    cases hs : c.m_connection_status <;> simp [step, service_connection_t.create_session, hs]
  | on_message message delivery =>
    simp only [step]
    rw [on_message_conn_any_delivery]
    cases hfind : handlers_map_t.find c.m_handlers message.band with
    | none => rw [on_message_unknown_band_conn choke c message handler_result.returns hfind]
    | some h =>
      rw [on_message_conn_of_find choke c message handler_result.returns h hfind]
      split <;> rfl
  | soft_destroy =>
    cases hs : c.m_connection_status <;> cases ht : c.m_handlers <;> cases hm : c.m_manager <;>
      simp [step, service_connection_t.soft_destroy, hs, ht, hm]
  | reconnect socket =>
    simp only [step]
    by_cases hs : c.m_connection_status = service_status.connecting
    · rw [reconnect_of_connecting c socket hs]
    · rw [reconnect_of_not_connecting c socket hs]
      split
      · rfl
      · exact connect_manager c.reconnect_midpoint socket
  | on_error code socket =>
    simp only [step]
    rw [(on_error_eq_reconnect c code socket).1]
    by_cases hs : c.m_connection_status = service_status.connecting
    · rw [reconnect_of_connecting c socket hs]
    · rw [reconnect_of_not_connecting c socket hs]
      split
      · rfl
      · exact connect_manager c.reconnect_midpoint socket
  | connect socket => exact connect_manager c socket
  | on_resolved f query socket =>
    simp only [step]
    by_cases hp : ∃ info target, f = Except.ok info ∧ query = Except.ok target ∧
        c.m_version = info.version
    · obtain ⟨info, target, rfl, rfl, hv⟩ := hp
      rw [(on_resolved_proceeds c info target socket hv).1]
      exact connect_to_endpoint_manager _ socket
    · cases f with
      | error e => rfl
      | ok info =>
        cases query with
        | error e => rfl
        | ok target =>
          have hv : c.m_version ≠ info.version := fun hv => hp ⟨info, target, rfl, rfl, hv⟩
          simp [service_connection_t.on_resolved, service_connection_t.reset_sessions, hv]
  | manager_torn_down => exact absurd rfl hop

/-- For a frame with an unknown band the only call `on_message` can make is the debug log
line. -/
theorem on_message_unknown_band_events (choke : Nat) (c : service_connection_t)
    (message : message_t) (delivery : handler_result)
    (hfind : handlers_map_t.find c.m_handlers message.band = none) :
    ∀ e ∈ (c.on_message choke message delivery).events, e = event.log_debug := by
  unfold service_connection_t.on_message
  rw [hfind]
  cases c.m_manager with
  | none => simp
  | some m => cases hl : m.system_logger <;> simp [hl]

/-- With a valid manager reference, one operation requests release exactly when it leaves
the connection Draining with an empty table and did not find it so. -/
theorem step_release_iff (choke : Nat) (c : service_connection_t) (op : operation)
    (hm : c.m_manager ≠ none) :
    event.release ∈ (step choke c op).events ↔
      ((step choke c op).conn.m_connection_status = service_status.waiting_for_sessions ∧
        (step choke c op).conn.m_handlers = [] ∧
        (c.m_connection_status ≠ service_status.waiting_for_sessions ∨ c.m_handlers ≠ [])) := by
  have hquiet : ∀ (s : service_connection_t) (evs : List event),
      event.release ∉ evs →
      (s = c ∨ s.m_connection_status ≠ service_status.waiting_for_sessions) →
      (event.release ∈ evs ↔
        (s.m_connection_status = service_status.waiting_for_sessions ∧ s.m_handlers = [] ∧
          (c.m_connection_status ≠ service_status.waiting_for_sessions ∨
            c.m_handlers ≠ []))) := by
    intro s evs hno hs
    constructor
    · intro h; exact absurd h hno
    · rintro ⟨h1, h2, h3⟩
      rcases hs with hs | hs
      · subst hs
        rcases h3 with h3 | h3
        · exact absurd h1 h3
        · exact absurd h2 h3
      · exact absurd h1 hs
  cases op with
  | create_session handler =>
    apply hquiet
    · cases hs : c.m_connection_status <;> simp [step, service_connection_t.create_session, hs]
    · cases hs : c.m_connection_status <;> simp [step, service_connection_t.create_session, hs]
  | on_message message delivery =>
    cases hfind : handlers_map_t.find c.m_handlers message.band with
    | none =>
      apply hquiet
      · have h := (on_message_unknown_band_events choke c message delivery hfind)
        intro hmem
        cases h _ hmem
      · left
        exact on_message_unknown_band_conn choke c message delivery hfind
    | some h =>
      have hev := on_message_events_of_find choke c message delivery h hfind
      have hshape := known_band_events_shape
        (message.id = choke ∧ c.m_connection_status = service_status.waiting_for_sessions ∧
          handlers_map_t.erase c.m_handlers message.band = [] ∧ c.m_manager ≠ none)
        (delivery = handler_result.throws_std ∧
          c.m_manager.map (fun m => m.system_logger) = some true) h message
      rw [← hev] at hshape
      have hne : c.m_handlers ≠ [] := by
        intro hnil
        rw [hnil] at hfind
        cases hfind
      simp only [step]
      rw [hshape.2.1, on_message_conn_of_find choke c message delivery h hfind]
      by_cases hid : message.id = choke
      · rw [if_pos hid]
        constructor
        · rintro ⟨_, h2, h3, _⟩
          exact ⟨h2, h3, Or.inr hne⟩
        · rintro ⟨h2, h3, _⟩
          exact ⟨hid, h2, h3, hm⟩
      · rw [if_neg hid]
        constructor
        · rintro ⟨h1, _⟩
          exact absurd h1 hid
        · rintro ⟨_, h3, _⟩
          exact absurd h3 hne
  | soft_destroy =>
    cases hmm : c.m_manager with
    | none => exact absurd hmm hm
    | some m =>
      cases hs : c.m_connection_status <;> cases ht : c.m_handlers <;>
        simp [step, service_connection_t.soft_destroy, hs, ht, hmm]
  | reconnect socket =>
    apply hquiet _ _ (reconnect_no_release c socket)
    by_cases hs : c.m_connection_status = service_status.connecting
    · left
      simp only [step]
      rw [reconnect_of_connecting c socket hs]
    · right
      simp only [step]
      rcases reconnect_status c socket hs with h | h | h <;> rw [h] <;> decide
  | on_error code socket =>
    simp only [step]
    rw [(on_error_eq_reconnect c code socket).1, (on_error_eq_reconnect c code socket).2]
    apply hquiet _ _ (reconnect_no_release c socket)
    by_cases hs : c.m_connection_status = service_status.connecting
    · left
      rw [reconnect_of_connecting c socket hs]
    · right
      rcases reconnect_status c socket hs with h | h | h <;> rw [h] <;> decide
  | connect socket =>
    apply hquiet _ _ (connect_no_release c socket)
    simp only [step]
    rcases connect_status c socket with h | h | h | h
    · left; exact h
    · right; rw [h]; decide
    · right; rw [h]; decide
    · right; rw [h]; decide
  | on_resolved f query socket =>
    apply hquiet _ _ (on_resolved_no_release c f query socket)
    right
    simp only [step]
    rcases on_resolved_status c f query socket with h | h <;> rw [h] <;> decide
  | manager_torn_down =>
    constructor
    · intro h
      simp [step] at h
    · rintro ⟨h1, h2, h3⟩
      rcases h3 with h3 | h3
      · exact absurd h1 h3
      · exact absurd h2 h3

/-- With a valid manager reference that is never torn down, a history that ends Draining
with an empty table started so or has requested release. -/
theorem run_drained_released (choke : Nat) (ops : List operation) :
    ∀ c : service_connection_t, c.m_manager ≠ none →
      (∀ op ∈ ops, op ≠ operation.manager_torn_down) →
      (run choke c ops).conn.m_connection_status = service_status.waiting_for_sessions →
      (run choke c ops).conn.m_handlers = [] →
      (c.m_connection_status = service_status.waiting_for_sessions ∧ c.m_handlers = []) ∨
      event.release ∈ (run choke c ops).events := by
  induction ops with
  | nil => intro c _ _ hs ht; exact Or.inl ⟨hs, ht⟩
  | cons op ops ih =>
    intro c hm hops hs ht
    have hop := hops op (List.mem_cons_self _ _)
    have hm1 : (step choke c op).conn.m_manager ≠ none := by
      rw [step_manager choke c op hop]
      exact hm
    simp only [run, List.mem_append]
    rcases ih (step choke c op).conn hm1 (fun o ho => hops o (List.mem_cons_of_mem _ ho))
      hs ht with ⟨h1, h2⟩ | h
    · by_cases hc : c.m_connection_status = service_status.waiting_for_sessions ∧
          c.m_handlers = []
      · exact Or.inl hc
      · right; left
        apply (step_release_iff choke c op hm).mpr
        refine ⟨h1, h2, ?_⟩
        by_cases hcs : c.m_connection_status = service_status.waiting_for_sessions
        · right
          intro hct
          exact hc ⟨hcs, hct⟩
        · left
          exact hcs
    · exact Or.inr (Or.inr h)

/-- C11: with a valid manager reference, an operation applied to any state asks the manager
to release the connection if and only if it leaves the connection Draining with an empty
session table and either entered Draining or removed the last session in that step.  Hence,
for a connection constructed with a manager that is not torn down, no history ends Draining
with an empty table without release having been requested. -/
theorem release_iff_drained (choke : Nat) (c : service_connection_t) (op : operation)
    (hm : c.m_manager ≠ none) :
    (event.release ∈ (step choke c op).events ↔
      ((step choke c op).conn.m_connection_status = service_status.waiting_for_sessions ∧
        (step choke c op).conn.m_handlers = [] ∧
        (c.m_connection_status ≠ service_status.waiting_for_sessions ∨
          c.m_handlers ≠ []))) ∧
    (∀ (c0 : service_connection_t) (ops : List operation),
      c0.constructed → c0.m_manager ≠ none →
      (∀ o ∈ ops, o ≠ operation.manager_torn_down) →
      (run choke c0 ops).conn.m_connection_status = service_status.waiting_for_sessions →
      (run choke c0 ops).conn.m_handlers = [] →
      event.release ∈ (run choke c0 ops).events) := by
  refine ⟨step_release_iff choke c op hm, ?_⟩
  intro c0 ops hc hm0 hops hs ht
  rcases run_drained_released choke ops c0 hm0 hops hs ht with ⟨h1, _⟩ | h
  · have hdis : c0.m_connection_status = service_status.disconnected := by
      rcases hc with ⟨name, manager, version, rfl⟩ | ⟨target, manager, version, rfl⟩ <;> rfl
    rw [hdis] at h1
    cases h1
  · exact h

/-- C11, witness: the last session of the Draining sample receives its choke: the step
requests release and leaves the connection Draining with an empty table. -/
theorem release_iff_drained_witness :
    event.release ∈
      (step 6 sample_draining
        (operation.on_message { band := 1, id := 6, payload := [] }
          handler_result.returns)).events ∧
    (step 6 sample_draining
      (operation.on_message { band := 1, id := 6, payload := [] }
        handler_result.returns)).conn.m_handlers = [] :=
  ⟨((release_iff_drained 6 sample_draining
      (operation.on_message { band := 1, id := 6, payload := [] } handler_result.returns)
      (by decide)).1).mpr (by decide),
   by decide⟩

/-! ### Keys of the session table and the counter -/

/-- A table after an assignment is not empty. -/
theorem assign_ne_nil (t : handlers_map_t) (id : Nat) (h : handler_t) :
    handlers_map_t.assign t id h ≠ [] := by
  cases t with
  | nil => simp [handlers_map_t.assign]
  | cons e t =>
    simp only [handlers_map_t.assign]
    split
    · simp
    · split <;> simp

/-- Nothing is found under an id that is not a key. -/
theorem find_eq_none_of_not_key (t : handlers_map_t) (k : Nat)
    (hk : ∀ e ∈ t, e.1 ≠ k) : handlers_map_t.find t k = none := by
  induction t with
  | nil => rfl
  | cons e t ih =>
    rw [find_cons, if_neg (hk e (List.mem_cons_self _ _))]
    exact ih (fun x hx => hk x (List.mem_cons_of_mem _ hx))

/-- An operation other than `create_session` returns no id, keeps the counter and adds no
entry to the table. -/
theorem step_keeps_keys (choke : Nat) (c : service_connection_t) (op : operation)
    (hop : ∀ g, op ≠ operation.create_session g) :
    (step choke c op).created = none ∧
    (step choke c op).conn.m_session_counter = c.m_session_counter ∧
    (∀ e ∈ (step choke c op).conn.m_handlers, e ∈ c.m_handlers) := by
  have hcreated : (step choke c op).created = none := by
    cases op with
    | create_session g => exact absurd rfl (hop g)
    | _ => rfl
  have hcounter : (step choke c op).conn.m_session_counter = c.m_session_counter := by
    rcases step_counter choke c op with ⟨_, hk⟩ | ⟨hc, _⟩
    · exact hk
    · rw [hcreated] at hc
      cases hc
  refine ⟨hcreated, hcounter, ?_⟩
  rcases step_sessions choke c op with (⟨ht, _⟩ | ⟨ht, _⟩) | ⟨message, g, _, _, ht⟩ |
    ⟨g, hg, _, _⟩
  · rw [ht]; exact fun e he => he
  · rw [ht]; intro e he; cases he
  · rw [ht]
    split
    · intro e he
      exact (List.mem_filter.mp he).1
    · exact fun e he => he
  · exact absurd hg (hop g)

/-- One operation keeps the bounds: the counter is one more than the number of sessions
created so far (modulo `2 ^ 64`) and every key is between 1 and that number, as long as
fewer than `2 ^ 64` sessions have been created. -/
theorem step_keys (choke : Nat) (c : service_connection_t) (op : operation) (k : Nat)
    (hcnt : c.m_session_counter = (1 + k) % session_id_modulus)
    (hkeys : keys_within c.m_handlers k)
    (hlt : k + (step choke c op).created.toList.length < session_id_modulus) :
    (step choke c op).conn.m_session_counter =
      (1 + (k + (step choke c op).created.toList.length)) % session_id_modulus ∧
    keys_within (step choke c op).conn.m_handlers
      (k + (step choke c op).created.toList.length) := by
  by_cases hop : ∃ g, op = operation.create_session g
  · obtain ⟨g, rfl⟩ := hop
    simp only [step] at hlt ⊢
    rcases create_session_cases c g with ⟨⟨e, he⟩, hconn⟩ | ⟨hret, _, _, hconn⟩
    · rw [he, hconn]
      simp only [created_id, Option.toList, List.length_nil, Nat.add_zero]
      exact ⟨hcnt, hkeys⟩
    · rw [hret] at hlt ⊢
      rw [hconn]
      simp only [created_id, Option.toList, List.length_singleton] at hlt ⊢
      have hmod : (1 + k) % session_id_modulus = 1 + k := Nat.mod_eq_of_lt (by omega)
      refine ⟨?_, ?_⟩
      · show (c.m_session_counter + 1) % session_id_modulus = _
        rw [hcnt, hmod, Nat.add_assoc]
      · intro e he
        rcases keys_assign c.m_handlers c.m_session_counter g e.1
          (List.mem_map_of_mem Prod.fst he) with h | h
        · rw [h, hcnt, hmod]
          omega
        · obtain ⟨x, hx, hxe⟩ := List.mem_map.mp h
          have := hkeys x hx
          rw [hxe] at this
          omega
  · have hkeep := step_keeps_keys choke c op (fun g hg => hop ⟨g, hg⟩)
    rw [hkeep.1] at hlt ⊢
    simp only [Option.toList, List.length_nil, Nat.add_zero]
    refine ⟨by rw [hkeep.2.1]; exact hcnt, ?_⟩
    intro e he
    exact hkeys e (hkeep.2.2 e he)

/-- The bounds along a history in which fewer than `2 ^ 64` sessions are created. -/
theorem run_keys (choke : Nat) (ops : List operation) :
    ∀ (c : service_connection_t) (k : Nat),
      c.m_session_counter = (1 + k) % session_id_modulus →
      keys_within c.m_handlers k →
      k + (run choke c ops).created.length < session_id_modulus →
      (run choke c ops).conn.m_session_counter =
        (1 + (k + (run choke c ops).created.length)) % session_id_modulus ∧
      keys_within (run choke c ops).conn.m_handlers (k + (run choke c ops).created.length) := by
  induction ops with
  | nil => intro c k hcnt hkeys _; exact ⟨hcnt, hkeys⟩
  | cons op ops ih =>
    intro c k hcnt hkeys hlt
    simp only [run, List.length_append] at hlt ⊢
    have hstep := step_keys choke c op k hcnt hkeys (by omega)
    have hrest := ih (step choke c op).conn _ hstep.1 hstep.2 (by omega)
    rw [Nat.add_assoc] at hrest
    exact hrest

/-- The connection after a history that starts with `op`. -/
theorem run_cons_conn (choke : Nat) (c : service_connection_t) (op : operation)
    (ops : List operation) :
    (run choke c (op :: ops)).conn = (run choke (step choke c op).conn ops).conn :=
  rfl

/-- The ids returned along a history that starts with `op`. -/
theorem run_cons_created (choke : Nat) (c : service_connection_t) (op : operation)
    (ops : List operation) :
    (run choke c (op :: ops)).created =
      (step choke c op).created.toList ++ (run choke (step choke c op).conn ops).created :=
  rfl

/-- In Connected, `n` calls of `create_session` in a row create `n` sessions, and leave a
table that is not empty if one of them was made or the table was not empty before. -/
theorem run_replicate_create (choke : Nat) (g : handler_t) (n : Nat) :
    ∀ c : service_connection_t, c.m_connection_status = service_status.connected →
      (run choke c (List.replicate n (operation.create_session g))).created.length = n ∧
      ((0 < n ∨ c.m_handlers ≠ []) →
        (run choke c (List.replicate n (operation.create_session g))).conn.m_handlers ≠ []) := by
  induction n with
  | zero =>
    intro c _
    refine ⟨rfl, ?_⟩
    intro h
    rcases h with h | h
    · exact absurd h (Nat.lt_irrefl 0)
    · exact h
  | succ n ih =>
    intro c hs
    rw [List.replicate_succ, run_cons_created, run_cons_conn]
    simp only [step]
    rcases create_session_cases c g with ⟨⟨e, he⟩, _⟩ | ⟨hret, _, _, hconn⟩
    · simp [service_connection_t.create_session, hs] at he
    · have hs1 : (c.create_session g).conn.m_connection_status = service_status.connected := by
        rw [create_session_status]
        exact hs
      have hne : (c.create_session g).conn.m_handlers ≠ [] := by
        rw [hconn]
        exact assign_ne_nil _ _ _
      have hrest := ih (c.create_session g).conn hs1
      rw [hret]
      simp only [created_id, Option.toList, List.singleton_append, List.length_cons]
      exact ⟨by rw [hrest.1], fun _ => hrest.2 (Or.inr hne)⟩

/-- The ids returned along a history whose first operation returns none. -/
theorem run_cons_created_none (choke : Nat) (c : service_connection_t) (op : operation)
    (ops : List operation) (h : (step choke c op).created = none) :
    (run choke c (op :: ops)).created = (run choke (step choke c op).conn ops).created := by
  rw [run_cons_created, h]
  rfl

/-- The history `sample_exhausting` on the fresh sample: after the connect, the run of
`2 ^ 64 - 1` calls of `create_session` on the connected sample. -/
theorem run_sample_exhausting :
    (run 6 sample_fresh sample_exhausting).conn =
      (run 6 sample_connected
        (List.replicate (2 ^ 64 - 1) (operation.create_session 7))).conn ∧
    (run 6 sample_fresh sample_exhausting).created =
      (run 6 sample_connected
        (List.replicate (2 ^ 64 - 1) (operation.create_session 7))).created := by
  have hstep : (step 6 sample_fresh (operation.connect none)).conn = sample_connected := rfl
  have hcreated : (step 6 sample_fresh (operation.connect none)).created = none := rfl
  constructor
  · have h := run_cons_conn 6 sample_fresh (operation.connect none)
      (List.replicate (2 ^ 64 - 1) (operation.create_session 7))
    rw [hstep] at h
    exact h
  · have h := run_cons_created_none 6 sample_fresh (operation.connect none)
      (List.replicate (2 ^ 64 - 1) (operation.create_session 7)) hcreated
    rw [hstep] at h
    exact h

/-- C18, counterexample: a freshly constructed connection connects and then creates
`2 ^ 64 - 1` sessions, which is fewer than `2 ^ 64`.  The counter has wrapped to 0 while the
table holds sessions, so its keys are not below the counter. -/
theorem keys_below_counter_counterexample :
    (run 6 sample_fresh sample_exhausting).created.length = 2 ^ 64 - 1 ∧
    (run 6 sample_fresh sample_exhausting).created.length < 2 ^ 64 ∧
    (run 6 sample_fresh sample_exhausting).conn.m_session_counter = 0 ∧
    ¬ (∀ e ∈ (run 6 sample_fresh sample_exhausting).conn.m_handlers,
        1 ≤ e.1 ∧ e.1 < (run 6 sample_fresh sample_exhausting).conn.m_session_counter) := by
  have hs : sample_connected.m_connection_status = service_status.connected := by decide
  have hrep := run_replicate_create 6 7 (2 ^ 64 - 1) sample_connected hs
  have hkeys := run_keys 6 (List.replicate (2 ^ 64 - 1) (operation.create_session 7))
    sample_connected 0 (by decide) (fun e he => by cases he) (by rw [hrep.1]; decide)
  have hne := hrep.2 (Or.inl (by decide))
  have hlen := hrep.1
  have hcnt := hkeys.1
  rw [hlen] at hcnt
  rw [run_sample_exhausting.1, run_sample_exhausting.2]
  generalize run 6 sample_connected
    (List.replicate (2 ^ 64 - 1) (operation.create_session 7)) = r at hne hlen hcnt
  have hzero : r.conn.m_session_counter = 0 := by
    rw [hcnt]
    decide
  refine ⟨hlen, by rw [hlen]; decide, hzero, ?_⟩
  intro hall
  rw [hzero] at hall
  cases ht : r.conn.m_handlers with
  | nil => exact hne ht
  | cons e t =>
    have := (hall e (by rw [ht]; exact List.mem_cons_self _ _)).2
    omega

/-- C18, amended: in every state reached from a freshly constructed connection with fewer
than `2 ^ 64 - 1` sessions created, the counter is one more than the number of sessions
created and every key of the session table is at least 1 and strictly less than the
counter.  With fewer than `2 ^ 64` sessions created, the counter is not a key of the table,
so the id `create_session` allocates is not in use and its insertion leaves every entry of
the table in place. -/
theorem keys_below_counter (choke : Nat) (c : service_connection_t) (ops : List operation)
    (hc : c.constructed) :
    ((run choke c ops).created.length + 1 < 2 ^ 64 →
      (run choke c ops).conn.m_session_counter = (run choke c ops).created.length + 1 ∧
      (∀ e ∈ (run choke c ops).conn.m_handlers,
        1 ≤ e.1 ∧ e.1 < (run choke c ops).conn.m_session_counter)) ∧
    ((run choke c ops).created.length < 2 ^ 64 →
      handlers_map_t.find (run choke c ops).conn.m_handlers
        (run choke c ops).conn.m_session_counter = none ∧
      (∀ handler k g, handlers_map_t.find (run choke c ops).conn.m_handlers k = some g →
        handlers_map_t.find
          ((run choke c ops).conn.create_session handler).conn.m_handlers k = some g)) := by
  have hone : c.m_session_counter = (1 + 0) % session_id_modulus := by
    rcases hc with ⟨name, manager, version, rfl⟩ | ⟨target, manager, version, rfl⟩ <;> rfl
  have hnil : keys_within c.m_handlers 0 := by
    rcases hc with ⟨name, manager, version, rfl⟩ | ⟨target, manager, version, rfl⟩ <;>
      exact fun e he => by cases he
  have hM : session_id_modulus = 2 ^ 64 := rfl
  constructor
  · intro hlt
    have hk := run_keys choke ops c 0 hone hnil (by rw [hM]; omega)
    rw [Nat.zero_add] at hk
    have hmod : (1 + (run choke c ops).created.length) % session_id_modulus =
        1 + (run choke c ops).created.length := Nat.mod_eq_of_lt (by rw [hM]; omega)
    rw [hmod] at hk
    refine ⟨by rw [hk.1]; omega, ?_⟩
    intro e he
    have := hk.2 e he
    rw [hk.1]
    omega
  · intro hlt
    have hk := run_keys choke ops c 0 hone hnil (by rw [hM]; omega)
    rw [Nat.zero_add] at hk
    have hfree : ∀ e ∈ (run choke c ops).conn.m_handlers,
        e.1 ≠ (run choke c ops).conn.m_session_counter := by
      intro e he heq
      have hb := hk.2 e he
      rw [hk.1] at heq
      by_cases hw : 1 + (run choke c ops).created.length < session_id_modulus
      · rw [Nat.mod_eq_of_lt hw] at heq
        omega
      · have hfull : 1 + (run choke c ops).created.length = session_id_modulus := by
          rw [hM] at hw ⊢
          omega
        rw [hfull, Nat.mod_self] at heq
        omega
    have hnone := find_eq_none_of_not_key _ _ hfree
    refine ⟨hnone, ?_⟩
    intro handler k g hfind
    rcases create_session_cases (run choke c ops).conn handler with
      ⟨_, hconn⟩ | ⟨_, _, _, hconn⟩
    · rw [hconn]
      exact hfind
    · rw [hconn]
      have hne : k ≠ (run choke c ops).conn.m_session_counter := by
        intro heq
        rw [heq, hnone] at hfind
        cases hfind
      show handlers_map_t.find (handlers_map_t.assign _ _ handler) k = some g
      rw [find_assign_of_ne _ _ k _ hne]
      exact hfind

/-- C18, witness: the sample history creates two sessions; after it the counter is 3, the
only live key is 2 and nothing is stored under 3. -/
theorem keys_below_counter_witness :
    (run 6 sample_fresh sample_history).conn.m_handlers = [(2, 8)] ∧
    (run 6 sample_fresh sample_history).conn.m_session_counter = 3 ∧
    handlers_map_t.find (run 6 sample_fresh sample_history).conn.m_handlers
      (run 6 sample_fresh sample_history).conn.m_session_counter = none :=
  ⟨by decide, by decide,
   ((keys_below_counter 6 sample_fresh sample_history (Or.inr ⟨_, _, _, rfl⟩)).2
      (by decide)).1⟩

/-! ### `reconnect` and the session counter -/

/-- A history in which no session is created leaves the counter as it was. -/
theorem run_counter_of_none_created (choke : Nat) (ops : List operation) :
    ∀ c : service_connection_t, (run choke c ops).created = [] →
      (run choke c ops).conn.m_session_counter = c.m_session_counter := by
  induction ops with
  | nil => intro c _; rfl
  | cons op ops ih =>
    intro c hnone
    rw [run_cons_created] at hnone
    rw [run_cons_conn]
    rcases step_counter choke c op with ⟨hc, hk⟩ | ⟨hc, _⟩
    · rw [hc] at hnone
      rw [ih _ hnone, hk]
    · rw [hc] at hnone
      cases hnone

/-- In Connected `create_session` returns the counter and the current channel. -/
theorem create_session_of_connected (c : service_connection_t) (handler : handler_t)
    (hs : c.m_connection_status = service_status.connected) :
    (c.create_session handler).ret = Except.ok (c.m_session_counter, c.m_channel) := by
  simp [service_connection_t.create_session, hs]

/-- Whenever `create_session` returns an id, it is the counter. -/
theorem create_session_returns_counter (c : service_connection_t) (handler : handler_t)
    (id : Nat) (channel : iochannel_t)
    (h : (c.create_session handler).ret = Except.ok (id, channel)) :
    id = c.m_session_counter := by
  rcases create_session_cases c handler with ⟨⟨e, he⟩, _⟩ | ⟨hret, _⟩
  · rw [he] at h
    cases h
  · rw [hret] at h
    cases h
    rfl

/-- A state reached from a constructed connection by creating at least one and fewer than
`2 ^ 64` sessions has a counter other than 1. -/
theorem counter_ne_one_of_created (choke : Nat) (c0 : service_connection_t)
    (before : List operation) (hc : c0.constructed)
    (hpos : 0 < (run choke c0 before).created.length)
    (hlt : (run choke c0 before).created.length < 2 ^ 64) :
    (run choke c0 before).conn.m_session_counter ≠ 1 := by
  have hone : c0.m_session_counter = (1 + 0) % session_id_modulus := by
    rcases hc with ⟨name, manager, version, rfl⟩ | ⟨target, manager, version, rfl⟩ <;> rfl
  have hnil : keys_within c0.m_handlers 0 := by
    rcases hc with ⟨name, manager, version, rfl⟩ | ⟨target, manager, version, rfl⟩ <;>
      exact fun e he => by cases he
  have hM : session_id_modulus = 2 ^ 64 := rfl
  have hk := (run_keys choke before c0 0 hone hnil (by rw [hM]; omega)).1
  rw [Nat.zero_add, hM] at hk
  rw [hk]
  omega

/-- The channel after `connect_to_endpoint` is the allocation it was before. -/
theorem connect_to_endpoint_channel_generation (c : service_connection_t)
    (socket : Option exception) :
    (c.connect_to_endpoint socket).conn.m_channel.generation = c.m_channel.generation := by
  unfold service_connection_t.connect_to_endpoint service_connection_t.reset_sessions
  cases c.manager <;> cases socket <;> rfl

/-- The channel after `connect` is the allocation it was before. -/
theorem connect_channel_generation (c : service_connection_t) (socket : Option exception) :
    (c.connect socket).conn.m_channel.generation = c.m_channel.generation := by
  cases hn : c.m_name with
  | some name =>
    rw [connect_by_name c socket name hn]
    cases c.m_manager <;> rfl
  | none =>
    rw [(connect_by_endpoint c socket hn).1]
    exact connect_to_endpoint_channel_generation _ socket

/-- Outside Connecting `reconnect` installs a fresh channel. -/
theorem reconnect_channel_generation (c : service_connection_t) (socket : Option exception)
    (hs : c.m_connection_status ≠ service_status.connecting) :
    (c.reconnect socket).conn.m_channel.generation = c.m_channel.generation + 1 := by
  rw [reconnect_of_not_connecting c socket hs]
  cases c.m_manager with
  | none => rfl
  | some m =>
    show (c.reconnect_midpoint.connect socket).conn.m_channel.generation = _
    rw [connect_channel_generation]
    rfl

/-- C3, counterexample: with sessions 1 and 2 allocated, after `reconnect` has completed and
the connection is Connected again the counter is still 3 and the next `create_session`
returns 3, not 1. -/
theorem reconnect_resets_counter_counterexample :
    sample_two_sessions.m_handlers = [(1, 7), (2, 8)] ∧
    (sample_two_sessions.reconnect none).conn.m_connection_status = service_status.connected ∧
    (sample_two_sessions.reconnect none).conn.m_session_counter = 3 ∧
    ((sample_two_sessions.reconnect none).conn.create_session 9).ret =
      Except.ok (3, (sample_two_sessions.reconnect none).conn.m_channel) := by
  decide

/-- C3, amended: `reconnect` leaves the session counter as it was, in every state and
whatever the connect attempt does; outside Connecting it empties the session table and
installs a fresh channel.  Along every continuation in which no session is created (such
as the `on_resolved` that completes a reconnect by name) the counter stays the value it had
before the reconnect, and once the connection is Connected the next `create_session`
succeeds and returns that value.  When sessions have been allocated before the reconnect
(at least one, fewer than `2 ^ 64`, since construction) that value is not 1, so no
`create_session` after the reconnect returns id 1. -/
theorem reconnect_keeps_session_counter (c : service_connection_t) (socket : Option exception) :
    (c.reconnect socket).conn.m_session_counter = c.m_session_counter ∧
    (c.m_connection_status ≠ service_status.connecting →
      (c.reconnect socket).conn.m_handlers = [] ∧
      (c.reconnect socket).conn.m_channel.generation = c.m_channel.generation + 1) ∧
    (∀ choke ops, (run choke (c.reconnect socket).conn ops).created = [] →
      (run choke (c.reconnect socket).conn ops).conn.m_session_counter = c.m_session_counter ∧
      (∀ handler id channel,
        ((run choke (c.reconnect socket).conn ops).conn.create_session handler).ret =
          Except.ok (id, channel) → id = c.m_session_counter) ∧
      (∀ handler,
        (run choke (c.reconnect socket).conn ops).conn.m_connection_status =
          service_status.connected →
        ((run choke (c.reconnect socket).conn ops).conn.create_session handler).ret =
          Except.ok (c.m_session_counter,
            (run choke (c.reconnect socket).conn ops).conn.m_channel)) ∧
      (∀ c0 before, c0.constructed → (run choke c0 before).conn = c →
        0 < (run choke c0 before).created.length →
        (run choke c0 before).created.length < 2 ^ 64 →
        ∀ handler channel,
          ((run choke (c.reconnect socket).conn ops).conn.create_session handler).ret ≠
            Except.ok (1, channel))) := by
  refine ⟨reconnect_counter c socket, ?_, ?_⟩
  · intro hs
    exact ⟨(reconnect_sessions c socket hs).1, reconnect_channel_generation c socket hs⟩
  · intro choke ops hnone
    have hcnt : (run choke (c.reconnect socket).conn ops).conn.m_session_counter =
        c.m_session_counter := by
      rw [run_counter_of_none_created choke ops _ hnone, reconnect_counter]
    refine ⟨hcnt, ?_, ?_, ?_⟩
    · intro handler id channel hret
      rw [← hcnt]
      exact create_session_returns_counter _ handler id channel hret
    · intro handler hs
      rw [create_session_of_connected _ handler hs, hcnt]
    · intro c0 before hc hconn hpos hlt handler channel hret
      have hne := counter_ne_one_of_created choke c0 before hc hpos hlt
      rw [hconn] at hne
      have := create_session_returns_counter _ handler 1 channel hret
      rw [hcnt] at this
      exact hne this.symm

/-- C3, witness: the connection by name with session 1 allocated is reconnected and the
resolve completes; the connection is Connected again and the next `create_session` returns
2. -/
theorem reconnect_keeps_session_counter_witness :
    sample_named_session.m_session_counter = 2 ∧
    (sample_named_session.reconnect none).conn.m_connection_status =
      service_status.connecting ∧
    (run 6 (sample_named_session.reconnect none).conn
      [operation.on_resolved
        (Except.ok { hostname := "localhost", port := 34001, version := 1 })
        (Except.ok { address := 127, port := 34001 }) none]).conn.m_connection_status =
      service_status.connected ∧
    ((run 6 (sample_named_session.reconnect none).conn
      [operation.on_resolved
        (Except.ok { hostname := "localhost", port := 34001, version := 1 })
        (Except.ok { address := 127, port := 34001 }) none]).conn.create_session 9).ret =
      Except.ok (2, (run 6 (sample_named_session.reconnect none).conn
        [operation.on_resolved
          (Except.ok { hostname := "localhost", port := 34001, version := 1 })
          (Except.ok { address := 127, port := 34001 }) none]).conn.m_channel) :=
  ⟨by decide, by decide, by decide,
   ((reconnect_keeps_session_counter sample_named_session none).2.2 6 _ (by decide)).2.2.1 9
      (by decide)⟩

/-! ### Leaving Draining -/

/-- Outside Connecting, the status `reconnect` ends in and what it returns, by the manager
reference, the kind of connection and the outcome of opening the socket. -/
theorem reconnect_outcome (c : service_connection_t) (socket : Option exception)
    (hs : c.m_connection_status ≠ service_status.connecting) :
    (c.m_manager = none →
      (c.reconnect socket).ret =
        Except.error (exception.service_error_t service_errc.broken_manager) ∧
      (c.reconnect socket).conn.m_connection_status = service_status.disconnected) ∧
    (c.m_manager ≠ none → c.m_name ≠ none →
      (c.reconnect socket).ret = Except.ok future.pending ∧
      (c.reconnect socket).conn.m_connection_status = service_status.connecting) ∧
    (c.m_manager ≠ none → c.m_name = none → socket = none →
      (c.reconnect socket).ret = Except.ok future.ready ∧
      (c.reconnect socket).conn.m_connection_status = service_status.connected) ∧
    (∀ e, c.m_manager ≠ none → c.m_name = none → socket = some e →
      (c.reconnect socket).ret = Except.ok (future.error e) ∧
      (c.reconnect socket).conn.m_connection_status = service_status.disconnected) := by
  rcases c with ⟨name, target, version, manager, status, executor, counter, handlers, channel⟩
  simp only at hs
  cases manager with
  | none =>
    simp [service_connection_t.reconnect, hs, service_connection_t.manager,
      service_connection_t.reset_sessions]
  | some m =>
    cases name with
    | some n =>
      simp [service_connection_t.reconnect, hs, service_connection_t.manager,
        service_connection_t.reset_sessions, service_connection_t.connect]
    | none =>
      cases socket with
      | none =>
        simp [service_connection_t.reconnect, hs, service_connection_t.manager,
          service_connection_t.reset_sessions, service_connection_t.connect,
          service_connection_t.connect_to_endpoint]
      | some e =>
        simp [service_connection_t.reconnect, hs, service_connection_t.manager,
          service_connection_t.reset_sessions, service_connection_t.connect,
          service_connection_t.connect_to_endpoint]

/-- What `on_error` returns: nothing when `reconnect` returns a future, and what `reconnect`
throws otherwise. -/
theorem on_error_ret (c : service_connection_t) (code : Nat) (socket : Option exception) :
    (∀ f, (c.reconnect socket).ret = Except.ok f → (c.on_error code socket).ret = Except.ok ()) ∧
    (∀ e, (c.reconnect socket).ret = Except.error e →
      (c.on_error code socket).ret = Except.error e) := by
  unfold service_connection_t.on_error
  simp only
  constructor
  · intro f hf
    rw [hf]
  · intro e he
    rw [he]

/-- C15, counterexample: `soft_destroy` has put the sample with one session into Draining.
A `reconnect` is not rejected there: it fails the session and connects again, the status
ends Connected, and the next `create_session` succeeds. -/
theorem draining_is_final_counterexample :
    sample_draining.m_connection_status = service_status.waiting_for_sessions ∧
    (sample_draining.reconnect none).ret = Except.ok future.ready ∧
    (sample_draining.reconnect none).conn.m_connection_status = service_status.connected ∧
    ((sample_draining.reconnect none).conn.create_session 9).ret =
      Except.ok (2, (sample_draining.reconnect none).conn.m_channel) ∧
    event.release ∉ (sample_draining.reconnect none).events := by
  decide

/-- C15, amended: a Draining connection stays Draining, and every `create_session` on it
fails with `wait_for_connection`, along every sequence of `create_session`, `on_message`
and `soft_destroy` calls (and the manager being torn down).  A `reconnect` at any point of
such a sequence is not rejected: it empties the session table, fails every session with
`not_connected`, requests no release, and takes the connection out of Draining: to
Disconnected when the manager reference has expired (throwing `broken_manager`) or the
socket cannot be opened, to Connecting by name, to Connected by endpoint when the socket
opens.  When it ends Connecting or Connected, `create_session` succeeds again and returns
the session counter; when it ends Disconnected, `create_session` fails with
`not_connected`.  An `on_error` does what that `reconnect` does. -/
theorem draining_until_reconnect (choke : Nat) (c : service_connection_t)
    (ops : List operation)
    (hd : c.m_connection_status = service_status.waiting_for_sessions)
    (hops : ∀ op ∈ ops, op.keeps_draining = true) :
    (run choke c ops).conn.m_connection_status = service_status.waiting_for_sessions ∧
    (run choke c ops).created = [] ∧
    (∀ handler, ((run choke c ops).conn.create_session handler).ret =
      Except.error (exception.service_error_t service_errc.wait_for_connection)) ∧
    (∀ d socket, d = (run choke c ops).conn →
      (d.reconnect socket).ret ≠
        Except.error (exception.service_error_t service_errc.wait_for_connection) ∧
      (d.reconnect socket).conn.m_handlers = [] ∧
      (d.reconnect socket).events.filter event.is_handler_call = fail_all d.m_handlers ∧
      event.release ∉ (d.reconnect socket).events ∧
      (d.reconnect socket).conn.m_connection_status ≠ service_status.waiting_for_sessions ∧
      (d.m_manager = none →
        (d.reconnect socket).ret =
          Except.error (exception.service_error_t service_errc.broken_manager) ∧
        (d.reconnect socket).conn.m_connection_status = service_status.disconnected) ∧
      (d.m_manager ≠ none → d.m_name ≠ none →
        (d.reconnect socket).ret = Except.ok future.pending ∧
        (d.reconnect socket).conn.m_connection_status = service_status.connecting) ∧
      (d.m_manager ≠ none → d.m_name = none → socket = none →
        (d.reconnect socket).ret = Except.ok future.ready ∧
        (d.reconnect socket).conn.m_connection_status = service_status.connected) ∧
      (∀ e, d.m_manager ≠ none → d.m_name = none → socket = some e →
        (d.reconnect socket).ret = Except.ok (future.error e) ∧
        (d.reconnect socket).conn.m_connection_status = service_status.disconnected) ∧
      (∀ handler,
        (d.reconnect socket).conn.m_connection_status = service_status.connecting ∨
          (d.reconnect socket).conn.m_connection_status = service_status.connected →
        ((d.reconnect socket).conn.create_session handler).ret =
          Except.ok (d.m_session_counter, (d.reconnect socket).conn.m_channel)) ∧
      (∀ handler,
        (d.reconnect socket).conn.m_connection_status = service_status.disconnected →
        ((d.reconnect socket).conn.create_session handler).ret =
          Except.error (exception.service_error_t service_errc.not_connected)) ∧
      (∀ code, (d.on_error code socket).conn = (d.reconnect socket).conn ∧
        (d.on_error code socket).events = (d.reconnect socket).events ∧
        (d.on_error code socket).ret ≠
          Except.error (exception.service_error_t service_errc.wait_for_connection))) := by
  have hrun := run_keeps_draining choke ops c hd hops
  refine ⟨hrun.1, hrun.2, ?_, ?_⟩
  · intro handler
    simp [service_connection_t.create_session, hrun.1]
  · intro d socket hdd
    have hdr : d.m_connection_status = service_status.waiting_for_sessions := by
      rw [hdd]
      exact hrun.1
    have hs : d.m_connection_status ≠ service_status.connecting := by rw [hdr]; decide
    have hout := reconnect_outcome d socket hs
    have hsess := reconnect_sessions d socket hs
    have hret : (d.reconnect socket).ret ≠
        Except.error (exception.service_error_t service_errc.wait_for_connection) := by
      rw [reconnect_of_not_connecting d socket hs]
      cases d.m_manager with
      | none => simp
      | some m =>
        obtain ⟨f, hf⟩ := connect_ret_ok d.reconnect_midpoint socket
        simp only [hf]
        intro h
        cases h
    have hst : (d.reconnect socket).conn.m_connection_status ≠
        service_status.waiting_for_sessions := by
      rcases reconnect_status d socket hs with h | h | h <;> rw [h] <;> decide
    refine ⟨hret, hsess.1, hsess.2, reconnect_no_release d socket, hst, hout.1, hout.2.1,
      hout.2.2.1, hout.2.2.2, ?_, ?_, ?_⟩
    · intro handler hst2
      have hcnt := reconnect_counter d socket
      rcases hst2 with h | h <;>
        simp [service_connection_t.create_session, h, hcnt]
    · intro handler hst2
      simp [service_connection_t.create_session, hst2]
    · intro code
      refine ⟨(on_error_eq_reconnect d code socket).1, (on_error_eq_reconnect d code socket).2, ?_⟩
      cases hr : (d.reconnect socket).ret with
      | ok f =>
        rw [(on_error_ret d code socket).1 f hr]
        intro h
        cases h
      | error e =>
        rw [(on_error_ret d code socket).2 e hr]
        rw [hr] at hret
        intro h
        cases h
        exact hret rfl

/-- C15, witness: the Draining sample with one session receives a frame, a second
`soft_destroy` and a `create_session`: it stays Draining and no session is created; a
reconnect then fails the session, requests no release and ends Connected. -/
theorem draining_until_reconnect_witness :
    (run 6 sample_draining
      [operation.on_message { band := 1, id := 4, payload := [] } handler_result.returns,
        operation.soft_destroy, operation.create_session 9]).conn.m_connection_status =
      service_status.waiting_for_sessions ∧
    (run 6 sample_draining
      [operation.on_message { band := 1, id := 4, payload := [] } handler_result.returns,
        operation.soft_destroy, operation.create_session 9]).created = [] ∧
    ((run 6 sample_draining
      [operation.on_message { band := 1, id := 4, payload := [] } handler_result.returns,
        operation.soft_destroy, operation.create_session 9]).conn.reconnect none).events.filter
        event.is_handler_call = [event.fail 7 service_errc.not_connected] ∧
    ((run 6 sample_draining
      [operation.on_message { band := 1, id := 4, payload := [] } handler_result.returns,
        operation.soft_destroy, operation.create_session 9]).conn.reconnect
          none).conn.m_connection_status = service_status.connected :=
  ⟨(draining_until_reconnect 6 sample_draining _ (by decide) (by decide)).1, by decide,
   by decide,
   (((draining_until_reconnect 6 sample_draining
      [operation.on_message { band := 1, id := 4, payload := [] } handler_result.returns,
        operation.soft_destroy, operation.create_session 9] (by decide) (by decide)).2.2.2
      _ none rfl).2.2.2.2.2.2.2.1 (by decide) (by decide) rfl).2⟩

/-! ### The mutex and the calls on handlers -/

/-- Taking the lock is no call. -/
theorem lock_calls_acquire (steps : List lock_step) :
    lock_calls (lock_step.acquire :: steps) = lock_calls steps :=
  rfl

/-- Releasing the lock is no call. -/
theorem lock_calls_release (steps : List lock_step) :
    lock_calls (lock_step.release :: steps) = lock_calls steps :=
  rfl

/-- A call step is a call. -/
theorem lock_calls_call (e : event) (steps : List lock_step) :
    lock_calls (lock_step.call e :: steps) = e :: lock_calls steps :=
  rfl

/-- No step, no call. -/
theorem lock_calls_nil : lock_calls [] = [] :=
  rfl

/-- The calls among the steps of two lists, one after the other. -/
theorem lock_calls_append (a b : List lock_step) :
    lock_calls (a ++ b) = lock_calls a ++ lock_calls b := by
  induction a with
  | nil => rfl
  | cons s a ih =>
    cases s
    · rw [List.cons_append, lock_calls_acquire, lock_calls_acquire, ih]
    · rw [List.cons_append, lock_calls_release, lock_calls_release, ih]
    · rw [List.cons_append, lock_calls_call, lock_calls_call, ih, List.cons_append]

/-- The calls among the steps of `reset_sessions` are the calls of `reset_sessions`. -/
theorem lock_calls_reset_sessions (t : handlers_map_t) :
    lock_calls (reset_sessions_steps t) = fail_all t := by
  induction t with
  | nil => rfl
  | cons e t ih =>
    simp only [reset_sessions_steps, fail_all, List.map_cons, lock_calls_call] at ih ⊢
    rw [ih]

/-- The calls among the steps of a catch block that takes the lock and runs
`reset_sessions` are the calls of `reset_sessions`. -/
theorem lock_calls_failed (t : handlers_map_t) :
    lock_calls (lock_step.acquire :: reset_sessions_steps t ++ [lock_step.release]) =
      fail_all t := by
  rw [List.cons_append, lock_calls_acquire, lock_calls_append, lock_calls_reset_sessions,
    lock_calls_release, lock_calls_nil, List.append_nil]

/-- The calls among the steps of `connect_to_endpoint` are its events. -/
theorem lock_calls_connect_to_endpoint (c : service_connection_t) (socket : Option exception) :
    lock_calls (c.connect_to_endpoint_steps socket) = (c.connect_to_endpoint socket).events := by
  unfold service_connection_t.connect_to_endpoint_steps
    service_connection_t.connect_to_endpoint service_connection_t.reset_sessions
  cases c.manager with
  | error e => exact lock_calls_failed c.m_handlers
  | ok m =>
    cases socket with
    | none => rfl
    | some e =>
      show lock_calls (lock_step.call (event.open_socket c.m_endpoint) :: lock_step.acquire ::
        reset_sessions_steps c.m_handlers ++ [lock_step.release]) =
        event.open_socket c.m_endpoint :: fail_all c.m_handlers
      rw [List.cons_append, lock_calls_call, lock_calls_failed]

/-- The calls among the steps of `connect` are its events. -/
theorem lock_calls_connect (c : service_connection_t) (socket : Option exception) :
    lock_calls (c.connect_steps socket).1 = (c.connect socket).events := by
  cases hn : c.m_name with
  | some name =>
    rw [connect_by_name c socket name hn]
    unfold service_connection_t.connect_steps service_connection_t.manager
    rw [hn]
    cases c.m_manager <;> rfl
  | none =>
    rw [(connect_by_endpoint c socket hn).2, ← lock_calls_connect_to_endpoint]
    unfold service_connection_t.connect_steps
    rw [hn]
    rfl

/-- The calls among the steps of `reconnect` are its events. -/
theorem lock_calls_reconnect (c : service_connection_t) (socket : Option exception) :
    lock_calls (c.reconnect_steps socket) = (c.reconnect socket).events := by
  unfold service_connection_t.reconnect_steps
  by_cases hs : c.m_connection_status = service_status.connecting
  · rw [reconnect_of_connecting c socket hs, if_pos hs]
    rfl
  · rw [reconnect_of_not_connecting c socket hs, if_neg hs]
    rw [lock_calls_acquire, lock_calls_append, lock_calls_reset_sessions]
    cases c.m_manager with
    | none =>
      show fail_all c.m_handlers ++ lock_calls [lock_step.release] = fail_all c.m_handlers
      rw [lock_calls_release, lock_calls_nil, List.append_nil]
    | some m =>
      show fail_all c.m_handlers ++ lock_calls
        (lock_step.call (event.retire c.m_channel) ::
          (c.reconnect_midpoint.connect_steps socket).1 ++
            (if (c.reconnect_midpoint.connect_steps socket).2 then [lock_step.release]
              else [])) =
        fail_all c.m_handlers ++
          event.retire c.m_channel :: (c.reconnect_midpoint.connect socket).events
      rw [List.cons_append, lock_calls_call, lock_calls_append, lock_calls_connect]
      split
      · rw [lock_calls_release, lock_calls_nil, List.append_nil]
      · rw [lock_calls_nil, List.append_nil]

/-- The calls among the steps of `on_resolved` are its events. -/
theorem lock_calls_on_resolved (c : service_connection_t) (f : Except exception service_info_t)
    (query : Except exception endpoint_t) (socket : Option exception) :
    lock_calls (c.on_resolved_steps f query socket) = (c.on_resolved f query socket).events := by
  have hfailed := lock_calls_failed c.m_handlers
  by_cases hp : ∃ info target, f = Except.ok info ∧ query = Except.ok target ∧
      c.m_version = info.version
  · obtain ⟨info, target, rfl, rfl, hv⟩ := hp
    rw [(on_resolved_proceeds c info target socket hv).2, ← lock_calls_connect_to_endpoint]
    simp [service_connection_t.on_resolved_steps, hv]
  · rw [(on_resolved_fails c f query socket
      (fun info target h1 h2 hv => hp ⟨info, target, h1, h2, hv⟩)).2.2, ← hfailed]
    cases f with
    | error e => rfl
    | ok info =>
      cases query with
      | error e => rfl
      | ok target =>
        have hv : c.m_version ≠ info.version := fun hv => hp ⟨info, target, rfl, rfl, hv⟩
        simp [service_connection_t.on_resolved_steps, hv]

/-- The calls among call steps are the calls. -/
theorem lock_calls_map_call (evs : List event) : lock_calls (evs.map lock_step.call) = evs := by
  induction evs with
  | nil => rfl
  | cons e evs ih => rw [List.map_cons, lock_calls_call, ih]

/-- The events of `on_message` for a known band: the release request, if any, the delivery,
and the warning line, if any. -/
theorem on_message_events_parts (choke : Nat) (c : service_connection_t) (message : message_t)
    (delivery : handler_result) (h : handler_t)
    (hfind : handlers_map_t.find c.m_handlers message.band = some h) :
    (c.on_message choke message delivery).events =
      c.on_message_released choke message ++
        (event.deliver h message :: c.on_message_warning delivery) := by
  unfold service_connection_t.on_message service_connection_t.on_message_released
    service_connection_t.on_message_warning
  rw [hfind]
  by_cases hid : message.id = choke
  · cases delivery with
    | returns => simp [hid]
    | throws_std =>
      cases hm : c.m_manager with
      | none => simp [hid, hm]
      | some m => cases hl : m.system_logger <;> simp [hid, hm, hl]
    | throws_other code => simp [hid]
  · cases delivery with
    | returns => simp [hid]
    | throws_std =>
      cases hm : c.m_manager with
      | none => simp [hid, hm]
      | some m => cases hl : m.system_logger <;> simp [hid, hm, hl]
    | throws_other code => simp [hid]

/-- The calls among the steps of `on_message` are its events. -/
theorem lock_calls_on_message (choke : Nat) (c : service_connection_t) (message : message_t)
    (delivery : handler_result) :
    lock_calls (c.on_message_steps choke message delivery) =
      (c.on_message choke message delivery).events := by
  cases hfind : handlers_map_t.find c.m_handlers message.band with
  | none =>
    unfold service_connection_t.on_message_steps service_connection_t.on_message
    rw [hfind]
    cases c.m_manager with
    | none => rfl
    | some m => cases hl : m.system_logger <;> simp [hl] <;> rfl
  | some h =>
    rw [on_message_events_parts choke c message delivery h hfind]
    unfold service_connection_t.on_message_steps
    rw [hfind]
    show lock_calls (lock_step.acquire ::
      ((c.on_message_released choke message).map lock_step.call ++
        ([lock_step.release, lock_step.call (event.deliver h message)] ++
          (c.on_message_warning delivery).map lock_step.call))) = _
    rw [lock_calls_acquire, lock_calls_append, lock_calls_map_call, List.cons_append,
      lock_calls_release, List.cons_append, lock_calls_call, List.nil_append,
      lock_calls_map_call]

/-- A call step is made with the locks held so far. -/
theorem held_at_calls_call (held : Nat) (e : event) (steps : List lock_step) :
    held_at_calls held (lock_step.call e :: steps) = (e, held) :: held_at_calls held steps :=
  rfl

/-- Call steps are all made with the same locks held. -/
theorem held_at_calls_map_call (held : Nat) (evs : List event) (rest : List lock_step) :
    held_at_calls held (evs.map lock_step.call ++ rest) =
      evs.map (fun e => (e, held)) ++ held_at_calls held rest := by
  induction evs with
  | nil => rfl
  | cons e evs ih =>
    rw [List.map_cons, List.cons_append, held_at_calls_call, ih, List.map_cons,
      List.cons_append]

/-- While `reset_sessions` runs the number of locks held does not change, and every *fail*
is made with that number held. -/
theorem held_at_calls_reset_sessions (held : Nat) (t : handlers_map_t)
    (rest : List lock_step) :
    held_at_calls held (reset_sessions_steps t ++ rest) =
      (fail_all t).map (fun e => (e, held)) ++ held_at_calls held rest := by
  have h : reset_sessions_steps t = (fail_all t).map lock_step.call := by
    unfold reset_sessions_steps fail_all
    rw [List.map_map]
    rfl
  rw [h]
  exact held_at_calls_map_call held (fail_all t) rest

/-- Outside Connecting, `reconnect` makes every *fail* call while it holds the lock it took
on entry. -/
theorem reconnect_fails_under_lock (c : service_connection_t) (socket : Option exception)
    (hs : c.m_connection_status ≠ service_status.connecting) :
    ∃ rest, held_at_calls 0 (c.reconnect_steps socket) =
      (fail_all c.m_handlers).map (fun e => (e, 1)) ++ rest := by
  unfold service_connection_t.reconnect_steps
  rw [if_neg hs]
  exact ⟨_, held_at_calls_reset_sessions 1 c.m_handlers _⟩

/-- In `on_message` every call on a handler is made with no lock held. -/
theorem on_message_calls_unlocked (choke : Nat) (c : service_connection_t)
    (message : message_t) (delivery : handler_result) :
    ∀ p ∈ held_at_calls 0 (c.on_message_steps choke message delivery),
      event.is_handler_call p.1 = true → p.2 = 0 := by
  have hrel : ∀ e ∈ c.on_message_released choke message, e = event.release := by
    intro e he
    unfold service_connection_t.on_message_released at he
    cases hm : c.m_manager with
    | none =>
      by_cases hid : message.id = choke <;> simp [hid, hm] at he
    | some m =>
      by_cases hid : message.id = choke <;> simp [hid, hm] at he <;> exact he.2
  unfold service_connection_t.on_message_steps
  cases handlers_map_t.find c.m_handlers message.band with
  | none =>
    cases c.m_manager with
    | none => simp [held_at_calls]
    | some m => cases hl : m.system_logger <;> simp [held_at_calls, hl, event.is_handler_call]
  | some h =>
    show ∀ p ∈ held_at_calls 1
      ((c.on_message_released choke message).map lock_step.call ++
        ([lock_step.release, lock_step.call (event.deliver h message)] ++
          (c.on_message_warning delivery).map lock_step.call)), _
    rw [held_at_calls_map_call]
    intro p hp hcall
    rcases List.mem_append.mp hp with hp | hp
    · obtain ⟨e, he, rfl⟩ := List.mem_map.mp hp
      rw [hrel e he] at hcall
      cases hcall
    · have hrest : held_at_calls 1
          ([lock_step.release, lock_step.call (event.deliver h message)] ++
            (c.on_message_warning delivery).map lock_step.call) =
          (event.deliver h message, 0) ::
            (c.on_message_warning delivery).map (fun e => (e, 0)) := by
        show (event.deliver h message, 0) ::
          held_at_calls 0 ((c.on_message_warning delivery).map lock_step.call) = _
        have hw := held_at_calls_map_call 0 (c.on_message_warning delivery) []
        rw [List.append_nil] at hw
        rw [hw]
        show _ :: (_ ++ []) = _
        rw [List.append_nil]
      rw [hrest] at hp
      rcases List.mem_cons.mp hp with hp | hp
      · rw [hp]
      · obtain ⟨e, _, rfl⟩ := List.mem_map.mp hp
        rfl

/-- C16, the code at the failing input: `reconnect` on the connected sample with sessions 1
and 2.  Both *fail* calls are made while the operation holds the lock taken at line 93; so
is the *fail* call of a failing `on_resolved` (lock taken at line 188).  The *deliver* call
of `on_message` is made with no lock held.  The steps listed have the calls of the
operations as their calls. -/
theorem fail_called_with_mutex_held :
    held_at_calls 0 (sample_two_sessions.reconnect_steps none) =
      [(event.fail 7 service_errc.not_connected, 1),
        (event.fail 8 service_errc.not_connected, 1),
        (event.retire sample_two_sessions.m_channel, 1),
        (event.open_socket sample_two_sessions.m_endpoint, 0), (event.wake_up, 0)] ∧
    lock_calls (sample_two_sessions.reconnect_steps none) =
      (sample_two_sessions.reconnect none).events ∧
    held_at_calls 0 (sample_connecting_session.on_resolved_steps
        (Except.error (exception.foreign 8)) (Except.error (exception.foreign 8)) none) =
      [(event.fail 7 service_errc.not_connected, 1)] ∧
    held_at_calls 0 (sample_two_sessions.on_message_steps 6
        { band := 1, id := 4, payload := [] } handler_result.returns) =
      [(event.deliver 7 { band := 1, id := 4, payload := [] }, 0)] := by
  decide

end cocaine.framework
